import Mathlib

/-!
# AndroidIM server: framing codec and connection registry

A shallow embedding of the server's wire codec (`protocol/encoder.cpp`,
`protocol/decoder.cpp`) and of the dispatch and registry code of
`server/epoll_server.cpp`, with the properties the specification states
about them.

Conventions of the embedding:
* a byte (`uint8_t`, one `char` of a `std::string`) is a `Fin 256`; byte
  vectors and `std::string` values are `List Byte`;
* `uint16_t` / `uint32_t` values are `Nat`, reduced `% 2^16` / `% 2^32`
  wherever the C++ arithmetic is done in that width;
* `size_t` and iterator differences are 64-bit (LP64) and never wrap for the
  sizes that occur, so they are plain `Nat`;
* the `while` loop of the decoder runs on fuel; a read outside the buffer
  (undefined behaviour in C++) and a loop that never ends are explicit
  faults of type `Fault`.
-/

set_option autoImplicit false

namespace im

/-! ## protocol/message.h -/

/-- One octet: `uint8_t`. -/
abbrev Byte := Fin 256

/-- The protocol constant `MAGIC = 0x494D494D` ("IMIM"). -/
def MAGIC : Nat := 0x494D494D

/-! Numeric values of `enum class MessageType : uint16_t`. -/
namespace MessageType

def LOGIN_REQUEST : Nat := 0x0001
def LOGIN_RESPONSE : Nat := 0x0002
def REGISTER_REQUEST : Nat := 0x0003
def REGISTER_RESPONSE : Nat := 0x0004
def SEND_MESSAGE : Nat := 0x0005
def RECEIVE_MESSAGE : Nat := 0x0006
def HEARTBEAT : Nat := 0x0007
def HEARTBEAT_RESPONSE : Nat := 0x0008
def USER_LIST_REQUEST : Nat := 0x0009
def USER_LIST_RESPONSE : Nat := 0x000A
def LOGOUT : Nat := 0x000B
def ERROR : Nat := 0x000C
def FRIEND_APPLY_REQUEST : Nat := 0x0100
def FRIEND_APPLY_RESPONSE : Nat := 0x0101
def FRIEND_APPLY_NOTIFY : Nat := 0x0102
def FRIEND_HANDLE_REQUEST : Nat := 0x0103
def FRIEND_HANDLE_RESPONSE : Nat := 0x0104
def FRIEND_HANDLE_NOTIFY : Nat := 0x0105
def FRIEND_LIST_REQUEST : Nat := 0x0106
def FRIEND_LIST_RESPONSE : Nat := 0x0107
def FRIEND_DELETE_REQUEST : Nat := 0x0108
def FRIEND_DELETE_RESPONSE : Nat := 0x0109
def FRIEND_BLOCK_REQUEST : Nat := 0x010A
def FRIEND_BLOCK_RESPONSE : Nat := 0x010B
def GROUP_CREATE_REQUEST : Nat := 0x0200
def GROUP_CREATE_RESPONSE : Nat := 0x0201
def GROUP_LIST_REQUEST : Nat := 0x0202
def GROUP_LIST_RESPONSE : Nat := 0x0203
def GROUP_MEMBER_LIST_REQUEST : Nat := 0x0204
def GROUP_MEMBER_LIST_RESPONSE : Nat := 0x0205
def GROUP_INVITE_REQUEST : Nat := 0x0206
def GROUP_INVITE_RESPONSE : Nat := 0x0207
def GROUP_INVITE_NOTIFY : Nat := 0x0208
def GROUP_KICK_REQUEST : Nat := 0x0209
def GROUP_KICK_RESPONSE : Nat := 0x020A
def GROUP_KICK_NOTIFY : Nat := 0x020B
def GROUP_QUIT_REQUEST : Nat := 0x020C
def GROUP_QUIT_RESPONSE : Nat := 0x020D
def GROUP_QUIT_NOTIFY : Nat := 0x020E
def GROUP_DISMISS_REQUEST : Nat := 0x020F
def GROUP_DISMISS_RESPONSE : Nat := 0x0210
def GROUP_DISMISS_NOTIFY : Nat := 0x0211
def GROUP_UPDATE_INFO_REQUEST : Nat := 0x0212
def GROUP_UPDATE_INFO_RESPONSE : Nat := 0x0213
def GROUP_UPDATE_INFO_NOTIFY : Nat := 0x0214

end MessageType

/-- The `struct Packet` of message.h: `magic` and `length` are `uint32_t`,
`type` is a `MessageType` (any `uint16_t` value), `data` is a `std::string`. -/
structure Packet where
  magic : Nat
  type : Nat
  length : Nat
  data : List Byte
  deriving DecidableEq, Repr

/-! ## Byte order helpers (`htonl`, `htons`, `ntohl`, `ntohs` with `memcpy`) -/

/-- The four bytes, in memory order, of `htonl (v)` for a `uint32_t` `v`:
most significant byte first. -/
def be32 (v : Nat) : List Byte :=
  [Fin.ofNat (v / 2 ^ 24), Fin.ofNat (v / 2 ^ 16), Fin.ofNat (v / 2 ^ 8), Fin.ofNat v]

/-- The two bytes, in memory order, of `htons (v)` for a `uint16_t` `v`. -/
def be16 (v : Nat) : List Byte :=
  [Fin.ofNat (v / 2 ^ 8), Fin.ofNat v]

/-- The byte `buffer_[i]` as a number (only used at offsets inside the buffer). -/
def byteAt (buf : List Byte) (i : Nat) : Nat :=
  (buf.getD i 0).val

/-- Reading `ntohl` of the four bytes copied from `buffer_.data() + off`. -/
def readU32 (buf : List Byte) (off : Nat) : Nat :=
  byteAt buf off * 2 ^ 24 + byteAt buf (off + 1) * 2 ^ 16
    + byteAt buf (off + 2) * 2 ^ 8 + byteAt buf (off + 3)

/-- Reading `ntohs` of the two bytes copied from `buffer_.data() + off`. -/
def readU16 (buf : List Byte) (off : Nat) : Nat :=
  byteAt buf off * 2 ^ 8 + byteAt buf (off + 1)

/-! ## protocol/encoder.cpp -/

/-- The function `MessageEncoder::encode`. The type is cast to `uint16_t`, the
string length to `uint32_t`; the payload bytes follow the 10-byte header. -/
def encode (type : Nat) (jsonData : List Byte) : List Byte :=
  be32 MAGIC ++ be16 (type % 2 ^ 16) ++ be32 (jsonData.length % 2 ^ 32) ++ jsonData

/-! ## protocol/decoder.cpp -/

/-- Ways in which a run of the decoder fails to return. -/
inductive Fault where
  /-- A range handed to the `std::string` constructor ends beyond
  `buffer_.end()`: an out-of-bounds read, undefined behaviour. -/
  | outOfBounds
  /-- The `while` loop of `decodeMessages` never exits. -/
  | nonTermination
  deriving DecidableEq, Repr

/-- Equality of decoder results is decidable. -/
instance instDecidableEqExcept {ε α : Type} [DecidableEq ε] [DecidableEq α] :
    DecidableEq (Except ε α)
  | .ok a, .ok b => if h : a = b then isTrue (by rw [h]) else isFalse (fun e => h (by cases e; rfl))
  | .error a, .error b =>
    if h : a = b then isTrue (by rw [h]) else isFalse (fun e => h (by cases e; rfl))
  | .ok _, .error _ => isFalse (fun e => by cases e)
  | .error _, .ok _ => isFalse (fun e => by cases e)

/-- The constant `MAX_MAGIC_MISMATCH` of `decodeMessages`. -/
def MAX_MAGIC_MISMATCH : Nat := 10

/-- The `while (buffer_.size() >= 10)` loop of `MessageDecoder::decodeMessages`,
one unit of fuel per test of the loop condition. The arguments are the buffer,
`magicMismatchCount` and the queue `messages` (front first).

`requiredSize` and `removeSize` are `10 + length` computed in `uint32_t`
(`int + uint32_t`), hence `% 2^32`, and then widened to `size_t`; the iterator
`buffer_.begin() + 10 + length` is computed in the 64-bit difference type and
does not wrap. -/
def decodeLoop : Nat → List Byte → Nat → List Packet → Except Fault (List Packet × List Byte)
  | 0, _, _, _ => .error .nonTermination
  | fuel + 1, buffer_, magicMismatchCount, messages =>
    if buffer_.length < 10 then
      .ok (messages, buffer_)
    else
      let magic := readU32 buffer_ 0
      let type := readU16 buffer_ 4
      let length := readU32 buffer_ 6
      if magic ≠ MAGIC then
        let magicMismatchCount := magicMismatchCount + 1
        if magicMismatchCount ≤ MAX_MAGIC_MISMATCH then
          decodeLoop fuel (buffer_.drop 1) magicMismatchCount messages
        else if magicMismatchCount = MAX_MAGIC_MISMATCH + 1 then
          .ok (messages, [])
        else
          decodeLoop fuel (buffer_.drop 1) magicMismatchCount messages
      else
        let requiredSize := (10 + length) % 2 ^ 32
        if buffer_.length < requiredSize then
          .ok (messages, buffer_)
        else if buffer_.length < 10 + length then
          .error .outOfBounds
        else
          let dataStr := (buffer_.drop 10).take length
          let packet : Packet := { magic := magic, type := type, length := length, data := dataStr }
          let removeSize := (10 + length) % 2 ^ 32
          decodeLoop fuel (buffer_.drop removeSize) 0 (messages ++ [packet])

/-- The function `MessageDecoder::decodeMessages` on the buffer `buffer_`: the
decoded packets and the buffer left behind. A loop that terminates tests its
condition at most `buffer_.size() + 1` times (`decodeLoop_fuel_stable`). -/
def decodeMessages (buffer_ : List Byte) : Except Fault (List Packet × List Byte) :=
  if buffer_.isEmpty then
    .ok ([], buffer_)
  else
    decodeLoop (buffer_.length + 1) buffer_ 0 []

/-- The function `MessageDecoder::addData`: append the chunk to the buffer, then
decode. The first argument is the decoder's `buffer_` before the call. -/
def addData (buffer_ : List Byte) (data : List Byte) : Except Fault (List Packet × List Byte) :=
  decodeMessages (buffer_ ++ data)

/-- Feeding a sequence of chunks to a decoder, one `addData` call per chunk:
the packets of all calls concatenated in call order, and the final buffer. -/
def feedChunks : List Byte → List (List Byte) → Except Fault (List Packet × List Byte)
  | buffer_, [] => .ok ([], buffer_)
  | buffer_, chunk :: rest =>
    match addData buffer_ chunk with
    | .error e => .error e
    | .ok (pkts, buffer') =>
      match feedChunks buffer' rest with
      | .error e => .error e
      | .ok (more, final) => .ok (pkts ++ more, final)

/-- Feeding a stream one byte per `addData` call. -/
def feedBytes (buffer_ : List Byte) (stream : List Byte) : Except Fault (List Packet × List Byte) :=
  feedChunks buffer_ (stream.map fun b => [b])

/-- A 10-byte header with type field `t` and length field `n`. -/
def frameHeader (t n : Nat) : List Byte :=
  be32 MAGIC ++ be16 t ++ be32 n

/-- The packet a frame carrying `(type, payload)` stands for. -/
def mkPacket (type : Nat) (payload : List Byte) : Packet :=
  { magic := MAGIC, type := type, length := payload.length, data := payload }

/-- What the decoder guarantees of a packet it hands out. -/
def WellFormed (p : Packet) : Prop :=
  p.magic = MAGIC ∧ p.data.length = p.length ∧ p.length < 2 ^ 32

/-- The byte stream made of the encodings of a list of `(type, payload)`
pairs, one after the other. -/
def encodeAll : List (Nat × List Byte) → List Byte
  | [] => []
  | (type, payload) :: rest => encode type payload ++ encodeAll rest

/-- The packets a list of `(type, payload)` pairs stands for, in order. -/
def packetsOf (msgs : List (Nat × List Byte)) : List Packet :=
  msgs.map fun m => mkPacket m.1 m.2

/-! ## server/epoll_server.h, server/epoll_server.cpp

The server is modelled sequentially: one call runs to its end before the next
starts. The state holds the registry `clients_` and the list of system calls
issued on sockets so far; what the kernel answers to `send` and what
`time(nullptr)` returns come from an environment `Env`. -/

/-- The bytes of a string literal (the source files are UTF-8). -/
def utf8 (s : String) : List Byte :=
  (s.data.flatMap String.utf8EncodeChar).map fun b => Fin.ofNat b.toNat

/-- The class `MessageDecoder`: its only member is `buffer_`. -/
structure MessageDecoder where
  buffer_ : List Byte := []
  deriving DecidableEq, Repr

/-- The struct `EpollServer::ClientConnection`. -/
structure ClientConnection where
  fd : Int
  decoder : MessageDecoder := {}
  userId : List Byte := []
  username : List Byte := []
  authenticated : Bool
  deriving DecidableEq, Repr

/-- A system call issued on a client descriptor. -/
inductive SysCall where
  /-- The call `send(fd, bytes, len, 0)`. -/
  | send (fd : Int) (bytes : List Byte)
  /-- The call `epoll_ctl(epollFd, EPOLL_CTL_DEL, fd, nullptr)`. -/
  | epollCtlDel (epollFd : Int) (fd : Int)
  /-- The call `close(fd)`. -/
  | close (fd : Int)
  deriving DecidableEq, Repr

/-- What `send` returns: a byte count, or `-1` with `errno` set. -/
inductive SendResult where
  | sent (n : Nat)
  | failed (errno : Nat)
  deriving DecidableEq, Repr

def EBADF : Nat := 9
def EPIPE : Nat := 32
def ECONNRESET : Nat := 104

/-- The outside world as the server sees it: the answer of the kernel to a
`send`, given the system calls issued before it, and the clock. -/
structure Env where
  send : List SysCall → Int → List Byte → SendResult
  time : Int

/-- The members of `EpollServer` that the modelled functions touch.
`clients_` is the `std::map<int, unique_ptr<ClientConnection>>` as an
association list; `calls` records the system calls issued, oldest first. -/
structure EpollServer where
  serverFd_ : Int
  epollFd_ : Int
  running_ : Bool
  clients_ : List (Int × ClientConnection)
  calls : List SysCall := []
  deriving DecidableEq, Repr

/-- The lookup `clients_.find(fd)`. -/
def clientsFind : List (Int × ClientConnection) → Int → Option ClientConnection
  | [], _ => none
  | (k, c) :: rest, fd => if k = fd then some c else clientsFind rest fd

/-- The removal `clients_.erase(it)` for the iterator found at key `fd`. -/
def clientsErase : List (Int × ClientConnection) → Int → List (Int × ClientConnection)
  | [], _ => []
  | (k, c) :: rest, fd => if k = fd then rest else (k, c) :: clientsErase rest fd

/-- An update in place of the connection that `clients_.find(fd)` points to. -/
def clientsModify (f : ClientConnection → ClientConnection) :
    List (Int × ClientConnection) → Int → List (Int × ClientConnection)
  | [], _ => []
  | (k, c) :: rest, fd => if k = fd then (k, f c) :: rest else (k, c) :: clientsModify f rest fd

/-- The invariant of `std::map`: keys strictly increasing, hence unique. -/
def clientsOrdered (m : List (Int × ClientConnection)) : Prop :=
  (m.map Prod.fst).Pairwise (· < ·)

instance (m : List (Int × ClientConnection)) : Decidable (clientsOrdered m) := by
  unfold clientsOrdered; infer_instance

/-- Recording one system call. -/
def EpollServer.issue (s : EpollServer) (c : SysCall) : EpollServer :=
  { s with calls := s.calls ++ [c] }

/-- The function `EpollServer::closeConnection`. -/
def closeConnection (s : EpollServer) (fd : Int) : EpollServer :=
  let s1 :=
    match clientsFind s.clients_ fd with
    | some _ => { s with clients_ := clientsErase s.clients_ fd }
    | none => s
  let s2 := if s1.epollFd_ ≥ 0 then s1.issue (.epollCtlDel s1.epollFd_ fd) else s1
  if fd ≥ 0 then s2.issue (.close fd) else s2

/-- The test `errno == EPIPE || errno == ECONNRESET || errno == EBADF`. -/
def isConnectionError (errno : Nat) : Bool :=
  errno == EPIPE || errno == ECONNRESET || errno == EBADF

/-- The function `EpollServer::sendMessage`. -/
def sendMessage (env : Env) (s : EpollServer) (fd : Int) (type : Nat) (jsonData : List Byte) :
    EpollServer :=
  match clientsFind s.clients_ fd with
  | none => s
  | some _ =>
    let packet := encode type jsonData
    let s1 := s.issue (.send fd packet)
    match env.send s.calls fd packet with
    | .failed errno =>
      if isConnectionError errno then closeConnection s1 fd else s1
    | .sent sent =>
      if sent ≠ packet.length then
        if 0 < sent ∧ sent < packet.length then
          let remaining := packet.length - sent
          let s2 := s1.issue (.send fd ((packet.drop sent).take remaining))
          match env.send s1.calls fd ((packet.drop sent).take remaining) with
          | .failed errno =>
            if isConnectionError errno then closeConnection s2 fd else s2
          | .sent _ => s2
        else s1
      else s1

/-- The function `EpollServer::setClientAuthenticated`. -/
def setClientAuthenticated (s : EpollServer) (fd : Int) (userId username : List Byte) :
    EpollServer :=
  let update : ClientConnection → ClientConnection := fun c =>
    { c with
      authenticated := true,
      userId := userId,
      username := if username.isEmpty then userId else username }
  { s with clients_ := clientsModify update s.clients_ fd }

/-- The handlers `processMessage` dispatches to (`handler/*.cpp`), each a
transformation of the server it is handed by reference. -/
structure Handlers where
  loginHandle : EpollServer → Int → List Byte → EpollServer
  loginHandleRegister : EpollServer → Int → List Byte → EpollServer
  messageHandle : EpollServer → Int → List Byte → EpollServer
  friendHandleApply : EpollServer → Int → List Byte → EpollServer
  friendHandleApplyAction : EpollServer → Int → List Byte → EpollServer
  friendHandleFriendList : EpollServer → Int → List Byte → EpollServer
  friendHandleDelete : EpollServer → Int → List Byte → EpollServer
  friendHandleBlock : EpollServer → Int → List Byte → EpollServer
  groupHandleCreate : EpollServer → Int → List Byte → EpollServer
  groupHandleGroupList : EpollServer → Int → List Byte → EpollServer
  groupHandleMemberList : EpollServer → Int → List Byte → EpollServer
  groupHandleInvite : EpollServer → Int → List Byte → EpollServer
  groupHandleKick : EpollServer → Int → List Byte → EpollServer
  groupHandleQuit : EpollServer → Int → List Byte → EpollServer
  groupHandleDismiss : EpollServer → Int → List Byte → EpollServer
  groupHandleUpdateInfo : EpollServer → Int → List Byte → EpollServer
  userHandleUserList : EpollServer → Int → EpollServer

/-- The raw string literal sent to a connection that has not logged in. -/
def notLoggedIn : List Byte :=
  utf8 "\x7b\"error_code\":1001,\"error_message\":\"请先登录\"\x7d"

/-- The function `EpollServer::processMessage`. -/
def processMessage (h : Handlers) (env : Env) (s : EpollServer) (fd : Int) (packet : Packet) :
    EpollServer :=
  let msgType := packet.type % 2 ^ 16
  match clientsFind s.clients_ fd with
  | none => s
  | some client =>
    let authenticated := client.authenticated
    if msgType = MessageType.LOGIN_REQUEST then
      h.loginHandle s fd packet.data
    else if msgType = MessageType.REGISTER_REQUEST then
      h.loginHandleRegister s fd packet.data
    else if msgType = MessageType.SEND_MESSAGE then
      if authenticated then h.messageHandle s fd packet.data
      else sendMessage env s fd MessageType.ERROR notLoggedIn
    else if msgType = MessageType.HEARTBEAT then
      let heartbeatResponse := utf8 "\x7b\"timestamp\":" ++ utf8 (toString env.time) ++ utf8 "\x7d"
      sendMessage env s fd MessageType.HEARTBEAT_RESPONSE heartbeatResponse
    else if msgType = MessageType.FRIEND_APPLY_REQUEST then
      if authenticated then h.friendHandleApply s fd packet.data
      else sendMessage env s fd MessageType.ERROR notLoggedIn
    else if msgType = MessageType.FRIEND_HANDLE_REQUEST then
      if authenticated then h.friendHandleApplyAction s fd packet.data
      else sendMessage env s fd MessageType.ERROR notLoggedIn
    else if msgType = MessageType.FRIEND_LIST_REQUEST then
      if authenticated then h.friendHandleFriendList s fd packet.data
      else sendMessage env s fd MessageType.ERROR notLoggedIn
    else if msgType = MessageType.FRIEND_DELETE_REQUEST then
      if authenticated then h.friendHandleDelete s fd packet.data
      else sendMessage env s fd MessageType.ERROR notLoggedIn
    else if msgType = MessageType.FRIEND_BLOCK_REQUEST then
      if authenticated then h.friendHandleBlock s fd packet.data
      else sendMessage env s fd MessageType.ERROR notLoggedIn
    else if msgType = MessageType.GROUP_CREATE_REQUEST then
      if authenticated then h.groupHandleCreate s fd packet.data
      else sendMessage env s fd MessageType.ERROR notLoggedIn
    else if msgType = MessageType.GROUP_LIST_REQUEST then
      if authenticated then h.groupHandleGroupList s fd packet.data
      else sendMessage env s fd MessageType.ERROR notLoggedIn
    else if msgType = MessageType.GROUP_MEMBER_LIST_REQUEST then
      if authenticated then h.groupHandleMemberList s fd packet.data
      else sendMessage env s fd MessageType.ERROR notLoggedIn
    else if msgType = MessageType.GROUP_INVITE_REQUEST then
      if authenticated then h.groupHandleInvite s fd packet.data
      else sendMessage env s fd MessageType.ERROR notLoggedIn
    else if msgType = MessageType.GROUP_KICK_REQUEST then
      if authenticated then h.groupHandleKick s fd packet.data
      else sendMessage env s fd MessageType.ERROR notLoggedIn
    else if msgType = MessageType.GROUP_QUIT_REQUEST then
      if authenticated then h.groupHandleQuit s fd packet.data
      else sendMessage env s fd MessageType.ERROR notLoggedIn
    else if msgType = MessageType.GROUP_DISMISS_REQUEST then
      if authenticated then h.groupHandleDismiss s fd packet.data
      else sendMessage env s fd MessageType.ERROR notLoggedIn
    else if msgType = MessageType.GROUP_UPDATE_INFO_REQUEST then
      if authenticated then h.groupHandleUpdateInfo s fd packet.data
      else sendMessage env s fd MessageType.ERROR notLoggedIn
    else if msgType = MessageType.USER_LIST_REQUEST then
      if authenticated then h.userHandleUserList s fd
      else sendMessage env s fd MessageType.ERROR notLoggedIn
    else if msgType = MessageType.LOGOUT then
      closeConnection s fd
    else
      s

/-- Handlers that leave the server as it is. -/
def idleHandlers : Handlers :=
  { loginHandle := fun s _ _ => s
    loginHandleRegister := fun s _ _ => s
    messageHandle := fun s _ _ => s
    friendHandleApply := fun s _ _ => s
    friendHandleApplyAction := fun s _ _ => s
    friendHandleFriendList := fun s _ _ => s
    friendHandleDelete := fun s _ _ => s
    friendHandleBlock := fun s _ _ => s
    groupHandleCreate := fun s _ _ => s
    groupHandleGroupList := fun s _ _ => s
    groupHandleMemberList := fun s _ _ => s
    groupHandleInvite := fun s _ _ => s
    groupHandleKick := fun s _ _ => s
    groupHandleQuit := fun s _ _ => s
    groupHandleDismiss := fun s _ _ => s
    groupHandleUpdateInfo := fun s _ _ => s
    userHandleUserList := fun s _ => s }

/-- A kernel that accepts every `send` in full; the clock reads 1700000000. -/
def goodEnv : Env :=
  { send := fun _ _ bytes => .sent bytes.length
    time := 1700000000 }

/-- A running server with one connection, fd 5, accepted and not logged in. -/
def freshServer : EpollServer :=
  { serverFd_ := 3
    epollFd_ := 4
    running_ := true
    clients_ := [(5, { fd := 5, authenticated := false })] }

/-- The packet types `processMessage` serves only to authenticated connections. -/
def gatedTypes : List Nat :=
  [MessageType.SEND_MESSAGE, MessageType.USER_LIST_REQUEST,
   MessageType.FRIEND_APPLY_REQUEST, MessageType.FRIEND_HANDLE_REQUEST,
   MessageType.FRIEND_LIST_REQUEST, MessageType.FRIEND_DELETE_REQUEST,
   MessageType.FRIEND_BLOCK_REQUEST,
   MessageType.GROUP_CREATE_REQUEST, MessageType.GROUP_LIST_REQUEST,
   MessageType.GROUP_MEMBER_LIST_REQUEST, MessageType.GROUP_INVITE_REQUEST,
   MessageType.GROUP_KICK_REQUEST, MessageType.GROUP_QUIT_REQUEST,
   MessageType.GROUP_DISMISS_REQUEST, MessageType.GROUP_UPDATE_INFO_REQUEST]

/-! ## server/epoll_server.cpp: accepting, stopping, looking up, routing -/

/-- The assignment `clients_[fd] = client` of a `std::map`: the entry is put
at its place in key order, replacing an entry with the same key. -/
def clientsInsert :
    List (Int × ClientConnection) → Int → ClientConnection → List (Int × ClientConnection)
  | [], fd, c => [(fd, c)]
  | (k, v) :: rest, fd, c =>
    if fd < k then (fd, c) :: (k, v) :: rest
    else if fd = k then (fd, c) :: rest
    else (k, v) :: clientsInsert rest fd c

/-- What one turn of the loop of `acceptConnection` meets: `accept` fails with
an error other than `EAGAIN` / `EWOULDBLOCK`, or it returns a descriptor
(`clientFd >= 0`) and `epoll_ctl(EPOLL_CTL_ADD)` then succeeds or fails. -/
inductive AcceptResult where
  | failed
  | accepted (clientFd : Nat) (epollAdded : Bool)
  deriving DecidableEq, Repr

/-- The function `EpollServer::acceptConnection`; the list holds what the
successive `accept` calls meet before the one that fails with `EAGAIN`. -/
def acceptConnection (s : EpollServer) : List AcceptResult → EpollServer
  | [] => s
  | .failed :: more => acceptConnection s more
  | .accepted clientFd false :: more => acceptConnection (s.issue (.close clientFd)) more
  | .accepted clientFd true :: more =>
    acceptConnection
      { s with clients_ :=
          clientsInsert s.clients_ clientFd { fd := clientFd, authenticated := false } }
      more

/-- The function `EpollServer::stop`. -/
def stop (s : EpollServer) : EpollServer :=
  if !s.running_ then s
  else
    let s1 : EpollServer :=
      { s with
        running_ := false,
        calls := s.calls ++ s.clients_.map (fun e => SysCall.close e.1),
        clients_ := [] }
    let s2 : EpollServer :=
      if s1.epollFd_ ≥ 0 then { s1.issue (.close s1.epollFd_) with epollFd_ := -1 } else s1
    if s2.serverFd_ ≥ 0 then { s2.issue (.close s2.serverFd_) with serverFd_ := -1 } else s2

/-- The struct `ClientInfo` of epoll_server.h. -/
structure ClientInfo where
  userId : List Byte
  username : List Byte
  authenticated : Bool
  deriving DecidableEq, Repr

/-- The function `EpollServer::getClientInfo`; `nullptr` is `none`. -/
def getClientInfo (s : EpollServer) (fd : Int) : Option ClientInfo :=
  match clientsFind s.clients_ fd with
  | some client =>
    if client.authenticated then
      some { userId := client.userId, username := client.username,
             authenticated := client.authenticated }
    else none
  | none => none

/-- The function `EpollServer::getOnlineUsers`. -/
def getOnlineUsers (s : EpollServer) : List (List Byte) :=
  (s.clients_.filter fun e => e.2.authenticated).map fun e => e.2.userId

/-- The function `EpollServer::getOnlineUsersWithInfo`. -/
def getOnlineUsersWithInfo (s : EpollServer) : List (List Byte × List Byte) :=
  (s.clients_.filter fun e => e.2.authenticated).map fun e => (e.2.userId, e.2.username)

/-- The search loop of `sendMessageToUser`: the key of the first connection, in
map order, that is authenticated as `userId`; `-1` when there is none. -/
def findUserFd : List (Int × ClientConnection) → List Byte → Int
  | [], _ => -1
  | (fd, client) :: rest, userId =>
    if client.authenticated ∧ client.userId = userId then fd else findUserFd rest userId

/-- The function `EpollServer::sendMessageToUser`. -/
def sendMessageToUser (env : Env) (s : EpollServer) (userId : List Byte) (type : Nat)
    (jsonData : List Byte) : EpollServer :=
  let targetFd := findUserFd s.clients_ userId
  if targetFd ≥ 0 then sendMessage env s targetFd type jsonData else s

/-- The snapshot `targetFds` of `broadcastMessage`. -/
def broadcastTargets (clients : List (Int × ClientConnection)) (excludeFd : Int) : List Int :=
  (clients.filter fun e => e.2.authenticated ∧ e.1 ≠ excludeFd).map fun e => e.1

/-- The function `EpollServer::broadcastMessage`. -/
def broadcastMessage (env : Env) (s : EpollServer) (type : Nat) (jsonData : List Byte)
    (excludeFd : Int) : EpollServer :=
  (broadcastTargets s.clients_ excludeFd).foldl
    (fun st fd => sendMessage env st fd type jsonData) s

/-- An operation on the registry, with its arguments. -/
inductive RegistryOp where
  | accept (results : List AcceptResult)
  | setClientAuthenticated (fd : Int) (userId username : List Byte)
  | closeConnection (fd : Int)
  | stop
  deriving DecidableEq, Repr

/-- One registry operation applied to the server. -/
def applyOp (s : EpollServer) : RegistryOp → EpollServer
  | .accept results => acceptConnection s results
  | .setClientAuthenticated fd userId username => setClientAuthenticated s fd userId username
  | .closeConnection fd => closeConnection s fd
  | .stop => stop s

/-- A sequence of registry operations, applied in order. -/
def runOps (s : EpollServer) (ops : List RegistryOp) : EpollServer :=
  ops.foldl applyOp s

/-- The server right after a successful `start()`: listening socket 3, epoll
descriptor 4, nobody connected. -/
def startedServer : EpollServer :=
  { serverFd_ := 3, epollFd_ := 4, running_ := true, clients_ := [] }

/-- What holds of every registry the server builds: the keys are in
increasing order (`std::map`) and none is negative (`accept` returned them). -/
def registryValid (m : List (Int × ClientConnection)) : Prop :=
  clientsOrdered m ∧ ∀ e ∈ m, 0 ≤ e.1

instance (m : List (Int × ClientConnection)) : Decidable (registryValid m) := by
  unfold registryValid; infer_instance

/-- The descriptors to which the whole frame `frame` was handed to `send`, in
call order. -/
def frameRecipients (frame : List Byte) (calls : List SysCall) : List Int :=
  calls.filterMap fun c =>
    match c with
    | .send fd bytes => if bytes = frame then some fd else none
    | _ => none

/-! ## Regular expressions of the handlers

The handlers read their requests with `std::regex_search` (ECMAScript
grammar). The patterns they use are sequences of literals, greedy repetitions
of one character class, an optional character and one alternation of words,
with a single capture group; `reMatch` matches such a sequence at the head of
the input, trying the longest repetition first and backing off, as the
ECMAScript matcher does. -/

/-- One element of a pattern. `captured` says whether the element lies inside
the capture group. -/
inductive ReAtom where
  | lit (text : List Byte)
  | star (inClass : Byte → Bool) (captured : Bool)
  | plus (inClass : Byte → Bool) (captured : Bool)
  | opt (b : Byte)
  | oneOf (words : List (List Byte))

/-- The first success of `f k` for `k` going down from the given bound to `least`. -/
def tryLongest {α : Type} (f : Nat → Option α) (least : Nat) : Nat → Option α
  | 0 => if least = 0 then f 0 else none
  | k + 1 =>
    if k + 1 < least then none
    else
      match f (k + 1) with
      | some r => some r
      | none => tryLongest f least k

/-- A match of the pattern at the head of `input`: the text of the capture
group (added to `cap`) and the input left after the match. -/
def reMatch : List ReAtom → List Byte → List Byte → Option (List Byte × List Byte)
  | [], input, cap => some (cap, input)
  | .lit text :: rest, input, cap =>
    if input.take text.length = text then reMatch rest (input.drop text.length) cap else none
  | .star inClass captured :: rest, input, cap =>
    tryLongest
      (fun k => reMatch rest (input.drop k) (if captured then cap ++ input.take k else cap))
      0 (input.takeWhile inClass).length
  | .plus inClass captured :: rest, input, cap =>
    tryLongest
      (fun k => reMatch rest (input.drop k) (if captured then cap ++ input.take k else cap))
      1 (input.takeWhile inClass).length
  | .opt b :: rest, input, cap =>
    match (if input.head? = some b then reMatch rest (input.drop 1) cap else none) with
    | some r => some r
    | none => reMatch rest input cap
  | .oneOf words :: rest, input, cap =>
    words.findSome? fun w =>
      if input.take w.length = w then reMatch rest (input.drop w.length) (cap ++ w) else none

/-- The call `std::regex_search`: the match starting at the leftmost possible
position. -/
def regexSearch (re : List ReAtom) : List Byte → Option (List Byte × List Byte)
  | [] => reMatch re [] []
  | b :: bs =>
    match reMatch re (b :: bs) [] with
    | some r => some r
    | none => regexSearch re bs

/-- The idiom `if (regex_search(json, m, re)) x = m[1].str();` on an empty `x`. -/
def regexField (re : List ReAtom) (jsonData : List Byte) : List Byte :=
  match regexSearch re jsonData with
  | some (cap, _) => cap
  | none => []

/-- The captures of the successive matches that a `std::sregex_iterator` walks
through, for a pattern that matches no empty text. -/
def regexAllAux (re : List ReAtom) : Nat → List Byte → List (List Byte)
  | 0, _ => []
  | fuel + 1, input =>
    match regexSearch re input with
    | none => []
    | some (cap, rest) => cap :: regexAllAux re fuel rest

def regexAll (re : List ReAtom) (input : List Byte) : List (List Byte) :=
  regexAllAux re (input.length + 1) input

/-- The class `\s`: space, tab, line feed, vertical tab, form feed, carriage return. -/
def isSpaceByte (b : Byte) : Bool :=
  b = 0x20 || (0x09 ≤ b.val && b.val ≤ 0x0D)

/-- The class `[^\"]`. -/
def notQuote (b : Byte) : Bool := b ≠ 0x22

/-- The class `[0-9]`. -/
def isDigitByte (b : Byte) : Bool := 0x30 ≤ b.val && b.val ≤ 0x39

/-- The class `[a-zA-Z]`. -/
def isAlphaByte (b : Byte) : Bool :=
  (0x61 ≤ b.val && b.val ≤ 0x7A) || (0x41 ≤ b.val && b.val ≤ 0x5A)

/-- The class `[^\]]`. -/
def notCloseBracket (b : Byte) : Bool := b ≠ 0x5D

/-- The pattern `\"key\"\s*:\s*\"([^\"]+)\"`. -/
def stringFieldRegex (key : String) : List ReAtom :=
  [.lit (utf8 ("\"" ++ key ++ "\"")), .star isSpaceByte false, .lit (utf8 ":"),
   .star isSpaceByte false, .lit (utf8 "\""), .plus notQuote true, .lit (utf8 "\"")]

/-- The pattern `\"key\"\s*:\s*\"?([0-9]+)\"?`. -/
def numberFieldRegex (key : String) : List ReAtom :=
  [.lit (utf8 ("\"" ++ key ++ "\"")), .star isSpaceByte false, .lit (utf8 ":"),
   .star isSpaceByte false, .opt 0x22, .plus isDigitByte true, .opt 0x22]

/-- The pattern `\"action\"\s*:\s*\"([a-zA-Z]+)\"`. -/
def actionRegex : List ReAtom :=
  [.lit (utf8 "\"action\""), .star isSpaceByte false, .lit (utf8 ":"),
   .star isSpaceByte false, .lit (utf8 "\""), .plus isAlphaByte true, .lit (utf8 "\"")]

/-- The pattern `\"member_user_ids\"\s*:\s*\[([^\]]*)\]`. -/
def membersRegex : List ReAtom :=
  [.lit (utf8 "\"member_user_ids\""), .star isSpaceByte false, .lit (utf8 ":"),
   .star isSpaceByte false, .lit (utf8 "["), .star notCloseBracket true, .lit (utf8 "]")]

/-- The pattern `\"([^\"]+)\"`. -/
def idRegex : List ReAtom :=
  [.lit (utf8 "\""), .plus notQuote true, .lit (utf8 "\"")]

/-- The member ids of a request: every quoted text inside the brackets of
`member_user_ids`; none when the field is missing. -/
def parseMemberIds (jsonData : List Byte) : List (List Byte) :=
  match regexSearch membersRegex jsonData with
  | some (membersStr, _) => regexAll idRegex membersStr
  | none => []

/-! ## database/database.h, database/database.cpp

MySQL is outside the repository: what the server answers to each statement
the code sends is given by functions of the values put into the statement. -/

/-- The members of `Database` and the answers of the MySQL server.
For a `SELECT`, `none` is a failure of `mysql_query` or `mysql_store_result`,
and the value inside `some` is what `mysql_fetch_row` finds. -/
structure Database where
  /-- Whether `mysql_` is not null. -/
  mysql_ : Bool
  connected_ : Bool
  /-- The first row (`user_id`, nullable `nickname`) of
  `SELECT user_id, nickname FROM users WHERE username = .. AND password = ..`. -/
  selectUser : List Byte → List Byte → Option (Option (List Byte × Option (List Byte)))
  /-- The value `atoi(row[0])` of `SELECT COUNT(*) FROM users WHERE username = ..`. -/
  countUsers : List Byte → Option (Option Int)
  /-- The `INSERT INTO users (username, password, nickname)`: `none` when it
  fails, otherwise `mysql_insert_id`. -/
  insertUser : List Byte → List Byte → List Byte → Option Nat
  /-- The value `atoi(row[0])` of
  `SELECT COUNT(*) FROM group_members WHERE group_id = .. AND user_id = ..`. -/
  countGroupMember : List Byte → List Byte → Option (Option Int)
  /-- The rows (nullable `user_id`) of
  `SELECT user_id FROM group_members WHERE group_id = ..`. -/
  selectGroupMembers : List Byte → Option (List (Option (List Byte)))

/-- The function `Database::isConnected`. -/
def Database.isConnected (db : Database) : Bool :=
  db.mysql_ && db.connected_

/-- The function `Database::userExists`. -/
def Database.userExists (db : Database) (username : List Byte) : Bool :=
  if !db.mysql_ || !db.connected_ then false
  else
    match db.countUsers username with
    | none => false
    | some none => false
    | some (some n) => decide (n > 0)

/-- The function `Database::verifyUser`: `none` is `false`, otherwise the
output parameters `userId` and `nickname`. -/
def Database.verifyUser (db : Database) (username password : List Byte) :
    Option (List Byte × List Byte) :=
  if !db.mysql_ || !db.connected_ then none
  else
    match db.selectUser username password with
    | none => none
    | some none => none
    | some (some (userId, nickname)) =>
      some (userId, match nickname with | some k => k | none => username)

/-- The function `Database::registerUser`: `none` is `false`, otherwise the
output parameter `userId`. -/
def Database.registerUser (db : Database) (username password nickname : List Byte) :
    Option (List Byte) :=
  if !db.mysql_ || !db.connected_ then none
  else if db.userExists username then none
  else
    match db.insertUser username password nickname with
    | none => none
    | some insertId => some (utf8 (toString insertId))

/-! ## handler/login_handler.cpp -/

/-- The function `LoginHandler::handle`. -/
def LoginHandler.handle (env : Env) (db : Database) (s : EpollServer) (fd : Int)
    (jsonData : List Byte) : EpollServer :=
  let username := regexField (stringFieldRegex "username") jsonData
  let password := regexField (stringFieldRegex "password") jsonData
  if username.isEmpty || password.isEmpty then
    sendMessage env s fd MessageType.LOGIN_RESPONSE
      (utf8 "\x7b\"success\":false,\"message\":\"用户名或密码不能为空\",\"user_id\":null,\"username\":null\x7d")
  else if !db.isConnected then
    sendMessage env s fd MessageType.LOGIN_RESPONSE
      (utf8 "\x7b\"success\":false,\"message\":\"服务器内部错误，请稍后重试\",\"user_id\":null,\"username\":null\x7d")
  else
    match db.verifyUser username password with
    | some (userId, _) =>
      let response := utf8 "\x7b\"success\":true,\"message\":\"登录成功\",\"user_id\":\"" ++ userId
        ++ utf8 "\",\"username\":\"" ++ username ++ utf8 "\"\x7d"
      let s1 := setClientAuthenticated s fd userId username
      sendMessage env s1 fd MessageType.LOGIN_RESPONSE response
    | none =>
      sendMessage env s fd MessageType.LOGIN_RESPONSE
        (utf8 "\x7b\"success\":false,\"message\":\"用户名或密码错误\",\"user_id\":null,\"username\":null\x7d")

/-- The function `LoginHandler::handleRegister`. -/
def LoginHandler.handleRegister (env : Env) (db : Database) (s : EpollServer) (fd : Int)
    (jsonData : List Byte) : EpollServer :=
  let username := regexField (stringFieldRegex "username") jsonData
  let password := regexField (stringFieldRegex "password") jsonData
  let nickname := regexField (stringFieldRegex "nickname") jsonData
  if username.isEmpty || password.isEmpty then
    sendMessage env s fd MessageType.REGISTER_RESPONSE
      (utf8 "\x7b\"success\":false,\"message\":\"用户名或密码不能为空\",\"user_id\":null\x7d")
  else
    match db.registerUser username password nickname with
    | some userId =>
      let response := utf8 "\x7b\"success\":true,\"message\":\"注册成功\",\"user_id\":\"" ++ userId ++ utf8 "\"\x7d"
      let s1 := setClientAuthenticated s fd userId username
      sendMessage env s1 fd MessageType.REGISTER_RESPONSE response
    | none =>
      if db.userExists username then
        sendMessage env s fd MessageType.REGISTER_RESPONSE
          (utf8 "\x7b\"success\":false,\"message\":\"用户名已存在\",\"user_id\":null\x7d")
      else
        sendMessage env s fd MessageType.REGISTER_RESPONSE
          (utf8 "\x7b\"success\":false,\"message\":\"注册失败，请稍后重试\",\"user_id\":null\x7d")

/-! ## handler/message_handler.cpp -/

/-- The digit that `%X` prints for a value below 16. -/
def hexDigitUpper (n : Nat) : Byte :=
  if n < 10 then Fin.ofNat (0x30 + n) else Fin.ofNat (0x41 + (n - 10))

/-- What `escapeJsonString` of message_handler.cpp writes for one character. -/
def escapeJsonChar (c : Byte) : List Byte :=
  if c = 0x22 then utf8 "\\\""
  else if c = 0x5C then utf8 "\\\\"
  else if c = 0x08 then utf8 "\\b"
  else if c = 0x0C then utf8 "\\f"
  else if c = 0x0A then utf8 "\\n"
  else if c = 0x0D then utf8 "\\r"
  else if c = 0x09 then utf8 "\\t"
  else if c.val < 32 then
    utf8 "\\u" ++ [hexDigitUpper (c.val / 4096 % 16), hexDigitUpper (c.val / 256 % 16),
      hexDigitUpper (c.val / 16 % 16), hexDigitUpper (c.val % 16)]
  else [c]

/-- The function `escapeJsonString` of message_handler.cpp. -/
def escapeJsonString (str : List Byte) : List Byte :=
  str.flatMap escapeJsonChar

/-- The text that `MessageHandler::handle` builds in `response`. -/
def receiveMessagePayload (env : Env) (senderInfo : ClientInfo)
    (isGroupConversation : Bool) (toUserId content messageType groupId : List Byte) :
    List Byte :=
  utf8 "\x7b\"conversation_type\":\"" ++ (if isGroupConversation then utf8 "group" else utf8 "single")
    ++ utf8 "\""
    ++ utf8 ",\"from_user_id\":\"" ++ escapeJsonString senderInfo.userId
    ++ utf8 "\",\"from_username\":\"" ++ escapeJsonString senderInfo.username
    ++ utf8 "\",\"content\":\"" ++ escapeJsonString content
    ++ utf8 "\",\"message_type\":\""
    ++ escapeJsonString (if messageType.isEmpty then utf8 "text" else messageType)
    ++ utf8 "\",\"timestamp\":" ++ utf8 (toString env.time)
    ++ (if isGroupConversation then
          utf8 ",\"group_id\":\"" ++ escapeJsonString groupId ++ utf8 "\""
        else if !toUserId.isEmpty && toUserId ≠ utf8 "all" then
          utf8 ",\"to_user_id\":\"" ++ escapeJsonString toUserId ++ utf8 "\""
        else [])
    ++ utf8 "\x7d"

/-- The function `MessageHandler::handle`. -/
def MessageHandler.handle (env : Env) (db : Database) (s : EpollServer) (fd : Int)
    (jsonData : List Byte) : EpollServer :=
  let toUserId := regexField (stringFieldRegex "to_user_id") jsonData
  let content := regexField (stringFieldRegex "content") jsonData
  let messageType := regexField (stringFieldRegex "message_type") jsonData
  let conversationType := regexField (stringFieldRegex "conversation_type") jsonData
  let groupId := regexField (stringFieldRegex "group_id") jsonData
  if content.isEmpty then
    sendMessage env s fd MessageType.ERROR
      (utf8 "\x7b\"error_code\":1002,\"error_message\":\"消息内容不能为空\"\x7d")
  else
    match getClientInfo s fd with
    | none => sendMessage env s fd MessageType.ERROR notLoggedIn
    | some senderInfo =>
      let isGroupConversation : Bool := conversationType = utf8 "group"
      if isGroupConversation && groupId.isEmpty then
        sendMessage env s fd MessageType.ERROR
          (utf8 "\x7b\"error_code\":3002,\"error_message\":\"group_id 不能为空\"\x7d")
      else
        let response := receiveMessagePayload env senderInfo isGroupConversation
          toUserId content messageType groupId
        if isGroupConversation then
          if !db.isConnected then
            sendMessage env s fd MessageType.ERROR
              (utf8 "\x7b\"error_code\":5000,\"error_message\":\"服务器数据库未连接\"\x7d")
          else
            match db.countGroupMember groupId senderInfo.userId with
            | none =>
              sendMessage env s fd MessageType.ERROR
                (utf8 "\x7b\"error_code\":5001,\"error_message\":\"查询群成员失败\"\x7d")
            | some row =>
              let isMember : Bool :=
                match row with
                | some count => decide (count > 0)
                | none => false
              if !isMember then
                sendMessage env s fd MessageType.ERROR
                  (utf8 "\x7b\"error_code\":3100,\"error_message\":\"您不是该群成员，无法发送群消息\"\x7d")
              else
                match db.selectGroupMembers groupId with
                | none =>
                  sendMessage env s fd MessageType.ERROR
                    (utf8 "\x7b\"error_code\":5002,\"error_message\":\"查询群成员列表失败\"\x7d")
                | some rows =>
                  let memberIds := rows.filterMap id
                  memberIds.foldl
                    (fun st uid =>
                      sendMessageToUser env st uid MessageType.RECEIVE_MESSAGE response)
                    s
        else if toUserId = utf8 "all" then
          broadcastMessage env s MessageType.RECEIVE_MESSAGE response fd
        else if toUserId.isEmpty then
          sendMessage env s fd MessageType.ERROR
            (utf8 "\x7b\"error_code\":1003,\"error_message\":\"目标用户ID不能为空\"\x7d")
        else
          let userFound : Bool := (getOnlineUsers s).contains toUserId
          if userFound then
            sendMessageToUser env s toUserId MessageType.RECEIVE_MESSAGE response
          else
            sendMessage env s fd MessageType.ERROR
              (utf8 "\x7b\"error_code\":1004,\"error_message\":\"目标用户不在线\",\"to_user_id\":\"" ++ toUserId ++ utf8 "\"\x7d")

/-! ## handler/user_handler.cpp -/

/-- The static map `userNicknames` of user_handler.cpp (userId to nickname).
Nothing in the repository ever writes to it. -/
def userNicknames : List (List Byte × List Byte) := []

/-- The lookup `userNicknames.count(userId) ? userNicknames[userId] : username`. -/
def nicknameOf (userId username : List Byte) : List Byte :=
  match userNicknames.lookup userId with
  | some nickname => nickname
  | none => username

/-- The entry that `handleUserList` writes for one online user. -/
def userListEntry (userId username : List Byte) : List Byte :=
  utf8 "\x7b\"user_id\":\"" ++ userId
    ++ utf8 "\",\"username\":\"" ++ username
    ++ utf8 "\",\"nickname\":\"" ++ nicknameOf userId username
    ++ utf8 "\",\"online\":true\x7d"

/-- The entries separated by commas, as the loop with the flag `first` writes them. -/
def joinWithCommas : List (List Byte) → List Byte
  | [] => []
  | [x] => x
  | x :: y :: rest => x ++ utf8 "," ++ joinWithCommas (y :: rest)

/-- The text that `handleUserList` builds in `response`. -/
def userListPayload (s : EpollServer) : List Byte :=
  utf8 "\x7b\"users\":["
    ++ joinWithCommas ((getOnlineUsersWithInfo s).map fun u => userListEntry u.1 u.2)
    ++ utf8 "]\x7d"

/-- The function `UserHandler::handleUserList`. -/
def UserHandler.handleUserList (env : Env) (s : EpollServer) (fd : Int) : EpollServer :=
  sendMessage env s fd MessageType.USER_LIST_RESPONSE (userListPayload s)

/-! ## handler/friend_handler.cpp, handler/group_handler.cpp

Each of these handlers checks the requester, reads and checks the request,
then looks at `Database::isConnected()`; what it does with a connected store
is SQL against MySQL and is left as a parameter here. -/

/-- The reply of the friend and group handlers to a requester who is not logged in. -/
def notLoggedInReply : List Byte :=
  utf8 "\x7b\"success\":false,\"error_code\":1001,\"error_message\":\"请先登录\"\x7d"

/-- The reply of the friend and group handlers when the store is not connected. -/
def storeDownReply : List Byte :=
  utf8 "\x7b\"success\":false,\"error_code\":5000,\"error_message\":\"服务器数据库未连接\"\x7d"

/-- What each friend or group handler does once it has found the store
connected, given the server, the descriptor and the request. -/
structure StoreWork where
  friendApply : EpollServer → Int → List Byte → EpollServer
  friendApplyAction : EpollServer → Int → List Byte → EpollServer
  friendList : EpollServer → Int → List Byte → EpollServer
  friendDelete : EpollServer → Int → List Byte → EpollServer
  friendBlock : EpollServer → Int → List Byte → EpollServer
  groupCreate : EpollServer → Int → List Byte → EpollServer
  groupList : EpollServer → Int → List Byte → EpollServer
  groupMemberList : EpollServer → Int → List Byte → EpollServer
  groupInvite : EpollServer → Int → List Byte → EpollServer
  groupKick : EpollServer → Int → List Byte → EpollServer
  groupQuit : EpollServer → Int → List Byte → EpollServer
  groupDismiss : EpollServer → Int → List Byte → EpollServer
  groupUpdateInfo : EpollServer → Int → List Byte → EpollServer

/-- The common shape of the friend and group handlers: the requester must be
logged in, the request must pass the handler's check (`invalid` is the reply
when it does not), the store must be connected. -/
def guardedHandler (env : Env) (db : Database) (s : EpollServer) (fd : Int)
    (responseType : Nat) (requestOk : Bool) (invalid : List Byte)
    (work : EpollServer → EpollServer) : EpollServer :=
  match getClientInfo s fd with
  | none => sendMessage env s fd MessageType.ERROR notLoggedInReply
  | some _ =>
    if !requestOk then sendMessage env s fd responseType invalid
    else if !db.isConnected then sendMessage env s fd responseType storeDownReply
    else work s

/-- The function `FriendHandler::handleApply` up to its use of the store. -/
def FriendHandler.handleApply (env : Env) (db : Database) (work : StoreWork) (s : EpollServer)
    (fd : Int) (jsonData : List Byte) : EpollServer :=
  guardedHandler env db s fd MessageType.FRIEND_APPLY_RESPONSE
    (!(regexField (stringFieldRegex "target_username") jsonData).isEmpty)
    (utf8 "\x7b\"success\":false,\"error_code\":2001,\"error_message\":\"target_username 不能为空\"\x7d")
    (fun st => work.friendApply st fd jsonData)

/-- The function `FriendHandler::handleApplyAction` up to its use of the store. -/
def FriendHandler.handleApplyAction (env : Env) (db : Database) (work : StoreWork) (s : EpollServer)
    (fd : Int) (jsonData : List Byte) : EpollServer :=
  guardedHandler env db s fd MessageType.FRIEND_HANDLE_RESPONSE
    (!((regexField (numberFieldRegex "apply_id") jsonData).isEmpty
      || (regexField actionRegex jsonData).isEmpty))
    (utf8 "\x7b\"success\":false,\"error_code\":2003,\"error_message\":\"参数不完整\"\x7d")
    (fun st => work.friendApplyAction st fd jsonData)

/-- The function `FriendHandler::handleFriendList` up to its use of the store. -/
def FriendHandler.handleFriendList (env : Env) (db : Database) (work : StoreWork) (s : EpollServer)
    (fd : Int) (jsonData : List Byte) : EpollServer :=
  guardedHandler env db s fd MessageType.FRIEND_LIST_RESPONSE
    (true)
    ([])
    (fun st => work.friendList st fd jsonData)

/-- The function `FriendHandler::handleDelete` up to its use of the store. -/
def FriendHandler.handleDelete (env : Env) (db : Database) (work : StoreWork) (s : EpollServer)
    (fd : Int) (jsonData : List Byte) : EpollServer :=
  guardedHandler env db s fd MessageType.FRIEND_DELETE_RESPONSE
    (!(regexField (numberFieldRegex "friend_user_id") jsonData).isEmpty)
    (utf8 "\x7b\"success\":false,\"error_code\":2006,\"error_message\":\"friend_user_id 不能为空\"\x7d")
    (fun st => work.friendDelete st fd jsonData)

/-- The function `FriendHandler::handleBlock` up to its use of the store. -/
def FriendHandler.handleBlock (env : Env) (db : Database) (work : StoreWork) (s : EpollServer)
    (fd : Int) (jsonData : List Byte) : EpollServer :=
  guardedHandler env db s fd MessageType.FRIEND_BLOCK_RESPONSE
    (!(regexField (numberFieldRegex "target_user_id") jsonData).isEmpty)
    (utf8 "\x7b\"success\":false,\"error_code\":2007,\"error_message\":\"target_user_id 不能为空\"\x7d")
    (fun st => work.friendBlock st fd jsonData)

/-- The function `GroupHandler::handleCreate` up to its use of the store. -/
def GroupHandler.handleCreate (env : Env) (db : Database) (work : StoreWork) (s : EpollServer)
    (fd : Int) (jsonData : List Byte) : EpollServer :=
  guardedHandler env db s fd MessageType.GROUP_CREATE_RESPONSE
    (!(regexField (stringFieldRegex "group_name") jsonData).isEmpty)
    (utf8 "\x7b\"success\":false,\"error_code\":3001,\"error_message\":\"群名称不能为空\"\x7d")
    (fun st => work.groupCreate st fd jsonData)

/-- The function `GroupHandler::handleGroupList` up to its use of the store. -/
def GroupHandler.handleGroupList (env : Env) (db : Database) (work : StoreWork) (s : EpollServer)
    (fd : Int) (jsonData : List Byte) : EpollServer :=
  guardedHandler env db s fd MessageType.GROUP_LIST_RESPONSE
    (true)
    ([])
    (fun st => work.groupList st fd jsonData)

/-- The function `GroupHandler::handleMemberList` up to its use of the store. -/
def GroupHandler.handleMemberList (env : Env) (db : Database) (work : StoreWork) (s : EpollServer)
    (fd : Int) (jsonData : List Byte) : EpollServer :=
  guardedHandler env db s fd MessageType.GROUP_MEMBER_LIST_RESPONSE
    (!(regexField (stringFieldRegex "group_id") jsonData).isEmpty)
    (utf8 "\x7b\"success\":false,\"error_code\":3002,\"error_message\":\"group_id 不能为空\"\x7d")
    (fun st => work.groupMemberList st fd jsonData)

/-- The function `GroupHandler::handleInvite` up to its use of the store. -/
def GroupHandler.handleInvite (env : Env) (db : Database) (work : StoreWork) (s : EpollServer)
    (fd : Int) (jsonData : List Byte) : EpollServer :=
  guardedHandler env db s fd MessageType.GROUP_INVITE_RESPONSE
    (!((regexField (stringFieldRegex "group_id") jsonData).isEmpty
      || (parseMemberIds jsonData).isEmpty))
    (utf8 "\x7b\"success\":false,\"error_code\":3004,\"error_message\":\"group_id 和 member_user_ids 不能为空\"\x7d")
    (fun st => work.groupInvite st fd jsonData)

/-- The function `GroupHandler::handleKick` up to its use of the store. -/
def GroupHandler.handleKick (env : Env) (db : Database) (work : StoreWork) (s : EpollServer)
    (fd : Int) (jsonData : List Byte) : EpollServer :=
  guardedHandler env db s fd MessageType.GROUP_KICK_RESPONSE
    (!((regexField (stringFieldRegex "group_id") jsonData).isEmpty
      || (parseMemberIds jsonData).isEmpty))
    (utf8 "\x7b\"success\":false,\"error_code\":3006,\"error_message\":\"group_id 和 member_user_ids 不能为空\"\x7d")
    (fun st => work.groupKick st fd jsonData)

/-- The function `GroupHandler::handleQuit` up to its use of the store. -/
def GroupHandler.handleQuit (env : Env) (db : Database) (work : StoreWork) (s : EpollServer)
    (fd : Int) (jsonData : List Byte) : EpollServer :=
  guardedHandler env db s fd MessageType.GROUP_QUIT_RESPONSE
    (!(regexField (stringFieldRegex "group_id") jsonData).isEmpty)
    (utf8 "\x7b\"success\":false,\"error_code\":3008,\"error_message\":\"group_id 不能为空\"\x7d")
    (fun st => work.groupQuit st fd jsonData)

/-- The function `GroupHandler::handleDismiss` up to its use of the store. -/
def GroupHandler.handleDismiss (env : Env) (db : Database) (work : StoreWork) (s : EpollServer)
    (fd : Int) (jsonData : List Byte) : EpollServer :=
  guardedHandler env db s fd MessageType.GROUP_DISMISS_RESPONSE
    (!(regexField (stringFieldRegex "group_id") jsonData).isEmpty)
    (utf8 "\x7b\"success\":false,\"error_code\":3011,\"error_message\":\"group_id 不能为空\"\x7d")
    (fun st => work.groupDismiss st fd jsonData)

/-- The function `GroupHandler::handleUpdateInfo` up to its use of the store. -/
def GroupHandler.handleUpdateInfo (env : Env) (db : Database) (work : StoreWork) (s : EpollServer)
    (fd : Int) (jsonData : List Byte) : EpollServer :=
  guardedHandler env db s fd MessageType.GROUP_UPDATE_INFO_RESPONSE
    (!(regexField (stringFieldRegex "group_id") jsonData).isEmpty)
    (utf8 "\x7b\"success\":false,\"error_code\":3014,\"error_message\":\"group_id 不能为空\"\x7d")
    (fun st => work.groupUpdateInfo st fd jsonData)

/-- The handlers as `processMessage` calls them. -/
def serverHandlers (env : Env) (db : Database) (work : StoreWork) : Handlers :=
  { loginHandle := LoginHandler.handle env db
    loginHandleRegister := LoginHandler.handleRegister env db
    messageHandle := MessageHandler.handle env db
    friendHandleApply := FriendHandler.handleApply env db work
    friendHandleApplyAction := FriendHandler.handleApplyAction env db work
    friendHandleFriendList := FriendHandler.handleFriendList env db work
    friendHandleDelete := FriendHandler.handleDelete env db work
    friendHandleBlock := FriendHandler.handleBlock env db work
    groupHandleCreate := GroupHandler.handleCreate env db work
    groupHandleGroupList := GroupHandler.handleGroupList env db work
    groupHandleMemberList := GroupHandler.handleMemberList env db work
    groupHandleInvite := GroupHandler.handleInvite env db work
    groupHandleKick := GroupHandler.handleKick env db work
    groupHandleQuit := GroupHandler.handleQuit env db work
    groupHandleDismiss := GroupHandler.handleDismiss env db work
    groupHandleUpdateInfo := GroupHandler.handleUpdateInfo env db work
    userHandleUserList := UserHandler.handleUserList env }

/-! ## Vocabulary of the statements about the registry and the routing -/

/-- Every authenticated connection of the registry has a non-empty `userId`. -/
def authHasUserId (m : List (Int × ClientConnection)) : Prop :=
  ∀ e ∈ m, e.2.authenticated = true → e.2.userId ≠ []

instance (m : List (Int × ClientConnection)) : Decidable (authHasUserId m) := by
  unfold authHasUserId; infer_instance

/-- The descriptor a system call works on. -/
def SysCall.fd : SysCall → Int
  | .send fd _ => fd
  | .epollCtlDel _ fd => fd
  | .close fd => fd

/-- The `send` calls of a trace: descriptor and bytes handed over. -/
def writesOf (calls : List SysCall) : List (Int × List Byte) :=
  calls.filterMap fun c =>
    match c with
    | .send fd bytes => some (fd, bytes)
    | _ => none

/-- The errors after which `sendMessage` closes the connection. -/
def fatalErrno (errno : Nat) : Prop :=
  errno = EPIPE ∨ errno = ECONNRESET ∨ errno = EBADF

instance (errno : Nat) : Decidable (fatalErrno errno) := by
  unfold fatalErrno; infer_instance

/-- The first write of `frame` to `fd` in state `s` is cut short: the kernel
takes `n` bytes, more than none and fewer than all. -/
def shortWrite (env : Env) (s : EpollServer) (fd : Int) (frame : List Byte) (n : Nat) : Prop :=
  env.send s.calls fd frame = .sent n ∧ 0 < n ∧ n < frame.length

/-- One of the writes of `frame` to `fd` fails with a fatal error: the first
write, or the write of the rest after a short first write. -/
def fatalWrite (env : Env) (s : EpollServer) (fd : Int) (frame : List Byte) : Prop :=
  (∃ e, env.send s.calls fd frame = .failed e ∧ fatalErrno e) ∨
  (∃ n e, shortWrite env s fd frame n ∧
    env.send (s.calls ++ [.send fd frame]) fd (frame.drop n) = .failed e ∧ fatalErrno e)

/-! ## The handlers that consult the store -/

/-- The handlers that look at the store. -/
inductive StoreHandler where
  | login
  | register
  | groupMessage
  | friendApply
  | friendApplyAction
  | friendList
  | friendDelete
  | friendBlock
  | groupCreate
  | groupList
  | groupMemberList
  | groupInvite
  | groupKick
  | groupQuit
  | groupDismiss
  | groupUpdateInfo
  deriving DecidableEq, Repr

/-- The handler function a `StoreHandler` names. -/
def StoreHandler.run (h : StoreHandler) (env : Env) (db : Database) (work : StoreWork)
    (s : EpollServer) (fd : Int) (jsonData : List Byte) : EpollServer :=
  match h with
  | .login => LoginHandler.handle env db s fd jsonData
  | .register => LoginHandler.handleRegister env db s fd jsonData
  | .groupMessage => MessageHandler.handle env db s fd jsonData
  | .friendApply => FriendHandler.handleApply env db work s fd jsonData
  | .friendApplyAction => FriendHandler.handleApplyAction env db work s fd jsonData
  | .friendList => FriendHandler.handleFriendList env db work s fd jsonData
  | .friendDelete => FriendHandler.handleDelete env db work s fd jsonData
  | .friendBlock => FriendHandler.handleBlock env db work s fd jsonData
  | .groupCreate => GroupHandler.handleCreate env db work s fd jsonData
  | .groupList => GroupHandler.handleGroupList env db work s fd jsonData
  | .groupMemberList => GroupHandler.handleMemberList env db work s fd jsonData
  | .groupInvite => GroupHandler.handleInvite env db work s fd jsonData
  | .groupKick => GroupHandler.handleKick env db work s fd jsonData
  | .groupQuit => GroupHandler.handleQuit env db work s fd jsonData
  | .groupDismiss => GroupHandler.handleDismiss env db work s fd jsonData
  | .groupUpdateInfo => GroupHandler.handleUpdateInfo env db work s fd jsonData

/-- Whether a request gets as far as the handler's use of the store: it
passes the checks the handler makes before. -/
def StoreHandler.reachesStore (h : StoreHandler) (s : EpollServer) (fd : Int)
    (jsonData : List Byte) : Bool :=
  let loggedIn := (getClientInfo s fd).isSome
  let has := fun (key : String) => !(regexField (stringFieldRegex key) jsonData).isEmpty
  let hasNumber := fun (key : String) => !(regexField (numberFieldRegex key) jsonData).isEmpty
  match h with
  | .login => has "username" && has "password"
  | .register => has "username" && has "password"
  | .groupMessage =>
    has "content" && loggedIn
      && decide (regexField (stringFieldRegex "conversation_type") jsonData = utf8 "group")
      && has "group_id"
  | .friendApply => loggedIn && has "target_username"
  | .friendApplyAction =>
    loggedIn && hasNumber "apply_id" && !(regexField actionRegex jsonData).isEmpty
  | .friendList => loggedIn
  | .friendDelete => loggedIn && hasNumber "friend_user_id"
  | .friendBlock => loggedIn && hasNumber "target_user_id"
  | .groupCreate => loggedIn && has "group_name"
  | .groupList => loggedIn
  | .groupMemberList => loggedIn && has "group_id"
  | .groupInvite => loggedIn && has "group_id" && !(parseMemberIds jsonData).isEmpty
  | .groupKick => loggedIn && has "group_id" && !(parseMemberIds jsonData).isEmpty
  | .groupQuit => loggedIn && has "group_id"
  | .groupDismiss => loggedIn && has "group_id"
  | .groupUpdateInfo => loggedIn && has "group_id"

/-- The type of the packet a handler answers with when the store is not connected. -/
def StoreHandler.responseType : StoreHandler → Nat
  | .login => MessageType.LOGIN_RESPONSE
  | .register => MessageType.REGISTER_RESPONSE
  | .groupMessage => MessageType.ERROR
  | .friendApply => MessageType.FRIEND_APPLY_RESPONSE
  | .friendApplyAction => MessageType.FRIEND_HANDLE_RESPONSE
  | .friendList => MessageType.FRIEND_LIST_RESPONSE
  | .friendDelete => MessageType.FRIEND_DELETE_RESPONSE
  | .friendBlock => MessageType.FRIEND_BLOCK_RESPONSE
  | .groupCreate => MessageType.GROUP_CREATE_RESPONSE
  | .groupList => MessageType.GROUP_LIST_RESPONSE
  | .groupMemberList => MessageType.GROUP_MEMBER_LIST_RESPONSE
  | .groupInvite => MessageType.GROUP_INVITE_RESPONSE
  | .groupKick => MessageType.GROUP_KICK_RESPONSE
  | .groupQuit => MessageType.GROUP_QUIT_RESPONSE
  | .groupDismiss => MessageType.GROUP_DISMISS_RESPONSE
  | .groupUpdateInfo => MessageType.GROUP_UPDATE_INFO_RESPONSE

/-- The payload a handler answers with when the store is not connected. -/
def StoreHandler.storeDownPayload : StoreHandler → List Byte
  | .login =>
    utf8 "\x7b\"success\":false,\"message\":\"服务器内部错误，请稍后重试\",\"user_id\":null,\"username\":null\x7d"
  | .register =>
    utf8 "\x7b\"success\":false,\"message\":\"注册失败，请稍后重试\",\"user_id\":null\x7d"
  | .groupMessage => utf8 "\x7b\"error_code\":5000,\"error_message\":\"服务器数据库未连接\"\x7d"
  | _ => utf8 "\x7b\"success\":false,\"error_code\":5000,\"error_message\":\"服务器数据库未连接\"\x7d"

/-! ## Example stores, servers and requests -/

/-- A connected store: user alice (password pw) has user_id 42 and nickname
Al, user bob (password pw) has user_id 43 and no nickname; the group 1 has the
members 42, 43 and 44. -/
def demoDb : Database :=
  { mysql_ := true
    connected_ := true
    selectUser := fun username password =>
      if username = utf8 "alice" ∧ password = utf8 "pw" then
        some (some (utf8 "42", some (utf8 "Al")))
      else if username = utf8 "bob" ∧ password = utf8 "pw" then
        some (some (utf8 "43", none))
      else some none
    countUsers := fun username =>
      some (some (if username = utf8 "alice" ∨ username = utf8 "bob" then 1 else 0))
    insertUser := fun _ _ _ => some 45
    countGroupMember := fun groupId userId =>
      some (some (if groupId = utf8 "1"
        ∧ (userId = utf8 "42" ∨ userId = utf8 "43" ∨ userId = utf8 "44") then 1 else 0))
    selectGroupMembers := fun groupId =>
      some (if groupId = utf8 "1" then [some (utf8 "42"), some (utf8 "43"), some (utf8 "44")]
        else []) }

/-- The same store with the connection to MySQL lost. -/
def downDb : Database :=
  { demoDb with connected_ := false }

/-- A server with alice (42) on fd 5, bob (43) on fd 6 and a connection that
has not logged in on fd 7. -/
def chatServer : EpollServer :=
  { serverFd_ := 3
    epollFd_ := 4
    running_ := true
    clients_ :=
      [(5, { fd := 5, authenticated := true, userId := utf8 "42", username := utf8 "alice" }),
       (6, { fd := 6, authenticated := true, userId := utf8 "43", username := utf8 "bob" }),
       (7, { fd := 7, authenticated := false })] }

/-- The request `{"username":"alice","password":"pw"}`. -/
def loginRequest : List Byte :=
  utf8 "\x7b\"username\":\"alice\",\"password\":\"pw\"\x7d"

/-- The request `{"to_user_id":"43","content":"hi","conversation_type":"single"}`. -/
def singleRequest : List Byte :=
  utf8 "\x7b\"to_user_id\":\"43\",\"content\":\"hi\",\"conversation_type\":\"single\"\x7d"

/-- A kernel that takes 4 bytes of the first write and then reports a broken pipe. -/
def brokenPipeEnv : Env :=
  { send := fun calls _ _ => if calls.isEmpty then .sent 4 else .failed EPIPE
    time := 1700000000 }

/-- Work on the store that leaves the server as it is. -/
def idleWork : StoreWork :=
  { friendApply := fun s _ _ => s
    friendApplyAction := fun s _ _ => s
    friendList := fun s _ _ => s
    friendDelete := fun s _ _ => s
    friendBlock := fun s _ _ => s
    groupCreate := fun s _ _ => s
    groupList := fun s _ _ => s
    groupMemberList := fun s _ _ => s
    groupInvite := fun s _ _ => s
    groupKick := fun s _ _ => s
    groupQuit := fun s _ _ => s
    groupDismiss := fun s _ _ => s
    groupUpdateInfo := fun s _ _ => s }

/-! ## JSON escaping in handler/friend_handler.cpp and handler/group_handler.cpp -/

/-- What `escapeJsonStringFriend` of friend_handler.cpp writes for one
character: the `default` branch copies the character. -/
def escapeJsonCharFriend (c : Byte) : List Byte :=
  if c = 0x22 then utf8 "\\\""
  else if c = 0x5C then utf8 "\\\\"
  else if c = 0x08 then utf8 "\\b"
  else if c = 0x0C then utf8 "\\f"
  else if c = 0x0A then utf8 "\\n"
  else if c = 0x0D then utf8 "\\r"
  else if c = 0x09 then utf8 "\\t"
  else [c]

/-- The function `escapeJsonStringFriend` of friend_handler.cpp. -/
def escapeJsonStringFriend (str : List Byte) : List Byte :=
  str.flatMap escapeJsonCharFriend

/-- What `escapeJsonString` of group_handler.cpp writes for one character:
the `default` branch copies the character. -/
def GroupHandler.escapeJsonChar (c : Byte) : List Byte :=
  if c = 0x22 then utf8 "\\\""
  else if c = 0x5C then utf8 "\\\\"
  else if c = 0x08 then utf8 "\\b"
  else if c = 0x0C then utf8 "\\f"
  else if c = 0x0A then utf8 "\\n"
  else if c = 0x0D then utf8 "\\r"
  else if c = 0x09 then utf8 "\\t"
  else [c]

/-- The function `escapeJsonString` of group_handler.cpp. -/
def GroupHandler.escapeJsonString (str : List Byte) : List Byte :=
  str.flatMap GroupHandler.escapeJsonChar

/-! ## Vocabulary of the statements about JSON escaping -/

/-- A hexadecimal digit, `0`-`9`, `A`-`F` or `a`-`f`. -/
def isHexDigit (b : Byte) : Bool :=
  (0x30 ≤ b.val && b.val ≤ 0x39) || (0x41 ≤ b.val && b.val ≤ 0x46)
    || (0x61 ≤ b.val && b.val ≤ 0x66)

/-- The letter after a backslash in a short escape: `"`, `\`, `b`, `f`, `n`,
`r` or `t`. -/
def isShortEscape (b : Byte) : Bool :=
  b = 0x22 || b = 0x5C || b = 0x62 || b = 0x66 || b = 0x6E || b = 0x72 || b = 0x74

/-- The text is the inside of a JSON string: a sequence of characters that are
neither control characters (below 0x20) nor `"` nor `\`, of short escapes `\"`,
`\\`, `\b`, `\f`, `\n`, `\r`, `\t`, and of escapes `\u` followed by four
hexadecimal digits. The argument `n` bounds the length of the text. -/
def jsonEscapedAux : Nat → List Byte → Bool
  | _, [] => true
  | 0, _ :: _ => false
  | n + 1, c :: rest =>
    if c = 0x5C then
      match rest with
      | [] => false
      | e :: rest1 =>
        if e = 0x75 then
          match rest1 with
          | a :: b :: c :: d :: rest2 =>
            isHexDigit a && isHexDigit b && isHexDigit c && isHexDigit d
              && jsonEscapedAux n rest2
          | _ => false
        else isShortEscape e && jsonEscapedAux n rest1
    else decide (0x20 ≤ c.val) && c ≠ 0x22 && jsonEscapedAux n rest

/-- The text is the inside of a JSON string. -/
def jsonEscaped (text : List Byte) : Bool :=
  jsonEscapedAux text.length text

/-! ## thread_pool/thread_pool.h, thread_pool/thread_pool.cpp

The pool is the flag `stop_` and the queue `tasks_` (front first); a task is
named by a number. The threads take turns, and `submit`, `stop` and one turn
of the loop of `worker` each count as one step: the second test of the flag
and the push of `submit` are one critical section of `queueMutex_`, and so are
the test and the pop of a worker's turn, so no worker acts between the test
and the push; the write of the flag by `stop` falls before or after such a
section. -/

/-- The members `tasks_` and `stop_` of `ThreadPool`. -/
structure ThreadPool where
  tasks_ : List Nat
  stop_ : Bool
  deriving DecidableEq, Repr

/-- The function `ThreadPool::submit`. -/
def ThreadPool.submit (p : ThreadPool) (task : Nat) : ThreadPool :=
  if p.stop_ then p
  else if p.stop_ then p
  else { p with tasks_ := p.tasks_ ++ [task] }

/-- The function `ThreadPool::stop`, up to the `join` of the workers: the
flag is set unless it was set already. -/
def ThreadPool.stop (p : ThreadPool) : ThreadPool :=
  if p.stop_ then p else { p with stop_ := true }

/-- What one turn of the loop of `worker` does. -/
inductive WorkerTurn where
  /-- The predicate of `condition_.wait` is false: the thread sleeps. -/
  | waits
  /-- The thread returns from `worker`. -/
  | exits
  /-- The thread takes the task at the front, leaves the pool as given and
  runs the task. -/
  | runs (task : Nat) (pool : ThreadPool)
  deriving DecidableEq, Repr

/-- One turn of the loop of `ThreadPool::worker`. -/
def ThreadPool.worker (p : ThreadPool) : WorkerTurn :=
  if !(p.stop_ || !p.tasks_.isEmpty) then .waits
  else if p.stop_ && p.tasks_.isEmpty then .exits
  else
    match p.tasks_ with
    | task :: rest => .runs task { p with tasks_ := rest }
    | [] => .exits

/-- What happens to the pool: a thread submits a task, a thread calls `stop`,
or a worker thread makes one turn of its loop. -/
inductive PoolEvent where
  | submit (task : Nat)
  | stop
  | workerTurn
  deriving DecidableEq, Repr

/-- One event applied to the pool; the second component lists the tasks the
workers have taken and run so far, in the order they were taken. -/
def ThreadPool.step (st : ThreadPool × List Nat) : PoolEvent → ThreadPool × List Nat
  | .submit task => (st.1.submit task, st.2)
  | .stop => (st.1.stop, st.2)
  | .workerTurn =>
    match st.1.worker with
    | .waits => st
    | .exits => st
    | .runs task pool => (pool, st.2 ++ [task])

/-- A sequence of events applied in order. -/
def ThreadPool.run (st : ThreadPool × List Nat) (events : List PoolEvent) :
    ThreadPool × List Nat :=
  events.foldl ThreadPool.step st

/-! ## One turn of the loop of `decodeMessages` -/

/-- How one turn of the `while` loop of `decodeMessages` ends. -/
inductive LoopTurn where
  /-- The loop is left (its condition is false, or `break`): the queue and
  the buffer as they are then. -/
  | leave (messages : List Packet) (buffer_ : List Byte)
  /-- The loop goes on (`continue`, or the end of the body) with this buffer,
  this `magicMismatchCount` and this queue. -/
  | again (buffer_ : List Byte) (magicMismatchCount : Nat) (messages : List Packet)
  /-- The turn reads beyond the buffer. -/
  | fault (f : Fault)
  deriving DecidableEq, Repr

/-- The test of the loop condition and one run of the loop body of
`decodeMessages`, from the buffer, `magicMismatchCount` and the queue. -/
def decodeLoopTurn (buffer_ : List Byte) (magicMismatchCount : Nat) (messages : List Packet) :
    LoopTurn :=
  if buffer_.length < 10 then
    .leave messages buffer_
  else
    let magic := readU32 buffer_ 0
    let type := readU16 buffer_ 4
    let length := readU32 buffer_ 6
    if magic ≠ MAGIC then
      let magicMismatchCount := magicMismatchCount + 1
      if magicMismatchCount ≤ MAX_MAGIC_MISMATCH then
        .again (buffer_.drop 1) magicMismatchCount messages
      else if magicMismatchCount = MAX_MAGIC_MISMATCH + 1 then
        .leave messages []
      else
        .again (buffer_.drop 1) magicMismatchCount messages
    else
      let requiredSize := (10 + length) % 2 ^ 32
      if buffer_.length < requiredSize then
        .leave messages buffer_
      else if buffer_.length < 10 + length then
        .fault .outOfBounds
      else
        let dataStr := (buffer_.drop 10).take length
        let packet : Packet := { magic := magic, type := type, length := length, data := dataStr }
        let removeSize := (10 + length) % 2 ^ 32
        .again (buffer_.drop removeSize) 0 (messages ++ [packet])

/-! ## Vocabulary of the statement about chunking -/

/-- The pairs `(type, payload)` whose encodings the decoder takes apart again:
the type is a `uint16_t` and the frame is shorter than `2^32` bytes. -/
def validMessages (msgs : List (Nat × List Byte)) : Prop :=
  ∀ x ∈ msgs, x.1 < 2 ^ 16 ∧ x.2.length + 10 < 2 ^ 32

/-! ## Reading from a client socket: `handleClientData` -/

/-- The value of `errno` after a read that would block. -/
def EAGAIN : Nat := 11

/-- On Linux `EWOULDBLOCK` is `EAGAIN`. -/
def EWOULDBLOCK : Nat := 11

/-- A client socket as the kernel holds it: the bytes received and not read
yet (oldest first), whether the peer has closed its end, and an error waiting
to be reported. -/
structure Socket where
  pending : List Byte
  peerClosed : Bool := false
  failure : Option Nat := none
  deriving DecidableEq, Repr

/-- What `recv` returns: the bytes copied into the buffer (`bytesRead` is
their number, 0 after an orderly shutdown), or -1 with `errno`. -/
inductive RecvResult where
  | bytes (data : List Byte)
  | failed (errno : Nat)
  deriving DecidableEq, Repr

/-- The call `recv(fd, buffer, size, 0)` on a non-blocking socket: up to `size`
of the pending bytes leave the queue; with nothing pending, the error waiting if
there is one, 0 if the peer has closed, and otherwise -1 with `EAGAIN`. -/
def recv (sock : Socket) (size : Nat) : RecvResult × Socket :=
  if sock.pending.isEmpty then
    match sock.failure with
    | some errno => (.failed errno, sock)
    | none => if sock.peerClosed then (.bytes [], sock) else (.failed EAGAIN, sock)
  else
    (.bytes (sock.pending.take size), { sock with pending := sock.pending.drop size })

/-- The function `EpollServer::handleClientData`, given the socket behind
`fd`; it returns the server and the socket as they are when it returns. -/
def handleClientData (h : Handlers) (env : Env) (s : EpollServer) (sock : Socket) (fd : Int) :
    Except Fault (EpollServer × Socket) :=
  match recv sock 4096 with
  | (.failed errno, sock1) =>
    if errno ≠ EAGAIN ∧ errno ≠ EWOULDBLOCK then .ok (closeConnection s fd, sock1)
    else .ok (s, sock1)
  | (.bytes buffer, sock1) =>
    if buffer.length = 0 then
      .ok (closeConnection s fd, sock1)
    else
      match clientsFind s.clients_ fd with
      | none => .ok (s, sock1)
      | some client =>
        match addData client.decoder.buffer_ buffer with
        | .error f => .error f
        | .ok (messages, buffer_) =>
          let s1 : EpollServer :=
            { s with clients_ :=
                (clientsModify (fun c => { c with decoder := { buffer_ := buffer_ } })
                  s.clients_ fd) }
          .ok (messages.foldl (fun st packet => processMessage h env st fd packet) s1, sock1)

/-! ## The registry mutex and the socket writes

The routines of epoll_server.cpp once more, this time as the sequence of what
they do to `clientsMutex_` and of their `send` calls. The server state is
threaded through as before, so that each `send` is answered as in the
functions above. -/

/-- One step of a routine that matters for the lock discipline. -/
inductive Action where
  /-- A `std::lock_guard` on `clientsMutex_` is constructed. -/
  | lock
  /-- The scope of the `std::lock_guard` is left. -/
  | unlock
  /-- The call `send(fd, bytes, len, 0)`. -/
  | write (fd : Int) (bytes : List Byte)
  deriving DecidableEq, Repr

/-- The actions of `EpollServer::closeConnection`: the guard spans the whole
body, which sends nothing. -/
def closeConnectionActions (_s : EpollServer) (_fd : Int) : List Action :=
  [.lock, .unlock]

/-- The actions of `EpollServer::sendMessage`. -/
def sendMessageActions (env : Env) (s : EpollServer) (fd : Int) (type : Nat)
    (jsonData : List Byte) : List Action :=
  match clientsFind s.clients_ fd with
  | none => [.lock, .unlock]
  | some _ =>
    let packet := encode type jsonData
    let s1 := s.issue (.send fd packet)
    [.lock, .unlock, .write fd packet] ++
    match env.send s.calls fd packet with
    | .failed errno =>
      if isConnectionError errno then closeConnectionActions s1 fd else []
    | .sent sent =>
      if sent ≠ packet.length then
        if 0 < sent ∧ sent < packet.length then
          let remaining := packet.length - sent
          let s2 := s1.issue (.send fd ((packet.drop sent).take remaining))
          [.write fd ((packet.drop sent).take remaining)] ++
          match env.send s1.calls fd ((packet.drop sent).take remaining) with
          | .failed errno =>
            if isConnectionError errno then closeConnectionActions s2 fd else []
          | .sent _ => []
        else []
      else []

/-- The actions of `EpollServer::sendMessageToUser`. -/
def sendMessageToUserActions (env : Env) (s : EpollServer) (userId : List Byte) (type : Nat)
    (jsonData : List Byte) : List Action :=
  let targetFd := findUserFd s.clients_ userId
  [Action.lock, .unlock] ++
  if targetFd ≥ 0 then sendMessageActions env s targetFd type jsonData else []

/-- The actions of the loop `for (int fd : targetFds) sendMessage(fd, ..)`. -/
def sendRoundActions (env : Env) (type : Nat) (jsonData : List Byte) :
    List Int → EpollServer → List Action
  | [], _ => []
  | fd :: rest, st =>
    sendMessageActions env st fd type jsonData
      ++ sendRoundActions env type jsonData rest (sendMessage env st fd type jsonData)

/-- The actions of `EpollServer::broadcastMessage`. -/
def broadcastMessageActions (env : Env) (s : EpollServer) (type : Nat) (jsonData : List Byte)
    (excludeFd : Int) : List Action :=
  [Action.lock, .unlock]
    ++ sendRoundActions env type jsonData (broadcastTargets s.clients_ excludeFd) s

/-- The actions of the handlers `processMessage` dispatches to. -/
structure HandlerActions where
  loginHandle : EpollServer → Int → List Byte → List Action
  loginHandleRegister : EpollServer → Int → List Byte → List Action
  messageHandle : EpollServer → Int → List Byte → List Action
  friendHandleApply : EpollServer → Int → List Byte → List Action
  friendHandleApplyAction : EpollServer → Int → List Byte → List Action
  friendHandleFriendList : EpollServer → Int → List Byte → List Action
  friendHandleDelete : EpollServer → Int → List Byte → List Action
  friendHandleBlock : EpollServer → Int → List Byte → List Action
  groupHandleCreate : EpollServer → Int → List Byte → List Action
  groupHandleGroupList : EpollServer → Int → List Byte → List Action
  groupHandleMemberList : EpollServer → Int → List Byte → List Action
  groupHandleInvite : EpollServer → Int → List Byte → List Action
  groupHandleKick : EpollServer → Int → List Byte → List Action
  groupHandleQuit : EpollServer → Int → List Byte → List Action
  groupHandleDismiss : EpollServer → Int → List Byte → List Action
  groupHandleUpdateInfo : EpollServer → Int → List Byte → List Action
  userHandleUserList : EpollServer → Int → List Action

/-- Handlers that neither lock nor send. -/
def idleHandlerActions : HandlerActions :=
  {
    loginHandle := fun _ _ _ => []
    loginHandleRegister := fun _ _ _ => []
    messageHandle := fun _ _ _ => []
    friendHandleApply := fun _ _ _ => []
    friendHandleApplyAction := fun _ _ _ => []
    friendHandleFriendList := fun _ _ _ => []
    friendHandleDelete := fun _ _ _ => []
    friendHandleBlock := fun _ _ _ => []
    groupHandleCreate := fun _ _ _ => []
    groupHandleGroupList := fun _ _ _ => []
    groupHandleMemberList := fun _ _ _ => []
    groupHandleInvite := fun _ _ _ => []
    groupHandleKick := fun _ _ _ => []
    groupHandleQuit := fun _ _ _ => []
    groupHandleDismiss := fun _ _ _ => []
    groupHandleUpdateInfo := fun _ _ _ => []
    userHandleUserList := fun _ _ => [] }

/-- The actions of every handler on the same arguments. -/
def HandlerActions.all (ha : HandlerActions) (s : EpollServer) (fd : Int) (data : List Byte) :
    List (List Action) :=
  [ha.loginHandle s fd data,
   ha.loginHandleRegister s fd data,
   ha.messageHandle s fd data,
   ha.friendHandleApply s fd data,
   ha.friendHandleApplyAction s fd data,
   ha.friendHandleFriendList s fd data,
   ha.friendHandleDelete s fd data,
   ha.friendHandleBlock s fd data,
   ha.groupHandleCreate s fd data,
   ha.groupHandleGroupList s fd data,
   ha.groupHandleMemberList s fd data,
   ha.groupHandleInvite s fd data,
   ha.groupHandleKick s fd data,
   ha.groupHandleQuit s fd data,
   ha.groupHandleDismiss s fd data,
   ha.groupHandleUpdateInfo s fd data,
   ha.userHandleUserList s fd]

/-- The actions of `EpollServer::processMessage`. -/
def processMessageActions (ha : HandlerActions) (env : Env) (s : EpollServer) (fd : Int)
    (packet : Packet) :
    List Action :=
  let msgType := packet.type % 2 ^ 16
  match clientsFind s.clients_ fd with
  | none => [.lock, .unlock]
  | some client =>
    [Action.lock, .unlock] ++
    let authenticated := client.authenticated
    if msgType = MessageType.LOGIN_REQUEST then
      ha.loginHandle s fd packet.data
    else if msgType = MessageType.REGISTER_REQUEST then
      ha.loginHandleRegister s fd packet.data
    else if msgType = MessageType.SEND_MESSAGE then
      if authenticated then ha.messageHandle s fd packet.data
      else sendMessageActions env s fd MessageType.ERROR notLoggedIn
    else if msgType = MessageType.HEARTBEAT then
      let heartbeatResponse := utf8 "\x7b\"timestamp\":" ++ utf8 (toString env.time) ++ utf8 "\x7d"
      sendMessageActions env s fd MessageType.HEARTBEAT_RESPONSE heartbeatResponse
    else if msgType = MessageType.FRIEND_APPLY_REQUEST then
      if authenticated then ha.friendHandleApply s fd packet.data
      else sendMessageActions env s fd MessageType.ERROR notLoggedIn
    else if msgType = MessageType.FRIEND_HANDLE_REQUEST then
      if authenticated then ha.friendHandleApplyAction s fd packet.data
      else sendMessageActions env s fd MessageType.ERROR notLoggedIn
    else if msgType = MessageType.FRIEND_LIST_REQUEST then
      if authenticated then ha.friendHandleFriendList s fd packet.data
      else sendMessageActions env s fd MessageType.ERROR notLoggedIn
    else if msgType = MessageType.FRIEND_DELETE_REQUEST then
      if authenticated then ha.friendHandleDelete s fd packet.data
      else sendMessageActions env s fd MessageType.ERROR notLoggedIn
    else if msgType = MessageType.FRIEND_BLOCK_REQUEST then
      if authenticated then ha.friendHandleBlock s fd packet.data
      else sendMessageActions env s fd MessageType.ERROR notLoggedIn
    else if msgType = MessageType.GROUP_CREATE_REQUEST then
      if authenticated then ha.groupHandleCreate s fd packet.data
      else sendMessageActions env s fd MessageType.ERROR notLoggedIn
    else if msgType = MessageType.GROUP_LIST_REQUEST then
      if authenticated then ha.groupHandleGroupList s fd packet.data
      else sendMessageActions env s fd MessageType.ERROR notLoggedIn
    else if msgType = MessageType.GROUP_MEMBER_LIST_REQUEST then
      if authenticated then ha.groupHandleMemberList s fd packet.data
      else sendMessageActions env s fd MessageType.ERROR notLoggedIn
    else if msgType = MessageType.GROUP_INVITE_REQUEST then
      if authenticated then ha.groupHandleInvite s fd packet.data
      else sendMessageActions env s fd MessageType.ERROR notLoggedIn
    else if msgType = MessageType.GROUP_KICK_REQUEST then
      if authenticated then ha.groupHandleKick s fd packet.data
      else sendMessageActions env s fd MessageType.ERROR notLoggedIn
    else if msgType = MessageType.GROUP_QUIT_REQUEST then
      if authenticated then ha.groupHandleQuit s fd packet.data
      else sendMessageActions env s fd MessageType.ERROR notLoggedIn
    else if msgType = MessageType.GROUP_DISMISS_REQUEST then
      if authenticated then ha.groupHandleDismiss s fd packet.data
      else sendMessageActions env s fd MessageType.ERROR notLoggedIn
    else if msgType = MessageType.GROUP_UPDATE_INFO_REQUEST then
      if authenticated then ha.groupHandleUpdateInfo s fd packet.data
      else sendMessageActions env s fd MessageType.ERROR notLoggedIn
    else if msgType = MessageType.USER_LIST_REQUEST then
      if authenticated then ha.userHandleUserList s fd
      else sendMessageActions env s fd MessageType.ERROR notLoggedIn
    else if msgType = MessageType.LOGOUT then
      closeConnectionActions s fd
    else
      []

/-- The actions of the loop `while (!messagesCopy.empty()) processMessage(..)`. -/
def processRoundActions (ha : HandlerActions) (h : Handlers) (env : Env) (fd : Int) :
    List Packet → EpollServer → List Action
  | [], _ => []
  | packet :: rest, st =>
    processMessageActions ha env st fd packet
      ++ processRoundActions ha h env fd rest (processMessage h env st fd packet)

/-- The actions of `EpollServer::handleClientData`. When the decoder does not
return, the guard taken before `addData` is never left. -/
def handleClientDataActions (ha : HandlerActions) (h : Handlers) (env : Env) (s : EpollServer)
    (sock : Socket) (fd : Int) : List Action :=
  match recv sock 4096 with
  | (.failed errno, _) =>
    if errno ≠ EAGAIN ∧ errno ≠ EWOULDBLOCK then closeConnectionActions s fd else []
  | (.bytes buffer, _) =>
    if buffer.length = 0 then
      closeConnectionActions s fd
    else
      match clientsFind s.clients_ fd with
      | none => [.lock, .unlock]
      | some client =>
        match addData client.decoder.buffer_ buffer with
        | .error _ => [.lock]
        | .ok (messages, buffer_) =>
          let s1 : EpollServer :=
            { s with clients_ :=
                (clientsModify (fun c => { c with decoder := { buffer_ := buffer_ } })
                  s.clients_ fd) }
          [Action.lock, .unlock] ++ processRoundActions ha h env fd messages s1

/-! ## Vocabulary of the statement about the lock discipline -/

/-- Whether the mutex is held after the actions, `held` telling whether it
is held before. -/
def heldAfter : Bool → List Action → Bool
  | held, [] => held
  | _, .lock :: rest => heldAfter true rest
  | _, .unlock :: rest => heldAfter false rest
  | held, .write _ _ :: rest => heldAfter held rest

/-- No `send` among the actions happens while the mutex is held. -/
def noWriteWhileLocked : Bool → List Action → Bool
  | _, [] => true
  | _, .lock :: rest => noWriteWhileLocked true rest
  | _, .unlock :: rest => noWriteWhileLocked false rest
  | held, .write _ _ :: rest => !held && noWriteWhileLocked held rest

/-- Started without the mutex, the actions never send while holding it and
end without it. -/
def lockDiscipline (actions : List Action) : Prop :=
  noWriteWhileLocked false actions = true ∧ heldAfter false actions = false

instance (actions : List Action) : Decidable (lockDiscipline actions) := by
  unfold lockDiscipline; infer_instance

/-- Every handler keeps the lock discipline. -/
def HandlerActions.disciplined (ha : HandlerActions) : Prop :=
  ∀ (s : EpollServer) (fd : Int) (data : List Byte), ∀ t ∈ ha.all s fd data, lockDiscipline t

/-- The bytes handed to `send`, in order. -/
def writesIn (actions : List Action) : List (Int × List Byte) :=
  actions.filterMap fun a =>
    match a with
    | .write fd bytes => some (fd, bytes)
    | _ => none

/-! ## handler/group_handler.cpp: `handleKick` and the MySQL server

MySQL is outside the repository. The handler hands it the text of a
statement; what the server answers, and what it does to its tables, is given
by that text. -/

/-- What `mysql_real_escape_string` writes for one character: a backslash
goes before NUL, newline, carriage return, `\`, `'`, `"` and Control-Z. -/
def escapeSqlChar (c : Byte) : List Byte :=
  if c = 0x00 then utf8 "\\0"
  else if c = 0x0A then utf8 "\\n"
  else if c = 0x0D then utf8 "\\r"
  else if c = 0x5C then utf8 "\\\\"
  else if c = 0x27 then utf8 "\\'"
  else if c = 0x22 then utf8 "\\\""
  else if c = 0x1A then utf8 "\\Z"
  else [c]

/-- The function `escapeSql` of group_handler.cpp; `conn` tells whether the
connection handle is not null. -/
def GroupHandler.escapeSql (conn : Bool) (value : List Byte) : List Byte :=
  if !conn then value else value.flatMap escapeSqlChar

/-- The MySQL server as `handleKick` uses it; `σ` is what its tables hold. -/
structure SqlServer (σ : Type) where
  /-- The calls `mysql_query` of a `SELECT`, `mysql_store_result` and the first
  `mysql_fetch_row`: `none` when one of the first two fails, otherwise the first
  column of the first row (`some none` without a row, `some (some none)` for
  `NULL`). -/
  firstRow : σ → List Byte → Option (Option (Option (List Byte)))
  /-- The call `mysql_query` of a statement that changes the tables: `none`
  when it fails, otherwise the tables after it. -/
  execute : σ → List Byte → Option σ

/-- The text `query` that `getMemberRole` builds. -/
def memberRoleQuery (conn : Bool) (groupId userId : List Byte) : List Byte :=
  utf8 "SELECT role FROM group_members WHERE group_id = " ++ GroupHandler.escapeSql conn groupId
    ++ utf8 " AND user_id = " ++ GroupHandler.escapeSql conn userId

/-- The function `getMemberRole` of group_handler.cpp: the role in the first
row, and the empty string when the query fails, returns no row, or returns
`NULL`. -/
def getMemberRole {σ : Type} (sql : SqlServer σ) (conn : Bool) (tables : σ)
    (groupId userId : List Byte) : List Byte :=
  match sql.firstRow tables (memberRoleQuery conn groupId userId) with
  | some (some (some role)) => role
  | _ => []

/-- The text that `handleKick` builds in `deleteMember`. -/
def deleteMemberStatement (conn : Bool) (groupId memberId : List Byte) : List Byte :=
  utf8 "DELETE FROM group_members WHERE group_id = " ++ GroupHandler.escapeSql conn groupId
    ++ utf8 " AND user_id = " ++ GroupHandler.escapeSql conn memberId

/-- What the loop of `handleKick` carries from member to member: the server,
the tables of the MySQL server and `kickCount`. -/
structure KickState (σ : Type) where
  server : EpollServer
  tables : σ
  kickCount : Nat

/-- The body of the loop `for (const auto& memberId : memberIds)` of
`handleKick`. The inner loop over `getOnlineUsers()` sends the notice once if
`memberId` is among the users online. -/
def GroupHandler.kickMember {σ : Type} (env : Env) (sql : SqlServer σ) (conn : Bool)
    (kickerInfo : ClientInfo) (kickerRole groupId : List Byte) (st : KickState σ)
    (memberId : List Byte) : KickState σ :=
  if memberId = kickerInfo.userId then st
  else
    let memberRole := getMemberRole sql conn st.tables groupId memberId
    if memberRole.isEmpty then st
    else if memberRole = utf8 "owner" then st
    else if memberRole = utf8 "admin" ∧ kickerRole ≠ utf8 "owner" then st
    else
      match sql.execute st.tables (deleteMemberStatement conn groupId memberId) with
      | none => st
      | some tables' =>
        let notify := utf8 "\x7b\"group_id\":\"" ++ GroupHandler.escapeJsonString groupId
          ++ utf8 "\",\"kicker_id\":\"" ++ GroupHandler.escapeJsonString kickerInfo.userId
          ++ utf8 "\"\x7d"
        let server' :=
          if (getOnlineUsers st.server).contains memberId then
            sendMessageToUser env st.server memberId MessageType.GROUP_KICK_NOTIFY notify
          else st.server
        { server := server', tables := tables', kickCount := st.kickCount + 1 }

/-- The part of `GroupHandler::handleKick` that follows the check of the
store connection, for the requester `kickerInfo`, the group and the member
ids read from the request: the server and the tables it leaves. -/
def GroupHandler.kickMembers {σ : Type} (env : Env) (sql : SqlServer σ) (conn : Bool)
    (tables : σ) (s : EpollServer) (fd : Int) (kickerInfo : ClientInfo) (groupId : List Byte)
    (memberIds : List (List Byte)) : EpollServer × σ :=
  let kickerRole := getMemberRole sql conn tables groupId kickerInfo.userId
  if kickerRole ≠ utf8 "owner" ∧ kickerRole ≠ utf8 "admin" then
    (sendMessage env s fd MessageType.GROUP_KICK_RESPONSE
      (utf8 "\x7b\"success\":false,\"error_code\":3007,\"error_message\":\"权限不足，只有群主或管理员可以踢人\"\x7d"),
     tables)
  else
    let st := memberIds.foldl (GroupHandler.kickMember env sql conn kickerInfo kickerRole groupId)
      { server := s, tables := tables, kickCount := 0 }
    (sendMessage env st.server fd MessageType.GROUP_KICK_RESPONSE
      (utf8 "\x7b\"success\":true,\"kicked_count\":" ++ utf8 (toString st.kickCount) ++ utf8 "\x7d"),
     st.tables)

/-- What `handleKick` does with a connected store, as the last argument of
`GroupHandler.handleKick`. -/
def kickWork {σ : Type} (env : Env) (db : Database) (sql : SqlServer σ) (tables : σ) :
    StoreWork :=
  { idleWork with
    groupKick := fun st fd jsonData =>
      match getClientInfo st fd with
      | none => st
      | some kickerInfo =>
        (GroupHandler.kickMembers env sql db.mysql_ tables st fd kickerInfo
          (regexField (stringFieldRegex "group_id") jsonData) (parseMemberIds jsonData)).1 }

/-! ## A MySQL server for the examples

The table `group_members` as rows `(group_id, user_id, role)` with numeric
ids, and the two statements of `handleKick` with the meaning SQL gives them,
for the texts in which `WHERE` is followed by `group_id = N AND user_id = N`
and possibly ` OR user_id = N`, each `N` a decimal number. In SQL `AND` binds
tighter than `OR`. -/

/-- The text without the given beginning, if it begins so. -/
def dropLiteral (literal text : List Byte) : Option (List Byte) :=
  if literal.isPrefixOf text then some (text.drop literal.length) else none

/-- The decimal number at the head of the text and the text after it. -/
def readDecimal (text : List Byte) : Option (Nat × List Byte) :=
  let digits := text.takeWhile fun b => decide (0x30 ≤ b.val ∧ b.val ≤ 0x39)
  if digits.isEmpty then none
  else some (digits.foldl (fun n b => 10 * n + (b.val - 0x30)) 0, text.drop digits.length)

/-- The condition `group_id = groupId AND user_id = userId`, with
` OR user_id = orUserId` after it if there is one. -/
structure MemberCondition where
  groupId : Nat
  userId : Nat
  orUserId : Option Nat
  deriving DecidableEq, Repr

/-- Reading the condition after `WHERE`; `none` stands for a text the
example server does not accept. -/
def parseMemberCondition (text : List Byte) : Option MemberCondition :=
  match dropLiteral (utf8 "group_id = ") text with
  | none => none
  | some t1 =>
    match readDecimal t1 with
    | none => none
    | some (g, t2) =>
      match dropLiteral (utf8 " AND user_id = ") t2 with
      | none => none
      | some t3 =>
        match readDecimal t3 with
        | none => none
        | some (u, t4) =>
          if t4.isEmpty then some { groupId := g, userId := u, orUserId := none }
          else
            match dropLiteral (utf8 " OR user_id = ") t4 with
            | none => none
            | some t5 =>
              match readDecimal t5 with
              | none => none
              | some (v, t6) =>
                if t6.isEmpty then some { groupId := g, userId := u, orUserId := some v }
                else none

/-- Whether a row satisfies the condition: `(group_id = g AND user_id = u) OR
user_id = v`. -/
def MemberCondition.holds (c : MemberCondition) (row : Nat × Nat × List Byte) : Bool :=
  (row.1 = c.groupId && row.2.1 = c.userId) || c.orUserId = some row.2.1

/-- The example server: `SELECT role FROM group_members WHERE ..` returns the
role of the first row that satisfies the condition, `DELETE FROM group_members
WHERE ..` removes every row that satisfies it, and a text it does not accept
fails. -/
def demoSql : SqlServer (List (Nat × Nat × List Byte)) :=
  { firstRow := fun rows text =>
      match dropLiteral (utf8 "SELECT role FROM group_members WHERE ") text with
      | none => none
      | some condition =>
        match parseMemberCondition condition with
        | none => none
        | some c => some ((rows.find? c.holds).map fun row => some row.2.2)
    execute := fun rows text =>
      match dropLiteral (utf8 "DELETE FROM group_members WHERE ") text with
      | none => none
      | some condition =>
        match parseMemberCondition condition with
        | none => none
        | some c => some (rows.filter fun row => !c.holds row) }

/-- A table for the examples: in group 1, user 42 is the owner, 43 an admin,
44 and 45 are members; in group 2, user 44 is a member and 46 the owner. -/
def demoTables : List (Nat × Nat × List Byte) :=
  [(1, 42, utf8 "owner"), (1, 43, utf8 "admin"), (1, 44, utf8 "member"),
   (1, 45, utf8 "member"), (2, 44, utf8 "member"), (2, 46, utf8 "owner")]

/-- The request `{"group_id":"1","member_user_ids":["45 OR user_id = 44"]}`. -/
def kickInjection : List Byte :=
  utf8 "\x7b\"group_id\":\"1\",\"member_user_ids\":[\"45 OR user_id = 44\"]\x7d"

/-- The request `{"group_id":"1","member_user_ids":["42","45","43","46"]}`. -/
def kickRequest : List Byte :=
  utf8 "\x7b\"group_id\":\"1\",\"member_user_ids\":[\"42\",\"45\",\"43\",\"46\"]\x7d"

end im

namespace im

/-! ## Byte-level lemmas -/

theorem val_ofNat_byte (v : Nat) : ((Fin.ofNat v : Byte)).val = v % 256 := rfl

theorem encode_eq_header (t : Nat) (p : List Byte) :
    encode t p = frameHeader (t % 2 ^ 16) (p.length % 2 ^ 32) ++ p := rfl

theorem frameHeader_length (t n : Nat) : (frameHeader t n).length = 10 := rfl

theorem encode_length (t : Nat) (p : List Byte) : (encode t p).length = 10 + p.length := by
  rw [encode_eq_header, List.length_append, frameHeader_length]

theorem readMagic_header (t n : Nat) (body : List Byte) :
    readU32 (frameHeader t n ++ body) 0 = MAGIC := by
  simp only [readU32, byteAt, frameHeader, be32, be16, List.cons_append, List.nil_append,
    List.getD_cons_zero, List.getD_cons_succ, val_ofNat_byte, MAGIC]
  norm_num

theorem readType_header (t n : Nat) (ht : t < 2 ^ 16) (body : List Byte) :
    readU16 (frameHeader t n ++ body) 4 = t := by
  simp only [readU16, byteAt, frameHeader, be32, be16, List.cons_append, List.nil_append,
    List.getD_cons_zero, List.getD_cons_succ, val_ofNat_byte]
  omega

theorem readLength_header (t n : Nat) (hn : n < 2 ^ 32) (body : List Byte) :
    readU32 (frameHeader t n ++ body) 6 = n := by
  simp only [readU32, byteAt, frameHeader, be32, be16, List.cons_append, List.nil_append,
    List.getD_cons_zero, List.getD_cons_succ, val_ofNat_byte]
  omega

theorem drop_header (t n : Nat) (body : List Byte) :
    (frameHeader t n ++ body).drop 10 = body := by
  simp [frameHeader, be32, be16]

theorem byteAt_lt (buf : List Byte) (i : Nat) : byteAt buf i < 256 := (buf.getD i 0).isLt

theorem readU32_lt (buf : List Byte) (off : Nat) : readU32 buf off < 2 ^ 32 := by
  have h0 := byteAt_lt buf off
  have h1 := byteAt_lt buf (off + 1)
  have h2 := byteAt_lt buf (off + 2)
  have h3 := byteAt_lt buf (off + 3)
  simp only [readU32]
  omega

/-! ## One turn of the decoder loop -/

theorem decodeLoop_short (fuel : Nat) (buf : List Byte) (c : Nat) (m : List Packet)
    (h : buf.length < 10) : decodeLoop (fuel + 1) buf c m = .ok (m, buf) := by
  simp [decodeLoop, h]

theorem decodeLoop_mismatch (fuel : Nat) (buf : List Byte) (c : Nat) (m : List Packet)
    (hlen : 10 ≤ buf.length) (hmagic : readU32 buf 0 ≠ MAGIC) (hc : c < 10) :
    decodeLoop (fuel + 1) buf c m = decodeLoop fuel (buf.drop 1) (c + 1) m := by
  have h1 : ¬ buf.length < 10 := by omega
  have h2 : c + 1 ≤ MAX_MAGIC_MISMATCH := by simp only [MAX_MAGIC_MISMATCH]; omega
  simp [decodeLoop, h1, hmagic, h2]

theorem decodeLoop_flush (fuel : Nat) (buf : List Byte) (m : List Packet)
    (hlen : 10 ≤ buf.length) (hmagic : readU32 buf 0 ≠ MAGIC) :
    decodeLoop (fuel + 1) buf 10 m = .ok (m, []) := by
  have h1 : ¬ buf.length < 10 := by omega
  simp [decodeLoop, h1, hmagic, MAX_MAGIC_MISMATCH]

theorem decodeLoop_incomplete (fuel : Nat) (buf : List Byte) (c : Nat) (m : List Packet)
    (hlen : 10 ≤ buf.length) (hmagic : readU32 buf 0 = MAGIC)
    (hsmall : 10 + readU32 buf 6 < 2 ^ 32) (hpart : buf.length < 10 + readU32 buf 6) :
    decodeLoop (fuel + 1) buf c m = .ok (m, buf) := by
  have h1 : ¬ buf.length < 10 := by omega
  have h2 : (10 + readU32 buf 6) % 4294967296 = 10 + readU32 buf 6 := by omega
  simp [decodeLoop, h1, hmagic, h2, hpart]

theorem decodeLoop_complete (fuel : Nat) (buf : List Byte) (c : Nat) (m : List Packet)
    (hmagic : readU32 buf 0 = MAGIC)
    (hsmall : 10 + readU32 buf 6 < 2 ^ 32) (hfull : 10 + readU32 buf 6 ≤ buf.length) :
    decodeLoop (fuel + 1) buf c m =
      decodeLoop fuel (buf.drop (10 + readU32 buf 6)) 0
        (m ++ [{ magic := MAGIC, type := readU16 buf 4, length := readU32 buf 6,
                 data := (buf.drop 10).take (readU32 buf 6) }]) := by
  have h1 : ¬ buf.length < 10 := by omega
  have h2 : (10 + readU32 buf 6) % 4294967296 = 10 + readU32 buf 6 := by omega
  have h3 : ¬ buf.length < 10 + readU32 buf 6 := by omega
  simp [decodeLoop, h1, hmagic, h2, h3]

/-- A whole frame at the head of the buffer is turned into its packet. -/
theorem decodeLoop_frame (fuel : Nat) (t : Nat) (p rest : List Byte) (c : Nat) (m : List Packet)
    (ht : t < 2 ^ 16) (hp : p.length + 10 < 2 ^ 32) :
    decodeLoop (fuel + 1) (encode t p ++ rest) c m
      = decodeLoop fuel rest 0 (m ++ [mkPacket t p]) := by
  have hn : p.length % 2 ^ 32 = p.length := Nat.mod_eq_of_lt (by omega)
  have htm : t % 2 ^ 16 = t := Nat.mod_eq_of_lt ht
  have hbuf : encode t p ++ rest = frameHeader t p.length ++ (p ++ rest) := by
    rw [encode_eq_header, hn, htm, List.append_assoc]
  have hL : readU32 (encode t p ++ rest) 6 = p.length := by
    rw [hbuf]; exact readLength_header t p.length (by omega) _
  have hM : readU32 (encode t p ++ rest) 0 = MAGIC := by
    rw [hbuf]; exact readMagic_header _ _ _
  have hT : readU16 (encode t p ++ rest) 4 = t := by
    rw [hbuf]; exact readType_header t _ ht _
  have hlen : (encode t p ++ rest).length = 10 + p.length + rest.length := by
    rw [List.length_append, encode_length]
  rw [decodeLoop_complete fuel _ c m hM (by rw [hL]; omega) (by rw [hL, hlen]; omega)]
  have hdrop : (encode t p ++ rest).drop (10 + p.length) = rest := by
    rw [← encode_length t p]; exact List.drop_left _ _
  have hdata : ((encode t p ++ rest).drop 10).take p.length = p := by
    rw [hbuf, drop_header]; exact List.take_left _ _
  rw [hL, hT, hdrop, hdata]
  rfl

/-- A frame whose `removeSize` wraps to 0 is decoded again and again. -/
theorem decodeLoop_stuck (buf : List Byte) (hmagic : readU32 buf 0 = MAGIC)
    (hwrap : (10 + readU32 buf 6) % 2 ^ 32 = 0) (hfull : 10 + readU32 buf 6 ≤ buf.length) :
    ∀ (fuel c : Nat) (m : List Packet), decodeLoop fuel buf c m = .error .nonTermination := by
  intro fuel
  induction fuel with
  | zero => intro c m; rfl
  | succ k ih =>
    intro c m
    have h1 : ¬ buf.length < 10 := by omega
    have h2 : (10 + readU32 buf 6) % 4294967296 = 0 := by omega
    have h3 : ¬ buf.length < 10 + readU32 buf 6 := by omega
    simp only [decodeLoop, h1, hmagic, h2, h3, if_false, ne_eq, not_true_eq_false,
      Nat.reducePow, List.drop_zero, Nat.not_lt_zero]
    exact ih 0 _

theorem encode_ne_nil (t : Nat) (p : List Byte) : (encode t p).isEmpty = false := by
  simp [encode, be32]

theorem decodeMessages_of_ne_nil (buf : List Byte) (h : buf.isEmpty = false) :
    decodeMessages buf = decodeLoop (buf.length + 1) buf 0 [] := by
  simp [decodeMessages, h]

theorem addData_nil (data : List Byte) : addData [] data = decodeMessages data := rfl

/-- On the encoding of a payload of `2^32 - 10` bytes the loop never ends,
whatever the fuel. -/
theorem decodeLoop_encode_wrap (t : Nat) (p : List Byte) (hp : p.length = 2 ^ 32 - 10) :
    ∀ (fuel c : Nat) (m : List Packet),
      decodeLoop fuel (encode t p) c m = .error .nonTermination := by
  have hn : p.length % 2 ^ 32 = p.length := Nat.mod_eq_of_lt (by omega)
  have hbuf : encode t p = frameHeader (t % 2 ^ 16) p.length ++ p := by
    rw [encode_eq_header, hn]
  have hL : readU32 (encode t p) 6 = p.length := by
    rw [hbuf]; exact readLength_header _ p.length (by omega) _
  have hM : readU32 (encode t p) 0 = MAGIC := by
    rw [hbuf]; exact readMagic_header _ _ _
  apply decodeLoop_stuck _ hM
  · rw [hL, hp]; norm_num
  · rw [hL, encode_length]

/-- Decoding the encoding of a payload of `2^32 - 10` bytes never ends. -/
theorem addData_encode_wrap (t : Nat) (p : List Byte) (hp : p.length = 2 ^ 32 - 10) :
    addData [] (encode t p) = .error .nonTermination := by
  rw [addData_nil, decodeMessages_of_ne_nil _ (encode_ne_nil t p)]
  exact decodeLoop_encode_wrap t p hp _ _ _

/-- Round trip of one frame whose payload is shorter than `2^32 - 10` bytes. -/
theorem addData_encode (t : Nat) (p : List Byte) (ht : t < 2 ^ 16) (hp : p.length + 10 < 2 ^ 32) :
    addData [] (encode t p) = .ok ([mkPacket t p], []) := by
  rw [addData_nil, decodeMessages_of_ne_nil _ (encode_ne_nil t p)]
  have h := decodeLoop_frame (encode t p).length t p [] 0 [] ht hp
  rw [List.append_nil] at h
  rw [h, encode_length, Nat.add_comm 10 p.length]
  exact decodeLoop_short _ _ _ _ (by simp)

/-! ## Every packet the decoder returns is well formed -/

theorem decodeLoop_wellFormed :
    ∀ (fuel : Nat) (buf : List Byte) (c : Nat) (m pkts : List Packet) (rest : List Byte),
      decodeLoop fuel buf c m = .ok (pkts, rest) → (∀ p ∈ m, WellFormed p) →
      ∀ p ∈ pkts, WellFormed p := by
  intro fuel
  induction fuel with
  | zero => intro buf c m pkts rest h; simp [decodeLoop] at h
  | succ k ih =>
    intro buf c m pkts rest h hm
    unfold decodeLoop at h
    split at h
    · cases h; exact hm
    · rename_i hlen
      simp only at h
      split at h
      · split at h
        · exact ih _ _ _ _ _ h hm
        · split at h
          · cases h; exact hm
          · exact ih _ _ _ _ _ h hm
      · rename_i hmagic
        split at h
        · cases h; exact hm
        · split at h
          · cases h
          · rename_i hfull
            refine ih _ _ _ _ _ h ?_
            intro p hp
            rcases List.mem_append.mp hp with hp | hp
            · exact hm p hp
            · rw [List.mem_singleton] at hp
              subst hp
              refine ⟨?_, ?_, readU32_lt _ _⟩
              · simpa using hmagic
              · simp only [List.length_take, List.length_drop]
                omega

theorem addData_wellFormed (buf data : List Byte) (pkts : List Packet) (rest : List Byte)
    (h : addData buf data = .ok (pkts, rest)) : ∀ p ∈ pkts, WellFormed p := by
  unfold addData decodeMessages at h
  split at h
  · cases h; intro p hp; cases hp
  · exact decodeLoop_wellFormed _ _ _ _ _ _ h (fun p hp => by cases hp)

/-! ## Several frames in one buffer, and garbage in front of them -/

theorem length_le_encodeAll (msgs : List (Nat × List Byte)) :
    10 * msgs.length ≤ (encodeAll msgs).length := by
  induction msgs with
  | nil => simp [encodeAll]
  | cons x xs ih =>
    obtain ⟨t, p⟩ := x
    simp only [encodeAll, List.length_append, List.length_cons, encode_length]
    omega

/-- A buffer holding exactly the encodings of `msgs` is decoded into their
packets and left empty. -/
theorem decodeLoop_encodeAll (msgs : List (Nat × List Byte))
    (hv : ∀ x ∈ msgs, x.1 < 2 ^ 16 ∧ x.2.length + 10 < 2 ^ 32) :
    ∀ (fuel c : Nat) (m : List Packet), msgs.length < fuel →
      decodeLoop fuel (encodeAll msgs) c m = .ok (m ++ packetsOf msgs, []) := by
  induction msgs with
  | nil =>
    intro fuel c m hf
    obtain ⟨k, rfl⟩ : ∃ k, fuel = k + 1 := ⟨fuel - 1, by simp at hf; omega⟩
    simp [encodeAll, packetsOf, decodeLoop]
  | cons x xs ih =>
    intro fuel c m hf
    obtain ⟨t, p⟩ := x
    obtain ⟨k, rfl⟩ : ∃ k, fuel = k + 1 := ⟨fuel - 1, by simp at hf; omega⟩
    have hx := hv (t, p) (List.mem_cons_self _ _)
    simp only [encodeAll]
    rw [decodeLoop_frame k t p _ c m hx.1 hx.2,
      ih (fun y hy => hv y (List.mem_cons_of_mem _ hy)) k 0 _ (by simp at hf; omega)]
    simp [packetsOf]

/-- Up to 10 mismatching positions in front of at least 10 more bytes are
skipped one byte at a time. -/
theorem decodeLoop_skip (pre : List Byte) :
    ∀ (stream : List Byte) (fuel c : Nat) (m : List Packet),
      (∀ i, i < pre.length → readU32 ((pre ++ stream).drop i) 0 ≠ MAGIC) →
      c + pre.length ≤ 10 → 10 ≤ stream.length → pre.length ≤ fuel →
      decodeLoop fuel (pre ++ stream) c m
        = decodeLoop (fuel - pre.length) stream (c + pre.length) m := by
  induction pre with
  | nil => intro stream fuel c m _ _ _ _; simp
  | cons b bs ih =>
    intro stream fuel c m hw hc hs hf
    obtain ⟨k, rfl⟩ : ∃ k, fuel = k + 1 := ⟨fuel - 1, by simp at hf; omega⟩
    simp only [List.length_cons] at hc hf
    have h0 := hw 0 (by simp)
    rw [List.drop_zero] at h0
    rw [decodeLoop_mismatch k _ c m (by simp; omega) h0 (by omega)]
    have hw2 : ∀ i, i < bs.length → readU32 ((bs ++ stream).drop i) 0 ≠ MAGIC := by
      intro i hi
      have := hw (i + 1) (by simp; omega)
      simpa using this
    have := ih stream k (c + 1) m hw2 (by omega) hs (by omega)
    simp only [List.cons_append, List.drop_succ_cons, List.drop_zero, List.length_cons]
    rw [this]
    congr 1
    · omega
    · omega

/-- Resynchronisation: at most 10 bytes of garbage, none of whose positions
reads as the magic word, in front of frames with payloads shorter than
`2^32 - 10` bytes, cost no packet. -/
theorem resync_recovers (pre : List Byte) (msgs : List (Nat × List Byte))
    (hk : pre.length ≤ 10)
    (hw : ∀ i, i < pre.length → readU32 ((pre ++ encodeAll msgs).drop i) 0 ≠ MAGIC)
    (hv : ∀ x ∈ msgs, x.1 < 2 ^ 16 ∧ x.2.length + 10 < 2 ^ 32) :
    ∃ rest, addData [] (pre ++ encodeAll msgs) = .ok (packetsOf msgs, rest) := by
  rw [addData_nil]
  unfold decodeMessages
  split
  · rename_i he
    have : pre ++ encodeAll msgs = [] := by simpa using he
    have hm : msgs = [] := by
      cases msgs with
      | nil => rfl
      | cons x xs =>
        have h1 := length_le_encodeAll (x :: xs)
        have h2 : (encodeAll (x :: xs)).length = 0 := by
          rw [(List.append_eq_nil.mp this).2]; rfl
        simp at h1; omega
    subst hm
    exact ⟨_, rfl⟩
  · cases msgs with
    | nil =>
      simp only [encodeAll, List.append_nil] at hw ⊢
      by_cases h10 : pre.length < 10
      · exact ⟨_, decodeLoop_short _ _ _ _ h10⟩
      · have hlen : pre.length = 10 := by omega
        have h0 := hw 0 (by omega)
        rw [List.drop_zero] at h0
        rw [decodeLoop_mismatch _ _ 0 [] (by omega) h0 (by omega), hlen]
        exact ⟨_, decodeLoop_short _ _ _ _ (by simp; omega)⟩
    | cons x xs =>
      have h1 := length_le_encodeAll (x :: xs)
      simp only [List.length_cons] at h1
      rw [decodeLoop_skip pre _ _ 0 [] hw (by omega) (by omega) (by simp; omega),
        decodeLoop_encodeAll _ hv _ _ _ (by simp; omega)]
      exact ⟨_, rfl⟩

/-! ## The fuel of `decodeMessages` is enough -/

/-- Any two amounts of fuel above the buffer size give the same run: the
fuel `buffer_.size() + 1` of `decodeMessages` only ever runs out on a loop
that does not terminate. -/
theorem decodeLoop_fuel_irrelevant :
    ∀ (n : Nat) (buf : List Byte) (c : Nat) (m : List Packet) (f1 f2 : Nat),
      buf.length ≤ n → n < f1 → n < f2 → decodeLoop f1 buf c m = decodeLoop f2 buf c m := by
  intro n
  induction n with
  | zero =>
    intro buf c m f1 f2 hb h1 h2
    obtain ⟨k1, rfl⟩ : ∃ k, f1 = k + 1 := ⟨f1 - 1, by omega⟩
    obtain ⟨k2, rfl⟩ : ∃ k, f2 = k + 1 := ⟨f2 - 1, by omega⟩
    rw [decodeLoop_short _ _ _ _ (by omega), decodeLoop_short _ _ _ _ (by omega)]
  | succ n ih =>
    intro buf c m f1 f2 hb h1 h2
    obtain ⟨k1, rfl⟩ : ∃ k, f1 = k + 1 := ⟨f1 - 1, by omega⟩
    obtain ⟨k2, rfl⟩ : ∃ k, f2 = k + 1 := ⟨f2 - 1, by omega⟩
    by_cases hshort : buf.length < 10
    · rw [decodeLoop_short _ _ _ _ hshort, decodeLoop_short _ _ _ _ hshort]
    · have hdrop : (buf.drop 1).length ≤ n := by simp only [List.length_drop]; omega
      by_cases hmagic : readU32 buf 0 = MAGIC
      · by_cases hzero : (10 + readU32 buf 6) % 2 ^ 32 = 0
        · by_cases hfull : 10 + readU32 buf 6 ≤ buf.length
          · rw [decodeLoop_stuck buf hmagic hzero hfull, decodeLoop_stuck buf hmagic hzero hfull]
          · have hz : (10 + readU32 buf 6) % 4294967296 = 0 := by omega
            have hf : buf.length < 10 + readU32 buf 6 := by omega
            simp [decodeLoop, hshort, hmagic, hz, hf]
        · have hz : ¬ (10 + readU32 buf 6) % 4294967296 = 0 := by omega
          have hd : (buf.drop ((10 + readU32 buf 6) % 4294967296)).length ≤ n := by
            simp only [List.length_drop]; omega
          simp only [decodeLoop, hshort, hmagic, if_false, ne_eq, not_true_eq_false, Nat.reducePow]
          split
          · rfl
          · split
            · rfl
            · exact ih _ _ _ _ _ hd (by omega) (by omega)
      · simp only [decodeLoop, hshort, hmagic, if_false, if_true, ne_eq, not_false_eq_true]
        split
        · exact ih _ _ _ _ _ hdrop (by omega) (by omega)
        · split
          · rfl
          · exact ih _ _ _ _ _ hdrop (by omega) (by omega)

theorem decodeLoop_fuel_stable (fuel : Nat) (buf : List Byte) (c : Nat) (m : List Packet)
    (h : buf.length + 1 ≤ fuel) :
    decodeLoop fuel buf c m = decodeLoop (buf.length + 1) buf c m :=
  decodeLoop_fuel_irrelevant buf.length buf c m _ _ (Nat.le_refl _) (by omega) (by omega)

/-! ## Feeding a stream in pieces -/

theorem feedChunks_append (xs ys : List (List Byte)) :
    ∀ (b b1 b2 : List Byte) (p1 p2 : List Packet),
      feedChunks b xs = .ok (p1, b1) → feedChunks b1 ys = .ok (p2, b2) →
      feedChunks b (xs ++ ys) = .ok (p1 ++ p2, b2) := by
  induction xs with
  | nil =>
    intro b b1 b2 p1 p2 h1 h2
    simp only [feedChunks] at h1
    cases h1
    simpa using h2
  | cons x xs ih =>
    intro b b1 b2 p1 p2 h1 h2
    simp only [feedChunks, List.cons_append] at h1 ⊢
    cases hx : addData b x with
    | error e => rw [hx] at h1; cases h1
    | ok r =>
      obtain ⟨px, bx⟩ := r
      rw [hx] at h1
      simp only at h1 ⊢
      cases hrest : feedChunks bx xs with
      | error e => rw [hrest] at h1; cases h1
      | ok r2 =>
        obtain ⟨pr, br⟩ := r2
        rw [hrest] at h1
        simp only at h1
        cases h1
        rw [show xs.append ys = xs ++ ys from rfl, ih bx b1 b2 pr p2 hrest h2]
        simp

theorem feedChunks_wellFormed (chunks : List (List Byte)) :
    ∀ (b rest : List Byte) (pkts : List Packet),
      feedChunks b chunks = .ok (pkts, rest) → ∀ p ∈ pkts, WellFormed p := by
  induction chunks with
  | nil =>
    intro b rest pkts h
    simp only [feedChunks] at h
    cases h
    intro p hp; cases hp
  | cons x xs ih =>
    intro b rest pkts h
    simp only [feedChunks] at h
    cases hx : addData b x with
    | error e => rw [hx] at h; cases h
    | ok r =>
      obtain ⟨px, bx⟩ := r
      rw [hx] at h
      simp only at h
      cases hrest : feedChunks bx xs with
      | error e => rw [hrest] at h; cases h
      | ok r2 =>
        obtain ⟨pr, br⟩ := r2
        rw [hrest] at h
        simp only at h
        cases h
        intro p hp
        rcases List.mem_append.mp hp with hp | hp
        · exact addData_wellFormed _ _ _ _ hx p hp
        · exact ih _ _ _ hrest p hp

/-- A buffer holding a proper prefix of a frame is left as it is. -/
theorem decodeMessages_incomplete (t : Nat) (p : List Byte)
    (hp : p.length + 10 < 2 ^ 32) (q s : List Byte) (hq : q ++ s = encode t p) (hs : s ≠ []) :
    decodeMessages q = .ok ([], q) := by
  have hlen : q.length + s.length = 10 + p.length := by
    rw [← List.length_append, hq, encode_length]
  have hspos : 0 < s.length := List.length_pos.mpr hs
  unfold decodeMessages
  split
  · rfl
  · by_cases h10 : q.length < 10
    · exact decodeLoop_short _ _ _ _ h10
    · have hn : p.length % 2 ^ 32 = p.length := Nat.mod_eq_of_lt (by omega)
      have hq2 : q = frameHeader (t % 2 ^ 16) p.length ++ p.take (q.length - 10) := by
        have h1 : q = (encode t p).take q.length := by rw [← hq]; simp
        rw [encode_eq_header, hn, List.take_append_eq_append_take, frameHeader_length,
          List.take_of_length_le (by rw [frameHeader_length]; omega)] at h1
        exact h1
      have hM : readU32 q 0 = MAGIC := by rw [hq2]; exact readMagic_header _ _ _
      have hL : readU32 q 6 = p.length := by
        rw [hq2]; exact readLength_header _ _ (by omega) _
      exact decodeLoop_incomplete _ _ _ _ (by omega) hM (by rw [hL]; omega) (by rw [hL]; omega)

/-- One frame, fed byte by byte to a decoder that already holds its first
bytes, comes out as one packet when its last byte arrives. -/
theorem feedBytes_frame_from (t : Nat) (p : List Byte) (ht : t < 2 ^ 16)
    (hp : p.length + 10 < 2 ^ 32) :
    ∀ (s q : List Byte), q ++ s = encode t p → s ≠ [] →
      feedBytes q s = .ok ([mkPacket t p], []) := by
  intro s
  induction s with
  | nil => intro q _ h; exact absurd rfl h
  | cons b s ih =>
    intro q hq _
    simp only [feedBytes, List.map_cons, feedChunks]
    by_cases hs : s = []
    · subst hs
      have h1 : addData q [b] = .ok ([mkPacket t p], []) := by
        unfold addData; rw [hq]; exact addData_encode t p ht hp
      rw [h1]
      rfl
    · have hq2 : (q ++ [b]) ++ s = encode t p := by rw [← hq]; simp
      have h1 : addData q [b] = .ok ([], q ++ [b]) :=
        decodeMessages_incomplete t p hp (q ++ [b]) s hq2 hs
      rw [h1]
      have h2 := ih (q ++ [b]) hq2 hs
      simp only [feedBytes] at h2
      simp only [h2]
      rfl

/-- Byte-by-byte feeding of the encodings of `msgs`, payloads shorter than
`2^32 - 10` bytes. -/
theorem feedBytes_encodeAll (msgs : List (Nat × List Byte))
    (hv : ∀ x ∈ msgs, x.1 < 2 ^ 16 ∧ x.2.length + 10 < 2 ^ 32) :
    feedBytes [] (encodeAll msgs) = .ok (packetsOf msgs, []) := by
  induction msgs with
  | nil => rfl
  | cons x xs ih =>
    obtain ⟨t, p⟩ := x
    have hx := hv (t, p) (List.mem_cons_self _ _)
    have h1 := feedBytes_frame_from t p hx.1 hx.2 (encode t p) [] rfl
      (by intro h; have := encode_ne_nil t p; rw [h] at this; cases this)
    have h2 := ih (fun y hy => hv y (List.mem_cons_of_mem _ hy))
    simp only [feedBytes] at h1 h2 ⊢
    simp only [encodeAll, List.map_append]
    rw [feedChunks_append _ _ _ _ _ _ _ h1 h2]
    rfl

/-- A frame with a wrapped `requiredSize` and too few bytes behind it is not
waited for: when `10 + length < 2^32` does hold, an incomplete frame stays in
the buffer untouched and nothing is emitted. -/
theorem incomplete_frame_retained (buf data : List Byte)
    (hmagic : readU32 (buf ++ data) 0 = MAGIC)
    (hsmall : 10 + readU32 (buf ++ data) 6 < 2 ^ 32)
    (hpart : (buf ++ data).length < 10 + readU32 (buf ++ data) 6) :
    addData buf data = .ok ([], buf ++ data) := by
  unfold addData decodeMessages
  split
  · rfl
  · by_cases h10 : (buf ++ data).length < 10
    · exact decodeLoop_short _ _ _ _ h10
    · exact decodeLoop_incomplete _ _ _ _ (by omega) hmagic hsmall hpart

/-- One byte of garbage in front of a frame of `2^32 - 10` payload bytes: the
byte is skipped, then the frame is decoded without end, whatever the fuel. -/
theorem decodeLoop_garbage_encode_wrap (t : Nat) (p : List Byte) (hp : p.length = 2 ^ 32 - 10) :
    ∀ (fuel : Nat),
      decodeLoop fuel ([0xFF] ++ encodeAll [(t, p)]) 0 [] = .error .nonTermination := by
  intro fuel
  cases fuel with
  | zero => rfl
  | succ k =>
    have hn : p.length % 2 ^ 32 = p.length := Nat.mod_eq_of_lt (by omega)
    have h0 : readU32 ([0xFF] ++ encode t p) 0 ≠ MAGIC := by
      rw [encode_eq_header, hn]
      simp only [readU32, byteAt, frameHeader, be32, be16, List.cons_append, List.nil_append,
        List.getD_cons_zero, List.getD_cons_succ, val_ofNat_byte, MAGIC]
      decide
    simp only [encodeAll, List.append_nil]
    rw [decodeLoop_mismatch _ _ 0 [] (by simp [encode_length]; omega) h0 (by omega)]
    exact decodeLoop_encode_wrap t p hp _ _ _

theorem addData_garbage_encode_wrap (t : Nat) (p : List Byte) (hp : p.length = 2 ^ 32 - 10) :
    addData [] ([0xFF] ++ encodeAll [(t, p)]) = .error .nonTermination := by
  rw [addData_nil, decodeMessages_of_ne_nil _ (by simp)]
  exact decodeLoop_garbage_encode_wrap t p hp _

/-- A header with the magic number whose length field is `2^32 - 10` or more,
alone in the buffer or followed by fewer bytes than the field says: the
completeness check passes, because `10 + length` wraps, and the payload is
then read beyond the end of the buffer. -/
theorem decodeLoop_wrapped_short (fuel : Nat) (buf : List Byte) (c : Nat) (m : List Packet)
    (hlen : 10 ≤ buf.length) (hmagic : readU32 buf 0 = MAGIC)
    (hwrap : 2 ^ 32 ≤ 10 + readU32 buf 6) (hpart : buf.length < 10 + readU32 buf 6) :
    decodeLoop (fuel + 1) buf c m = .error .outOfBounds := by
  have hlt := readU32_lt buf 6
  have hmod : (10 + readU32 buf 6) % 4294967296 = 10 + readU32 buf 6 - 4294967296 := by
    rw [Nat.mod_eq_sub_mod (by omega)]
    exact Nat.mod_eq_of_lt (by omega)
  have h1 : ¬ buf.length < 10 := by omega
  have h2 : ¬ buf.length < (10 + readU32 buf 6) % 4294967296 := by rw [hmod]; omega
  simp only [decodeLoop, h1, hmagic, h2, hpart, if_false, if_true, ne_eq, not_true_eq_false,
    Nat.reducePow]

/-- Fed byte by byte, a frame whose payload has between `2^32 - 10` and
`2^32 - 1` bytes is read out of bounds when the tenth byte of its header
arrives. -/
theorem feedBytes_wrapped_from (t : Nat) (p : List Byte) (ht : t < 2 ^ 16)
    (hlo : 2 ^ 32 ≤ p.length + 10) (hhi : p.length < 2 ^ 32) :
    ∀ (s q : List Byte), q ++ s = encode t p → q.length < 10 →
      feedBytes q s = .error .outOfBounds := by
  have hbuf : encode t p = frameHeader t p.length ++ p := by
    rw [encode_eq_header, Nat.mod_eq_of_lt ht, Nat.mod_eq_of_lt hhi]
  intro s
  induction s with
  | nil =>
    intro q hq hlen
    have := congrArg List.length hq
    rw [List.append_nil, encode_length] at this
    omega
  | cons b s ih =>
    intro q hq hlen
    have hq2 : (q ++ [b]) ++ s = encode t p := by rw [← hq]; simp
    simp only [feedBytes, List.map_cons, feedChunks]
    by_cases h9 : q.length + 1 < 10
    · have h1 : addData q [b] = .ok ([], q ++ [b]) := by
        unfold addData
        rw [decodeMessages_of_ne_nil _ (by simp)]
        exact decodeLoop_short _ _ _ _ (by simpa using h9)
      rw [h1]
      have h2 := ih (q ++ [b]) hq2 (by simpa using h9)
      simp only [feedBytes] at h2
      simp only [h2]
    · have hten : (q ++ [b]).length = 10 := by simp; omega
      have hhead : q ++ [b] = frameHeader t p.length := by
        have h1 : q ++ [b] = (encode t p).take 10 := by
          rw [← hq2, List.take_append_of_le_length (by omega), List.take_of_length_le (by omega)]
        rw [h1, hbuf, List.take_append_of_le_length (by rw [frameHeader_length]),
          List.take_of_length_le (by rw [frameHeader_length])]
      have hM : readU32 (q ++ [b]) 0 = MAGIC := by
        rw [hhead]
        have := readMagic_header t p.length []
        rwa [List.append_nil] at this
      have hL : readU32 (q ++ [b]) 6 = p.length := by
        rw [hhead]
        have := readLength_header t p.length hhi []
        rwa [List.append_nil] at this
      have h1 : addData q [b] = .error .outOfBounds := by
        unfold addData
        rw [decodeMessages_of_ne_nil _ (by simp)]
        exact decodeLoop_wrapped_short _ _ _ _ (by omega) hM (by rw [hL]; omega)
          (by rw [hL]; omega)
      rw [h1]

/-! ## The claims about the framing codec -/

/-- C1, the code at the failing input: a LOGIN_REQUEST whose payload has
`2^32 - 10` bytes (shorter than `2^32`) is encoded and handed to a fresh decoder
in one `addData` call; `removeSize` wraps to 0, the frame is never removed from
the buffer, and the call does not return: the loop is still running after any
number of turns. -/
theorem roundtrip_wrapped_frame_never_returns :
    addData [] (encode MessageType.LOGIN_REQUEST (List.replicate 4294967286 0))
      = .error .nonTermination ∧
    ∀ (fuel c : Nat) (m : List Packet),
      decodeLoop fuel (encode MessageType.LOGIN_REQUEST (List.replicate 4294967286 0)) c m
        = .error .nonTermination :=
  ⟨addData_encode_wrap _ _ ((List.length_replicate _ _).trans (by norm_num)),
    decodeLoop_encode_wrap _ _ ((List.length_replicate _ _).trans (by norm_num))⟩

/-- C2, the code at the failing input: one LOGIN_REQUEST whose payload has
`2^32 - 10` bytes (shorter than `2^32`), its encoding fed to a fresh decoder one
byte per `addData` call. The first nine calls keep the bytes; at the tenth the
buffer holds the header with length field 0xFFFFFFF6, `10 + length` is 0 in 32
bits, the completeness check passes with no payload byte buffered, and the
payload is read beyond the end of the buffer: the calls never yield the
packet. The same happens for every payload of `2^32 - 10` to `2^32 - 1` bytes,
whereas for payloads shorter than `2^32 - 10` bytes the packets of the list
come out in order and the buffer is left empty. -/
theorem bytewise_wrapped_frame_read_out_of_bounds :
    (List.replicate 4294967286 (0 : Byte)).length < 2 ^ 32 ∧
    feedBytes [] (encodeAll [(MessageType.LOGIN_REQUEST, List.replicate 4294967286 0)])
      = .error .outOfBounds ∧
    feedBytes [] [0x49, 0x4D, 0x49, 0x4D, 0x00, 0x01, 0xFF, 0xFF, 0xFF]
      = .ok ([], [0x49, 0x4D, 0x49, 0x4D, 0x00, 0x01, 0xFF, 0xFF, 0xFF]) ∧
    addData [0x49, 0x4D, 0x49, 0x4D, 0x00, 0x01, 0xFF, 0xFF, 0xFF] [0xF6]
      = .error .outOfBounds ∧
    (encode MessageType.LOGIN_REQUEST (List.replicate 4294967286 0)).take 10
      = [0x49, 0x4D, 0x49, 0x4D, 0x00, 0x01, 0xFF, 0xFF, 0xFF, 0xF6] ∧
    (∀ (t : Nat) (p : List Byte), t < 2 ^ 16 → 2 ^ 32 ≤ p.length + 10 → p.length < 2 ^ 32 →
      feedBytes [] (encodeAll [(t, p)]) = .error .outOfBounds) ∧
    (∀ msgs : List (Nat × List Byte),
      (∀ x ∈ msgs, x.1 < 2 ^ 16 ∧ x.2.length + 10 < 2 ^ 32) →
      feedBytes [] (encodeAll msgs) = .ok (packetsOf msgs, [])) := by
  have hlen : (List.replicate 4294967286 (0 : Byte)).length = 4294967286 :=
    List.length_replicate _ _
  have hall : ∀ (t : Nat) (p : List Byte), t < 2 ^ 16 → 2 ^ 32 ≤ p.length + 10 →
      p.length < 2 ^ 32 → feedBytes [] (encodeAll [(t, p)]) = .error .outOfBounds := by
    intro t p ht hlo hhi
    simp only [encodeAll, List.append_nil]
    exact feedBytes_wrapped_from t p ht hlo hhi _ [] rfl (by simp)
  refine ⟨by rw [hlen]; norm_num, ?_, by decide, by decide, ?_, hall, feedBytes_encodeAll⟩
  · exact hall _ _ (by decide) (by rw [hlen]; norm_num) (by rw [hlen]; norm_num)
  · rw [encode_eq_header, hlen, List.take_append_of_le_length (by rw [frameHeader_length]),
      List.take_of_length_le (by rw [frameHeader_length])]
    decide

/-- C3: whatever the buffer holds and whatever chunk arrives, every packet
that `addData` returns has magic `0x494D494D` and a data field of exactly as
many bytes as its length field says. -/
theorem returned_packets_well_formed (buf data : List Byte) (pkts : List Packet)
    (rest : List Byte) (h : addData buf data = .ok (pkts, rest)) :
    ∀ p ∈ pkts, p.magic = 0x494D494D ∧ p.data.length = p.length := by
  intro p hp
  have := addData_wellFormed buf data pkts rest h p hp
  exact ⟨this.1, this.2.1⟩

theorem returned_packets_well_formed_witness :
    addData [0xFF, 0x00] ([0x4D] ++ encode MessageType.SEND_MESSAGE [7, 8] ++ encode 9 [])
      = .ok ([mkPacket MessageType.SEND_MESSAGE [7, 8], mkPacket 9 []], []) ∧
    ∀ p ∈ [mkPacket MessageType.SEND_MESSAGE [7, 8], mkPacket 9 []],
      p.magic = 0x494D494D ∧ p.data.length = p.length :=
  ⟨by decide,
    returned_packets_well_formed [0xFF, 0x00]
      ([0x4D] ++ encode MessageType.SEND_MESSAGE [7, 8] ++ encode 9 []) _ [] (by decide)⟩

/-- C4: `encode` returns `10 + payload.len` bytes: 49 4D 49 4D, then the type
in big-endian order, then the payload byte count modulo `2^32` in big-endian
order, then the payload unchanged. -/
theorem encode_layout (t : Nat) (p : List Byte) (ht : t < 2 ^ 16) :
    (encode t p).length = 10 + p.length ∧
    (encode t p).take 4 = [0x49, 0x4D, 0x49, 0x4D] ∧
    byteAt (encode t p) 4 = t / 2 ^ 8 ∧
    byteAt (encode t p) 5 = t % 2 ^ 8 ∧
    byteAt (encode t p) 6 = p.length % 2 ^ 32 / 2 ^ 24 ∧
    byteAt (encode t p) 7 = p.length % 2 ^ 32 / 2 ^ 16 % 2 ^ 8 ∧
    byteAt (encode t p) 8 = p.length % 2 ^ 32 / 2 ^ 8 % 2 ^ 8 ∧
    byteAt (encode t p) 9 = p.length % 2 ^ 32 % 2 ^ 8 ∧
    (encode t p).drop 10 = p := by
  refine ⟨encode_length t p, ?_, ?_, ?_, ?_, ?_, ?_, ?_, ?_⟩
  · simp only [encode, be32, be16, List.cons_append, List.nil_append, List.take_succ_cons,
      List.take_zero, MAGIC]
    decide
  all_goals
    simp only [encode, byteAt, be32, be16, List.cons_append, List.nil_append,
      List.getD_cons_zero, List.getD_cons_succ, val_ofNat_byte, List.drop_succ_cons,
      List.drop_zero]
  all_goals omega

theorem encode_layout_witness :
    MessageType.GROUP_KICK_REQUEST < 2 ^ 16 ∧
    (encode MessageType.GROUP_KICK_REQUEST [1, 2, 3]).take 4 = [0x49, 0x4D, 0x49, 0x4D] ∧
    (encode MessageType.GROUP_KICK_REQUEST [1, 2, 3]).drop 10 = [1, 2, 3] :=
  ⟨by decide, (encode_layout _ _ (by decide)).2.1, (encode_layout _ [1, 2, 3] (by decide)).2.2.2.2.2.2.2.2⟩

/-- C5, the code at the failing input: the byte 0xFF followed by one complete
LOGIN_REQUEST frame whose payload has `2^32 - 10` bytes; the garbage byte is
skipped, then the frame is decoded over and over and the call does not return:
the loop is still running after any number of turns. -/
theorem resync_wrapped_frame_never_returns :
    addData [] ([0xFF] ++ encodeAll [(MessageType.LOGIN_REQUEST, List.replicate 4294967286 0)])
      = .error .nonTermination ∧
    ∀ (fuel : Nat),
      decodeLoop fuel
          ([0xFF] ++ encodeAll [(MessageType.LOGIN_REQUEST, List.replicate 4294967286 0)]) 0 []
        = .error .nonTermination :=
  ⟨addData_garbage_encode_wrap _ _ ((List.length_replicate _ _).trans (by norm_num)),
    decodeLoop_garbage_encode_wrap _ _ ((List.length_replicate _ _).trans (by norm_num))⟩

/-- C6: when, after appending the input, the buffer reads as a magic mismatch
at each of its first 11 positions (so it holds at least 20 bytes), the first 10
mismatches each discard one byte from the head, the eleventh empties the buffer
and ends decoding, and `addData` returns no packet and an empty buffer,
whatever followed the garbage. -/
theorem resync_gives_up (buf data : List Byte) (hlen : 20 ≤ (buf ++ data).length)
    (hw : ∀ i, i ≤ 10 → readU32 ((buf ++ data).drop i) 0 ≠ MAGIC) :
    (∀ (k : Nat) (m : List Packet),
      decodeLoop (k + 11) (buf ++ data) 0 m = decodeLoop (k + 1) ((buf ++ data).drop 10) 10 m) ∧
    (∀ (k : Nat) (m : List Packet),
      decodeLoop (k + 1) ((buf ++ data).drop 10) 10 m = .ok (m, [])) ∧
    addData buf data = .ok ([], []) := by
  have hskip : ∀ (k : Nat) (m : List Packet),
      decodeLoop (k + 11) (buf ++ data) 0 m
        = decodeLoop (k + 1) ((buf ++ data).drop 10) 10 m := by
    intro k m
    have hsplit : (buf ++ data).take 10 ++ (buf ++ data).drop 10 = buf ++ data :=
      List.take_append_drop _ _
    have htake : ((buf ++ data).take 10).length = 10 := by
      rw [List.length_take]; omega
    have := decodeLoop_skip ((buf ++ data).take 10) ((buf ++ data).drop 10) (k + 11) 0 m
      (by intro i hi; rw [hsplit]; exact hw i (by omega))
      (by omega) (by rw [List.length_drop]; omega) (by omega)
    rw [hsplit, htake] at this
    simpa using this
  have hflush : ∀ (k : Nat) (m : List Packet),
      decodeLoop (k + 1) ((buf ++ data).drop 10) 10 m = .ok (m, []) := by
    intro k m
    exact decodeLoop_flush k _ m (by rw [List.length_drop]; omega) (hw 10 (Nat.le_refl _))
  refine ⟨hskip, hflush, ?_⟩
  unfold addData decodeMessages
  split
  · rename_i he
    have : (buf ++ data).length = 0 := by rw [List.isEmpty_iff.mp he]; rfl
    omega
  · have e : (buf ++ data).length + 1 = ((buf ++ data).length - 10) + 11 := by omega
    rw [e, hskip, hflush]

theorem resync_gives_up_witness :
    (20 ≤ (([] : List Byte) ++ (List.replicate 11 0xFF ++ encode MessageType.LOGIN_REQUEST [])).length ∧
      ∀ i, i ≤ 10 →
        readU32 ((([] : List Byte) ++ (List.replicate 11 0xFF
          ++ encode MessageType.LOGIN_REQUEST [])).drop i) 0 ≠ MAGIC) ∧
    addData [] (List.replicate 11 0xFF ++ encode MessageType.LOGIN_REQUEST []) = .ok ([], []) :=
  ⟨⟨by decide, by decide⟩, (resync_gives_up _ _ (by decide) (by decide)).2.2⟩

/-- C7, the code at the failing input: an empty buffer receives the 10 bytes
49 4D 49 4D 00 01 FF FF FF FF, a header announcing 4294967295 payload bytes of
which none is buffered; `requiredSize` wraps to 9, the frame is taken as
complete and its payload is read from beyond the end of the buffer. -/
theorem wrapped_length_is_not_awaited :
    addData [] [0x49, 0x4D, 0x49, 0x4D, 0x00, 0x01, 0xFF, 0xFF, 0xFF, 0xFF]
      = .error .outOfBounds := by
  decide

/-! ## Registry and dispatch lemmas -/

theorem clientsModify_idem (f : ClientConnection → ClientConnection)
    (hf : ∀ c, f (f c) = f c) (m : List (Int × ClientConnection)) (fd : Int) :
    clientsModify f (clientsModify f m fd) fd = clientsModify f m fd := by
  induction m with
  | nil => rfl
  | cons x xs ih =>
    obtain ⟨k, c⟩ := x
    by_cases hk : k = fd
    · simp [clientsModify, hk, hf]
    · simp [clientsModify, hk, ih]

theorem clientsFind_none_of_lt (m : List (Int × ClientConnection)) (fd : Int)
    (h : ∀ k ∈ m.map Prod.fst, fd < k) : clientsFind m fd = none := by
  induction m with
  | nil => rfl
  | cons x xs ih =>
    obtain ⟨k, c⟩ := x
    have hk : fd < k := h k (by simp)
    have hne : ¬ k = fd := by omega
    simp only [clientsFind, hne, if_false]
    exact ih (fun k2 hk2 => h k2 (by simp at hk2 ⊢; exact Or.inr hk2))

/-- In an ordered registry the erased key is gone. -/
theorem clientsFind_erase (m : List (Int × ClientConnection)) (fd : Int)
    (hord : clientsOrdered m) : clientsFind (clientsErase m fd) fd = none := by
  induction m with
  | nil => rfl
  | cons x xs ih =>
    obtain ⟨k, c⟩ := x
    unfold clientsOrdered at hord
    simp only [List.map_cons, List.pairwise_cons] at hord
    by_cases hk : k = fd
    · subst hk
      simp only [clientsErase, if_true]
      exact clientsFind_none_of_lt xs k hord.1
    · simp only [clientsErase, hk, if_false, clientsFind]
      exact ih hord.2

theorem sendMessage_full (env : Env) (s : EpollServer) (fd : Int) (type : Nat)
    (jsonData : List Byte) (conn : ClientConnection)
    (hreg : clientsFind s.clients_ fd = some conn)
    (hsent : env.send s.calls fd (encode type jsonData) = .sent (encode type jsonData).length) :
    sendMessage env s fd type jsonData = s.issue (.send fd (encode type jsonData)) := by
  simp [sendMessage, hreg, hsent]

theorem closeConnection_calls (s : EpollServer) (fd : Int) :
    ∃ tail, (closeConnection s fd).calls = s.calls ++ tail ∧
      ∀ c ∈ tail, c = SysCall.epollCtlDel s.epollFd_ fd ∨ c = SysCall.close fd := by
  unfold closeConnection
  by_cases he : s.epollFd_ ≥ 0 <;> by_cases hf : fd ≥ 0 <;>
    cases clientsFind s.clients_ fd <;> simp only [he, hf, if_true, if_false, EpollServer.issue]
  · exact ⟨[.epollCtlDel s.epollFd_ fd, .close fd], by simp, by simp⟩
  · exact ⟨[.epollCtlDel s.epollFd_ fd, .close fd], by simp, by simp⟩
  · exact ⟨[.epollCtlDel s.epollFd_ fd], by simp, by simp⟩
  · exact ⟨[.epollCtlDel s.epollFd_ fd], by simp, by simp⟩
  · exact ⟨[.close fd], by simp, by simp⟩
  · exact ⟨[.close fd], by simp, by simp⟩
  · exact ⟨[], by simp, by simp⟩
  · exact ⟨[], by simp, by simp⟩

theorem closeConnection_clients (s : EpollServer) (fd : Int) (conn : ClientConnection)
    (hreg : clientsFind s.clients_ fd = some conn) :
    (closeConnection s fd).clients_ = clientsErase s.clients_ fd := by
  unfold closeConnection
  rw [hreg]
  simp only
  split <;> split <;> rfl

/-- The first system call of `sendMessage` on a registered descriptor is the
`send` of the whole frame. -/
theorem sendMessage_calls (env : Env) (s : EpollServer) (fd : Int) (type : Nat)
    (jsonData : List Byte) (conn : ClientConnection)
    (hreg : clientsFind s.clients_ fd = some conn) :
    ∃ tail, (sendMessage env s fd type jsonData).calls
      = s.calls ++ SysCall.send fd (encode type jsonData) :: tail := by
  unfold sendMessage
  rw [hreg]
  simp only
  generalize encode type jsonData = pkt
  have hclose : ∀ (s1 : EpollServer) (pre : List SysCall), s1.calls = s.calls ++ pre →
      ∃ tail, (closeConnection s1 fd).calls = s.calls ++ (pre ++ tail) := by
    intro s1 pre h1
    obtain ⟨tail, ht, _⟩ := closeConnection_calls s1 fd
    exact ⟨tail, by rw [ht, h1, List.append_assoc]⟩
  cases env.send s.calls fd pkt with
  | failed errno =>
    simp only
    split
    · obtain ⟨tail, ht⟩ := hclose (s.issue (.send fd pkt)) [.send fd pkt] rfl
      exact ⟨tail, by rw [ht]; rfl⟩
    · exact ⟨[], rfl⟩
  | sent n =>
    simp only
    split
    · split
      · generalize List.take (pkt.length - n) (List.drop n pkt) = sfx
        cases env.send (s.issue (.send fd pkt)).calls fd sfx with
        | failed errno =>
          simp only
          split
          · obtain ⟨tail, ht⟩ := hclose ((s.issue (.send fd pkt)).issue (.send fd sfx))
              [.send fd pkt, .send fd sfx] (by simp [EpollServer.issue])
            exact ⟨.send fd sfx :: tail, by rw [ht]; rfl⟩
          · exact ⟨[.send fd sfx], by simp [EpollServer.issue]⟩
        | sent _ => exact ⟨[.send fd sfx], by simp [EpollServer.issue]⟩
      · exact ⟨[], rfl⟩
    · exact ⟨[], rfl⟩

theorem processMessage_gated (h : Handlers) (env : Env) (s : EpollServer) (fd : Int)
    (conn : ClientConnection) (packet : Packet)
    (hreg : clientsFind s.clients_ fd = some conn) (hauth : conn.authenticated = false)
    (htype : packet.type ∈ gatedTypes) :
    processMessage h env s fd packet = sendMessage env s fd MessageType.ERROR notLoggedIn := by
  unfold processMessage
  rw [hreg]
  simp only [gatedTypes, List.mem_cons, List.mem_singleton, List.not_mem_nil, or_false] at htype
  rcases htype with ht | ht | ht | ht | ht | ht | ht | ht | ht | ht | ht | ht | ht | ht | ht
  all_goals
    rw [ht]
    simp [hauth, MessageType.LOGIN_REQUEST, MessageType.REGISTER_REQUEST,
      MessageType.SEND_MESSAGE, MessageType.HEARTBEAT, MessageType.USER_LIST_REQUEST,
      MessageType.LOGOUT, MessageType.FRIEND_APPLY_REQUEST, MessageType.FRIEND_HANDLE_REQUEST,
      MessageType.FRIEND_LIST_REQUEST, MessageType.FRIEND_DELETE_REQUEST,
      MessageType.FRIEND_BLOCK_REQUEST, MessageType.GROUP_CREATE_REQUEST,
      MessageType.GROUP_LIST_REQUEST, MessageType.GROUP_MEMBER_LIST_REQUEST,
      MessageType.GROUP_INVITE_REQUEST, MessageType.GROUP_KICK_REQUEST,
      MessageType.GROUP_QUIT_REQUEST, MessageType.GROUP_DISMISS_REQUEST,
      MessageType.GROUP_UPDATE_INFO_REQUEST]

theorem processMessage_logout (h : Handlers) (env : Env) (s : EpollServer) (fd : Int)
    (conn : ClientConnection) (packet : Packet)
    (hreg : clientsFind s.clients_ fd = some conn) (htype : packet.type = MessageType.LOGOUT) :
    processMessage h env s fd packet = closeConnection s fd := by
  unfold processMessage
  rw [hreg, htype]
  simp [MessageType.LOGIN_REQUEST, MessageType.REGISTER_REQUEST,
      MessageType.SEND_MESSAGE, MessageType.HEARTBEAT, MessageType.USER_LIST_REQUEST,
      MessageType.LOGOUT, MessageType.FRIEND_APPLY_REQUEST, MessageType.FRIEND_HANDLE_REQUEST,
      MessageType.FRIEND_LIST_REQUEST, MessageType.FRIEND_DELETE_REQUEST,
      MessageType.FRIEND_BLOCK_REQUEST, MessageType.GROUP_CREATE_REQUEST,
      MessageType.GROUP_LIST_REQUEST, MessageType.GROUP_MEMBER_LIST_REQUEST,
      MessageType.GROUP_INVITE_REQUEST, MessageType.GROUP_KICK_REQUEST,
      MessageType.GROUP_QUIT_REQUEST, MessageType.GROUP_DISMISS_REQUEST,
      MessageType.GROUP_UPDATE_INFO_REQUEST]

/-! ## The claims about dispatch and the registry -/

/-- C8: a registered connection that is not authenticated sends a packet of
type SEND_MESSAGE, USER_LIST_REQUEST, FRIEND_*_REQUEST or GROUP_*_REQUEST.
Whatever the handlers are, `processMessage` does exactly what one call
`sendMessage(fd, ERROR, {"error_code":1001,"error_message":"请先登录"})` does; the
first system call issued is the `send` of that whole ERROR frame; and when the
kernel accepts the frame in full, nothing else happens: the registry is
unchanged, so the connection is still registered and still unauthenticated. -/
theorem unauthenticated_gated_request_rejected (h : Handlers) (env : Env) (s : EpollServer)
    (fd : Int) (conn : ClientConnection) (packet : Packet)
    (hreg : clientsFind s.clients_ fd = some conn) (hauth : conn.authenticated = false)
    (htype : packet.type ∈ gatedTypes) :
    processMessage h env s fd packet
      = sendMessage env s fd MessageType.ERROR
          (utf8 "\x7b\"error_code\":1001,\"error_message\":\"请先登录\"\x7d") ∧
    (∃ tail, (processMessage h env s fd packet).calls
      = s.calls ++ SysCall.send fd (encode MessageType.ERROR
          (utf8 "\x7b\"error_code\":1001,\"error_message\":\"请先登录\"\x7d")) :: tail) ∧
    (env.send s.calls fd (encode MessageType.ERROR
          (utf8 "\x7b\"error_code\":1001,\"error_message\":\"请先登录\"\x7d"))
        = .sent (encode MessageType.ERROR
          (utf8 "\x7b\"error_code\":1001,\"error_message\":\"请先登录\"\x7d")).length →
      processMessage h env s fd packet
        = { s with calls := s.calls ++ [SysCall.send fd (encode MessageType.ERROR
            (utf8 "\x7b\"error_code\":1001,\"error_message\":\"请先登录\"\x7d"))] } ∧
      clientsFind (processMessage h env s fd packet).clients_ fd = some conn) := by
  have hp := processMessage_gated h env s fd conn packet hreg hauth htype
  rw [hp]
  refine ⟨rfl, sendMessage_calls env s fd _ _ conn hreg, ?_⟩
  intro hsent
  have hfull := sendMessage_full env s fd MessageType.ERROR notLoggedIn conn hreg hsent
  rw [hfull]
  exact ⟨rfl, hreg⟩

theorem unauthenticated_gated_request_rejected_witness :
    (clientsFind freshServer.clients_ 5 = some { fd := 5, authenticated := false } ∧
      ({ fd := 5, authenticated := false } : ClientConnection).authenticated = false ∧
      MessageType.SEND_MESSAGE ∈ gatedTypes) ∧
    processMessage idleHandlers goodEnv freshServer 5
        { magic := MAGIC, type := MessageType.SEND_MESSAGE, length := 0, data := [] }
      = { freshServer with calls := freshServer.calls ++ [SysCall.send 5 (encode MessageType.ERROR
            (utf8 "\x7b\"error_code\":1001,\"error_message\":\"请先登录\"\x7d"))] } :=
  ⟨⟨by decide, by decide, by decide⟩,
    ((unauthenticated_gated_request_rejected idleHandlers goodEnv freshServer 5
      { fd := 5, authenticated := false }
      { magic := MAGIC, type := MessageType.SEND_MESSAGE, length := 0, data := [] }
      (by decide) (by decide) (by decide)).2.2 rfl).1⟩

/-- C9, as stated, fails: the connection fd 5 of `freshServer` is registered
and not authenticated; on a LOGOUT packet `processMessage` issues no `send` at
all, only the removal from epoll and the `close`, and fd 5 is no longer in the
registry. -/
theorem logout_unauthenticated_is_closed :
    (processMessage idleHandlers goodEnv freshServer 5
        { magic := MAGIC, type := MessageType.LOGOUT, length := 0, data := [] }).calls
      = [SysCall.epollCtlDel 4 5, SysCall.close 5] ∧
    clientsFind (processMessage idleHandlers goodEnv freshServer 5
        { magic := MAGIC, type := MessageType.LOGOUT, length := 0, data := [] }).clients_ 5
      = none := by
  decide

/-- C9, amended: LOGOUT is not gated. When a registered connection,
authenticated or not, sends a LOGOUT packet, `processMessage` does exactly what
`closeConnection(fd)` does, whatever the handlers: the fd leaves the registry,
and the only system calls issued are the removal of the fd from epoll and its
`close`; nothing is sent. -/
theorem logout_closes_connection (h : Handlers) (env : Env) (s : EpollServer) (fd : Int)
    (conn : ClientConnection) (packet : Packet)
    (hreg : clientsFind s.clients_ fd = some conn) (hord : clientsOrdered s.clients_)
    (htype : packet.type = MessageType.LOGOUT) :
    processMessage h env s fd packet = closeConnection s fd ∧
    clientsFind (processMessage h env s fd packet).clients_ fd = none ∧
    ∃ tail, (processMessage h env s fd packet).calls = s.calls ++ tail ∧
      ∀ c ∈ tail, c = SysCall.epollCtlDel s.epollFd_ fd ∨ c = SysCall.close fd := by
  rw [processMessage_logout h env s fd conn packet hreg htype]
  refine ⟨rfl, ?_, closeConnection_calls s fd⟩
  rw [closeConnection_clients s fd conn hreg]
  exact clientsFind_erase _ _ hord

theorem logout_closes_connection_witness :
    (clientsFind (setClientAuthenticated freshServer 5 (utf8 "42") (utf8 "alice")).clients_ 5
        = some { fd := 5, authenticated := true, userId := utf8 "42", username := utf8 "alice" } ∧
      clientsOrdered (setClientAuthenticated freshServer 5 (utf8 "42") (utf8 "alice")).clients_) ∧
    clientsFind (processMessage idleHandlers goodEnv
        (setClientAuthenticated freshServer 5 (utf8 "42") (utf8 "alice")) 5
        { magic := MAGIC, type := MessageType.LOGOUT, length := 0, data := [] }).clients_ 5
      = none :=
  ⟨⟨by decide, by decide⟩,
    (logout_closes_connection idleHandlers goodEnv
      (setClientAuthenticated freshServer 5 (utf8 "42") (utf8 "alice")) 5
      { fd := 5, authenticated := true, userId := utf8 "42", username := utf8 "alice" }
      { magic := MAGIC, type := MessageType.LOGOUT, length := 0, data := [] }
      (by decide) (by decide) rfl).2.1⟩

/-- C10: calling `setClientAuthenticated(fd, userId, username)` a second time
with the same arguments leaves the server exactly as the first call left it,
for every registry, fd, userId and username. -/
theorem setClientAuthenticated_twice (s : EpollServer) (fd : Int) (userId username : List Byte) :
    setClientAuthenticated (setClientAuthenticated s fd userId username) fd userId username
      = setClientAuthenticated s fd userId username := by
  simp only [setClientAuthenticated]
  rw [clientsModify_idem]
  intro c
  rfl

/-! ## Closing, accepting, stopping: registry lemmas -/

theorem mem_clientsErase (m : List (Int × ClientConnection)) (fd : Int)
    (e : Int × ClientConnection) (h : e ∈ clientsErase m fd) : e ∈ m := by
  induction m with
  | nil => simp [clientsErase] at h
  | cons x xs ih =>
    obtain ⟨k, c⟩ := x
    by_cases hk : k = fd
    · simp only [clientsErase, hk, if_true] at h
      exact List.mem_cons_of_mem _ h
    · simp only [clientsErase, hk, if_false, List.mem_cons] at h
      rcases h with h | h
      · rw [h]; exact List.mem_cons_self _ _
      · exact List.mem_cons_of_mem _ (ih h)

theorem mem_clientsInsert (m : List (Int × ClientConnection)) (fd : Int) (c : ClientConnection)
    (e : Int × ClientConnection) (h : e ∈ clientsInsert m fd c) : e = (fd, c) ∨ e ∈ m := by
  induction m with
  | nil => simp [clientsInsert] at h; exact Or.inl h
  | cons x xs ih =>
    obtain ⟨k, v⟩ := x
    by_cases h1 : fd < k
    · simp only [clientsInsert, h1, if_true, List.mem_cons] at h
      rcases h with h | h | h
      · exact Or.inl h
      · exact Or.inr (by rw [h]; exact List.mem_cons_self _ _)
      · exact Or.inr (List.mem_cons_of_mem _ h)
    · by_cases h2 : fd = k
      · simp only [clientsInsert, h1, h2, if_true, if_false, List.mem_cons, lt_self_iff_false] at h
        rcases h with h | h
        · exact Or.inl (by rw [h, h2])
        · exact Or.inr (List.mem_cons_of_mem _ h)
      · simp only [clientsInsert, h1, h2, if_false, List.mem_cons] at h
        rcases h with h | h
        · exact Or.inr (by rw [h]; exact List.mem_cons_self _ _)
        · rcases ih h with h | h
          · exact Or.inl h
          · exact Or.inr (List.mem_cons_of_mem _ h)

theorem mem_clientsModify (f : ClientConnection → ClientConnection)
    (m : List (Int × ClientConnection)) (fd : Int) (e : Int × ClientConnection)
    (h : e ∈ clientsModify f m fd) : e ∈ m ∨ ∃ c, e = (fd, f c) := by
  induction m with
  | nil => simp [clientsModify] at h
  | cons x xs ih =>
    obtain ⟨k, c⟩ := x
    by_cases hk : k = fd
    · simp only [clientsModify, hk, if_true, List.mem_cons] at h
      rcases h with h | h
      · exact Or.inr ⟨c, h⟩
      · exact Or.inl (List.mem_cons_of_mem _ h)
    · simp only [clientsModify, hk, if_false, List.mem_cons] at h
      rcases h with h | h
      · exact Or.inl (by rw [h]; exact List.mem_cons_self _ _)
      · rcases ih h with h | h
        · exact Or.inl (List.mem_cons_of_mem _ h)
        · exact Or.inr h

theorem closeConnection_clients_sub (s : EpollServer) (fd : Int)
    (e : Int × ClientConnection) (h : e ∈ (closeConnection s fd).clients_) : e ∈ s.clients_ := by
  unfold closeConnection at h
  cases hf : clientsFind s.clients_ fd with
  | none =>
    rw [hf] at h
    simp only at h
    split at h <;> split at h <;> exact h
  | some c =>
    rw [hf] at h
    simp only at h
    split at h <;> split at h <;> exact mem_clientsErase _ _ _ h

theorem authHasUserId_accept (results : List AcceptResult) :
    ∀ (s : EpollServer), authHasUserId s.clients_ →
      authHasUserId (acceptConnection s results).clients_ := by
  induction results with
  | nil => intro s h; exact h
  | cons r rs ih =>
    intro s h
    cases r with
    | failed => exact ih s h
    | accepted clientFd added =>
      cases added with
      | false => exact ih _ h
      | true =>
        apply ih
        intro e he hauth
        rcases mem_clientsInsert _ _ _ _ he with he | he
        · rw [he] at hauth; cases hauth
        · exact h e he hauth

theorem stop_clients (s : EpollServer) :
    (stop s).clients_ = s.clients_ ∨ (stop s).clients_ = [] := by
  unfold stop
  split
  · exact Or.inl rfl
  · simp only
    split <;> split <;> exact Or.inr rfl

theorem authHasUserId_applyOp (s : EpollServer) (op : RegistryOp)
    (h : authHasUserId s.clients_)
    (hop : ∀ fd userId username, op = .setClientAuthenticated fd userId username → userId ≠ []) :
    authHasUserId (applyOp s op).clients_ := by
  cases op with
  | accept results => exact authHasUserId_accept results s h
  | setClientAuthenticated fd userId username =>
    intro e he hauth
    simp only [applyOp, setClientAuthenticated] at he
    rcases mem_clientsModify _ _ _ _ he with he | ⟨c, he⟩
    · exact h e he hauth
    · rw [he]
      exact hop fd userId username rfl
  | closeConnection fd =>
    intro e he hauth
    exact h e (closeConnection_clients_sub s fd e he) hauth
  | stop =>
    intro e he hauth
    simp only [applyOp] at he
    rcases stop_clients s with hs | hs
    · rw [hs] at he; exact h e he hauth
    · rw [hs] at he; cases he

theorem authHasUserId_runOps (ops : List RegistryOp) :
    ∀ (s : EpollServer), authHasUserId s.clients_ →
      (∀ op ∈ ops, ∀ fd userId username,
        op = .setClientAuthenticated fd userId username → userId ≠ []) →
      authHasUserId (runOps s ops).clients_ := by
  induction ops with
  | nil => intro s h _; exact h
  | cons op rest ih =>
    intro s h hops
    simp only [runOps, List.foldl_cons]
    exact ih _ (authHasUserId_applyOp s op h (hops op (List.mem_cons_self _ _)))
      (fun o ho => hops o (List.mem_cons_of_mem _ ho))

/-! ## The claims about closing and about the authenticated connections -/

/-- C11, as stated, fails: fd 5 of `freshServer` is closed once and is gone
from the registry; the second `closeConnection(5)` again removes fd 5 from
epoll and again closes the descriptor. -/
theorem closeConnection_again_closes_again :
    clientsFind (closeConnection freshServer 5).clients_ 5 = none ∧
    (closeConnection (closeConnection freshServer 5) 5).calls
      = (closeConnection freshServer 5).calls ++ [SysCall.epollCtlDel 4 5, SysCall.close 5] := by
  decide

/-- C11, amended: `closeConnection` on an fd that is not in the registry
leaves the registry and every other member of the server as they are, but it
still issues `epoll_ctl(EPOLL_CTL_DEL)` for the fd (when the epoll descriptor
is open) and `close(fd)` (when `fd >= 0`). -/
theorem closeConnection_unregistered (s : EpollServer) (fd : Int)
    (h : clientsFind s.clients_ fd = none) :
    closeConnection s fd
      = { s with calls := s.calls
            ++ (if s.epollFd_ ≥ 0 then [SysCall.epollCtlDel s.epollFd_ fd] else [])
            ++ (if fd ≥ 0 then [SysCall.close fd] else []) } := by
  unfold closeConnection
  rw [h]
  by_cases he : s.epollFd_ ≥ 0 <;> by_cases hf : fd ≥ 0 <;>
    simp [he, hf, EpollServer.issue]

theorem closeConnection_unregistered_witness :
    clientsFind (closeConnection freshServer 5).clients_ 5 = none ∧
    (closeConnection (closeConnection freshServer 5) 5).clients_
      = (closeConnection freshServer 5).clients_ :=
  ⟨by decide, by rw [closeConnection_unregistered (closeConnection freshServer 5) 5 (by decide)]⟩

/-- C12, as stated, fails: a connection is accepted on fd 5 and
`setClientAuthenticated(5, "", "alice")` is called; the connection is then
authenticated with an empty userId. -/
theorem authenticated_with_empty_userId :
    ¬ authHasUserId
      (runOps startedServer
        [.accept [.accepted 5 true], .setClientAuthenticated 5 [] (utf8 "alice")]).clients_ := by
  decide

/-- C12, amended: starting from an empty registry, after any sequence of
`acceptConnection`, `setClientAuthenticated`, `closeConnection` and `stop` in
which every `setClientAuthenticated` is called with a non-empty userId, every
connection whose authenticated flag is true has a non-empty userId. -/
theorem authenticated_has_userId (s : EpollServer) (ops : List RegistryOp)
    (hs : s.clients_ = [])
    (hops : ∀ op ∈ ops, ∀ fd userId username,
      op = .setClientAuthenticated fd userId username → userId ≠ []) :
    ∀ e ∈ (runOps s ops).clients_, e.2.authenticated = true → e.2.userId ≠ [] :=
  authHasUserId_runOps ops s (by rw [hs]; intro e he; cases he) hops

theorem authenticated_has_userId_witness :
    (startedServer.clients_ = [] ∧
      ∀ op ∈ [RegistryOp.accept [.accepted 5 true, .failed, .accepted 6 true],
              .setClientAuthenticated 5 (utf8 "42") (utf8 "alice"), .closeConnection 6],
        ∀ fd userId username,
          op = .setClientAuthenticated fd userId username → userId ≠ []) ∧
    ∀ e ∈ (runOps startedServer
        [.accept [.accepted 5 true, .failed, .accepted 6 true],
         .setClientAuthenticated 5 (utf8 "42") (utf8 "alice"), .closeConnection 6]).clients_,
      e.2.authenticated = true → e.2.userId ≠ [] :=
  have hops : ∀ op ∈ [RegistryOp.accept [.accepted 5 true, .failed, .accepted 6 true],
              .setClientAuthenticated 5 (utf8 "42") (utf8 "alice"), .closeConnection 6],
        ∀ fd userId username,
          op = .setClientAuthenticated fd userId username → userId ≠ [] := by
    intro op hop fd userId username h
    simp only [List.mem_cons, List.mem_singleton, List.not_mem_nil, or_false] at hop
    rcases hop with hop | hop | hop
    · rw [hop] at h; cases h
    · rw [hop] at h
      injection h with _ h2 _
      rw [← h2]; decide
    · rw [hop] at h; cases h
  ⟨⟨rfl, hops⟩, authenticated_has_userId startedServer _ rfl hops⟩

/-! ## What one `sendMessage` does -/

theorem isConnectionError_iff (e : Nat) : isConnectionError e = true ↔ fatalErrno e := by
  simp [isConnectionError, fatalErrno, or_assoc]

theorem closeConnection_registered (s : EpollServer) (fd : Int) (conn : ClientConnection)
    (h : clientsFind s.clients_ fd = some conn) :
    closeConnection s fd
      = { s with
          clients_ := clientsErase s.clients_ fd,
          calls := s.calls
            ++ (if s.epollFd_ ≥ 0 then [SysCall.epollCtlDel s.epollFd_ fd] else [])
            ++ (if fd ≥ 0 then [SysCall.close fd] else []) } := by
  unfold closeConnection
  rw [h]
  by_cases he : s.epollFd_ ≥ 0 <;> by_cases hf : fd ≥ 0 <;>
    simp [he, hf, EpollServer.issue]

theorem sendMessage_unregistered (env : Env) (s : EpollServer) (fd : Int) (type : Nat)
    (jsonData : List Byte) (h : clientsFind s.clients_ fd = none) :
    sendMessage env s fd type jsonData = s := by
  simp [sendMessage, h]

theorem sendMessage_failed (env : Env) (s : EpollServer) (fd : Int) (type : Nat)
    (jsonData : List Byte) (conn : ClientConnection) (e : Nat)
    (hreg : clientsFind s.clients_ fd = some conn)
    (h1 : env.send s.calls fd (encode type jsonData) = .failed e) :
    sendMessage env s fd type jsonData
      = if isConnectionError e then
          closeConnection (s.issue (.send fd (encode type jsonData))) fd
        else s.issue (.send fd (encode type jsonData)) := by
  simp [sendMessage, hreg, h1]

theorem sendMessage_sent_whole (env : Env) (s : EpollServer) (fd : Int) (type : Nat)
    (jsonData : List Byte) (conn : ClientConnection) (n : Nat)
    (hreg : clientsFind s.clients_ fd = some conn)
    (h1 : env.send s.calls fd (encode type jsonData) = .sent n)
    (hn : ¬ (0 < n ∧ n < (encode type jsonData).length)) :
    sendMessage env s fd type jsonData = s.issue (.send fd (encode type jsonData)) := by
  simp only [sendMessage, hreg, h1]
  split <;> rfl

theorem sendMessage_short (env : Env) (s : EpollServer) (fd : Int) (type : Nat)
    (jsonData : List Byte) (conn : ClientConnection) (n : Nat)
    (hreg : clientsFind s.clients_ fd = some conn)
    (h1 : env.send s.calls fd (encode type jsonData) = .sent n)
    (hn : 0 < n ∧ n < (encode type jsonData).length) :
    sendMessage env s fd type jsonData
      = match env.send (s.calls ++ [.send fd (encode type jsonData)]) fd
            ((encode type jsonData).drop n) with
        | .failed e =>
          if isConnectionError e then
            closeConnection ((s.issue (.send fd (encode type jsonData))).issue
              (.send fd ((encode type jsonData).drop n))) fd
          else (s.issue (.send fd (encode type jsonData))).issue
              (.send fd ((encode type jsonData).drop n))
        | .sent _ => (s.issue (.send fd (encode type jsonData))).issue
              (.send fd ((encode type jsonData).drop n)) := by
  have htake : ((encode type jsonData).drop n).take ((encode type jsonData).length - n)
      = (encode type jsonData).drop n :=
    List.take_of_length_le (by rw [List.length_drop])
  have hne : n ≠ (encode type jsonData).length := by omega
  simp only [sendMessage, hreg, h1, htake, if_pos hn, EpollServer.issue, ne_eq, hne,
    not_false_eq_true, if_true]

theorem frameRecipients_append (frame : List Byte) (a b : List SysCall) :
    frameRecipients frame (a ++ b) = frameRecipients frame a ++ frameRecipients frame b := by
  simp [frameRecipients, List.filterMap_append]

theorem frameRecipients_send (frame : List Byte) (fd : Int) (rest : List SysCall) :
    frameRecipients frame (.send fd frame :: rest) = fd :: frameRecipients frame rest := by
  simp [frameRecipients, List.filterMap_cons]

theorem frameRecipients_other (frame : List Byte) (fd : Int) (bytes : List Byte)
    (rest : List SysCall) (h : bytes ≠ frame) :
    frameRecipients frame (.send fd bytes :: rest) = frameRecipients frame rest := by
  simp [frameRecipients, List.filterMap_cons, h]

/-- What `closeConnection` adds to the trace concerns `fd` and is no `send`. -/
theorem closeConnection_effect (st : EpollServer) (fd : Int) (conn : ClientConnection)
    (hreg : clientsFind st.clients_ fd = some conn) :
    ∃ tail, (closeConnection st fd).calls = st.calls ++ tail ∧
      (∀ frame, frameRecipients frame tail = []) ∧ (∀ c ∈ tail, c.fd = fd) ∧
      (closeConnection st fd).clients_ = clientsErase st.clients_ fd ∧
      writesOf tail = [] := by
  obtain ⟨tail, ht, hc⟩ := closeConnection_calls st fd
  refine ⟨tail, ht, ?_, ?_, closeConnection_clients st fd conn hreg, ?_⟩
  · intro frame
    clear ht
    induction tail with
    | nil => rfl
    | cons c cs ih =>
      have hcs := ih (fun x hx => hc x (List.mem_cons_of_mem _ hx))
      rcases hc c (List.mem_cons_self _ _) with h | h <;>
        (rw [h]; simpa [frameRecipients, List.filterMap_cons] using hcs)
  · intro c hmem
    rcases hc c hmem with h | h <;> (rw [h]; rfl)
  · clear ht
    induction tail with
    | nil => rfl
    | cons c cs ih =>
      have hcs := ih (fun x hx => hc x (List.mem_cons_of_mem _ hx))
      rcases hc c (List.mem_cons_self _ _) with h | h <;>
        (rw [h]; simpa [writesOf, List.filterMap_cons] using hcs)

/-- The outcome of `sendMessage` on a registered descriptor, in one formula. -/
theorem sendMessage_effect (env : Env) (s : EpollServer) (fd : Int) (type : Nat)
    (jsonData : List Byte) (conn : ClientConnection)
    (hreg : clientsFind s.clients_ fd = some conn) :
    ∃ tail, (sendMessage env s fd type jsonData).calls
        = s.calls ++ SysCall.send fd (encode type jsonData) :: tail ∧
      frameRecipients (encode type jsonData) tail = [] ∧
      (∀ c ∈ tail, c.fd = fd) ∧
      ((sendMessage env s fd type jsonData).clients_ = s.clients_ ∨
        (sendMessage env s fd type jsonData).clients_ = clientsErase s.clients_ fd) := by
  cases h1 : env.send s.calls fd (encode type jsonData) with
  | failed e =>
    rw [sendMessage_failed env s fd type jsonData conn e hreg h1]
    split
    · obtain ⟨tail, ht, hf, hfd, hcl, _⟩ :=
        closeConnection_effect (s.issue (.send fd (encode type jsonData))) fd conn hreg
      refine ⟨tail, ?_, hf _, hfd, Or.inr hcl⟩
      rw [ht]
      simp [EpollServer.issue]
    · exact ⟨[], rfl, rfl, (by intro c hc; cases hc), Or.inl rfl⟩
  | sent n =>
    by_cases hn : 0 < n ∧ n < (encode type jsonData).length
    · rw [sendMessage_short env s fd type jsonData conn n hreg h1 hn]
      have hsfx : (encode type jsonData).drop n ≠ encode type jsonData := by
        intro h
        have := congrArg List.length h
        rw [List.length_drop] at this
        omega
      have hone : ∀ c ∈ [SysCall.send fd ((encode type jsonData).drop n)], c.fd = fd := by
        intro c hc
        rw [List.mem_singleton] at hc
        rw [hc]; rfl
      cases env.send (s.calls ++ [.send fd (encode type jsonData)]) fd
          ((encode type jsonData).drop n) with
      | failed e =>
        simp only
        split
        · obtain ⟨tail, ht, hf, hfd, hcl, _⟩ :=
            closeConnection_effect ((s.issue (.send fd (encode type jsonData))).issue
              (.send fd ((encode type jsonData).drop n))) fd conn hreg
          refine ⟨.send fd ((encode type jsonData).drop n) :: tail, ?_, ?_, ?_, Or.inr hcl⟩
          · rw [ht]
            simp [EpollServer.issue]
          · rw [frameRecipients_other _ _ _ _ hsfx]
            exact hf _
          · intro c hc
            rcases List.mem_cons.mp hc with hc | hc
            · rw [hc]; rfl
            · exact hfd c hc
        · exact ⟨[.send fd ((encode type jsonData).drop n)],
            (by simp [EpollServer.issue]), (by rw [frameRecipients_other _ _ _ _ hsfx]; rfl),
            hone, Or.inl rfl⟩
      | sent k =>
        exact ⟨[.send fd ((encode type jsonData).drop n)],
            (by simp [EpollServer.issue]), (by rw [frameRecipients_other _ _ _ _ hsfx]; rfl),
            hone, Or.inl rfl⟩
    · rw [sendMessage_sent_whole env s fd type jsonData conn n hreg h1 hn]
      exact ⟨[], rfl, rfl, (by intro c hc; cases hc), Or.inl rfl⟩

theorem clientsFind_some_of_issue (s : EpollServer) (c : SysCall) :
    (s.issue c).clients_ = s.clients_ := rfl

/-! ## The claim about `sendMessage` -/

/-- C15: on an fd that is not in the registry `sendMessage` does nothing. On a
registered fd it writes the encoding of (type, payload) once; when that write
takes `n` bytes with `0 < n < size` it writes once more, exactly the bytes
from offset `n` on, and otherwise it writes nothing more; the connection is
removed from the registry if and only if one of these writes fails with EPIPE,
ECONNRESET or EBADF, in which case the server is left as `closeConnection(fd)`
leaves it; without such a failure the registry is unchanged and every system
call issued is a `send` on `fd`. (`errno` is taken as `send` left it.) -/
theorem sendMessage_contract (env : Env) (s : EpollServer) (fd : Int) (type : Nat)
    (jsonData : List Byte) :
    (clientsFind s.clients_ fd = none → sendMessage env s fd type jsonData = s) ∧
    (∀ conn, clientsFind s.clients_ fd = some conn → clientsOrdered s.clients_ →
      (∀ n, shortWrite env s fd (encode type jsonData) n →
        writesOf ((sendMessage env s fd type jsonData).calls.drop s.calls.length)
          = [(fd, encode type jsonData), (fd, (encode type jsonData).drop n)]) ∧
      ((¬ ∃ n, shortWrite env s fd (encode type jsonData) n) →
        writesOf ((sendMessage env s fd type jsonData).calls.drop s.calls.length)
          = [(fd, encode type jsonData)]) ∧
      (clientsFind (sendMessage env s fd type jsonData).clients_ fd = none
        ↔ fatalWrite env s fd (encode type jsonData)) ∧
      (fatalWrite env s fd (encode type jsonData) →
        ∃ st, st.clients_ = s.clients_ ∧
          sendMessage env s fd type jsonData = closeConnection st fd) ∧
      (¬ fatalWrite env s fd (encode type jsonData) →
        (sendMessage env s fd type jsonData).clients_ = s.clients_ ∧
        ∀ c ∈ (sendMessage env s fd type jsonData).calls.drop s.calls.length,
          ∃ bytes, c = SysCall.send fd bytes)) := by
  refine ⟨sendMessage_unregistered env s fd type jsonData, ?_⟩
  intro conn hreg hord
  have hgone : clientsFind (clientsErase s.clients_ fd) fd = none :=
    clientsFind_erase _ _ hord
  have hhere : ¬ clientsFind s.clients_ fd = none := by rw [hreg]; simp
  cases h1 : env.send s.calls fd (encode type jsonData) with
  | failed e =>
    have hns : ¬ ∃ n, shortWrite env s fd (encode type jsonData) n := by
      rintro ⟨n, h, _⟩; rw [h1] at h; cases h
    have hfw : fatalWrite env s fd (encode type jsonData) ↔ fatalErrno e := by
      constructor
      · rintro (⟨e2, h, hf⟩ | ⟨n, e2, hsw, _⟩)
        · rw [h1] at h; cases h; exact hf
        · exact absurd ⟨n, hsw⟩ hns
      · intro hf; exact Or.inl ⟨e, h1, hf⟩
    rw [sendMessage_failed env s fd type jsonData conn e hreg h1]
    by_cases hf : isConnectionError e = true
    · rw [if_pos hf]
      obtain ⟨tail, ht, _, _, hcl, hw⟩ :=
        closeConnection_effect (s.issue (.send fd (encode type jsonData))) fd conn hreg
      have hnew : (closeConnection (s.issue (.send fd (encode type jsonData))) fd).calls.drop
          s.calls.length = SysCall.send fd (encode type jsonData) :: tail := by
        rw [ht]; simp [EpollServer.issue]
      have hfe := (isConnectionError_iff e).mp hf
      refine ⟨?_, ?_, ?_, ?_, ?_⟩
      · intro n hsw; exact absurd ⟨n, hsw⟩ hns
      · intro _
        rw [hnew]
        simp only [writesOf, List.filterMap_cons] at hw ⊢
        rw [hw]
      · rw [hcl]
        exact ⟨fun _ => hfw.mpr hfe, fun _ => hgone⟩
      · intro _; exact ⟨s.issue (.send fd (encode type jsonData)), rfl, rfl⟩
      · intro hnf; exact absurd (hfw.mpr hfe) hnf
    · rw [if_neg hf]
      have hfe : ¬ fatalErrno e := fun h => hf ((isConnectionError_iff e).mpr h)
      have hnew : (s.issue (.send fd (encode type jsonData))).calls.drop s.calls.length
          = [SysCall.send fd (encode type jsonData)] := by
        simp [EpollServer.issue]
      refine ⟨?_, ?_, ?_, ?_, ?_⟩
      · intro n hsw; exact absurd ⟨n, hsw⟩ hns
      · intro _; rw [hnew]; rfl
      · exact ⟨fun h => absurd h hhere, fun h => absurd (hfw.mp h) hfe⟩
      · intro h; exact absurd (hfw.mp h) hfe
      · intro _
        refine ⟨rfl, ?_⟩
        intro c hc
        rw [hnew, List.mem_singleton] at hc
        exact ⟨_, hc⟩
  | sent n =>
    by_cases hn : 0 < n ∧ n < (encode type jsonData).length
    · have hsw : shortWrite env s fd (encode type jsonData) n := ⟨h1, hn.1, hn.2⟩
      have hsame : ∀ m, shortWrite env s fd (encode type jsonData) m → m = n := by
        rintro m ⟨h, _⟩; rw [h1] at h; cases h; rfl
      rw [sendMessage_short env s fd type jsonData conn n hreg h1 hn]
      cases h2 : env.send (s.calls ++ [.send fd (encode type jsonData)]) fd
          ((encode type jsonData).drop n) with
      | failed e =>
        have hfw : fatalWrite env s fd (encode type jsonData) ↔ fatalErrno e := by
          constructor
          · rintro (⟨e2, h, _⟩ | ⟨m, e2, hm, h, hf⟩)
            · rw [h1] at h; cases h
            · rw [hsame m hm, h2] at h; cases h; exact hf
          · intro hf; exact Or.inr ⟨n, e, hsw, h2, hf⟩
        simp only
        by_cases hf : isConnectionError e = true
        · rw [if_pos hf]
          obtain ⟨tail, ht, _, _, hcl, hw⟩ :=
            closeConnection_effect ((s.issue (.send fd (encode type jsonData))).issue
              (.send fd ((encode type jsonData).drop n))) fd conn hreg
          have hnew : (closeConnection ((s.issue (.send fd (encode type jsonData))).issue
              (.send fd ((encode type jsonData).drop n))) fd).calls.drop s.calls.length
              = SysCall.send fd (encode type jsonData)
                :: SysCall.send fd ((encode type jsonData).drop n) :: tail := by
            rw [ht]; simp [EpollServer.issue]
          have hfe := (isConnectionError_iff e).mp hf
          refine ⟨?_, ?_, ?_, ?_, ?_⟩
          · intro m hm
            rw [hsame m hm, hnew]
            simp only [writesOf, List.filterMap_cons] at hw ⊢
            rw [hw]
          · intro h; exact absurd ⟨n, hsw⟩ h
          · rw [hcl]
            exact ⟨fun _ => hfw.mpr hfe, fun _ => hgone⟩
          · intro _
            exact ⟨(s.issue (.send fd (encode type jsonData))).issue
              (.send fd ((encode type jsonData).drop n)), rfl, rfl⟩
          · intro hnf; exact absurd (hfw.mpr hfe) hnf
        · rw [if_neg hf]
          have hfe : ¬ fatalErrno e := fun h => hf ((isConnectionError_iff e).mpr h)
          have hnew : ((s.issue (.send fd (encode type jsonData))).issue
              (.send fd ((encode type jsonData).drop n))).calls.drop s.calls.length
              = [SysCall.send fd (encode type jsonData),
                 SysCall.send fd ((encode type jsonData).drop n)] := by
            simp [EpollServer.issue]
          refine ⟨?_, ?_, ?_, ?_, ?_⟩
          · intro m hm; rw [hsame m hm, hnew]; rfl
          · intro h; exact absurd ⟨n, hsw⟩ h
          · exact ⟨fun h => absurd h hhere, fun h => absurd (hfw.mp h) hfe⟩
          · intro h; exact absurd (hfw.mp h) hfe
          · intro _
            refine ⟨rfl, ?_⟩
            intro c hc
            rw [hnew] at hc
            simp only [List.mem_cons, List.mem_singleton, List.not_mem_nil, or_false] at hc
            rcases hc with hc | hc <;> exact ⟨_, hc⟩
      | sent k =>
        have hfw : ¬ fatalWrite env s fd (encode type jsonData) := by
          rintro (⟨e2, h, _⟩ | ⟨m, e2, hm, h, _⟩)
          · rw [h1] at h; cases h
          · rw [hsame m hm, h2] at h; cases h
        simp only
        have hnew : ((s.issue (.send fd (encode type jsonData))).issue
            (.send fd ((encode type jsonData).drop n))).calls.drop s.calls.length
            = [SysCall.send fd (encode type jsonData),
               SysCall.send fd ((encode type jsonData).drop n)] := by
          simp [EpollServer.issue]
        refine ⟨?_, ?_, ?_, ?_, ?_⟩
        · intro m hm; rw [hsame m hm, hnew]; rfl
        · intro h; exact absurd ⟨n, hsw⟩ h
        · exact ⟨fun h => absurd h hhere, fun h => absurd h hfw⟩
        · intro h; exact absurd h hfw
        · intro _
          refine ⟨rfl, ?_⟩
          intro c hc
          rw [hnew] at hc
          simp only [List.mem_cons, List.mem_singleton, List.not_mem_nil, or_false] at hc
          rcases hc with hc | hc <;> exact ⟨_, hc⟩
    · have hns : ¬ ∃ m, shortWrite env s fd (encode type jsonData) m := by
        rintro ⟨m, h, hm1, hm2⟩; rw [h1] at h; cases h; exact hn ⟨hm1, hm2⟩
      have hfw : ¬ fatalWrite env s fd (encode type jsonData) := by
        rintro (⟨e2, h, _⟩ | ⟨m, e2, hm, _⟩)
        · rw [h1] at h; cases h
        · exact hns ⟨m, hm⟩
      rw [sendMessage_sent_whole env s fd type jsonData conn n hreg h1 hn]
      have hnew : (s.issue (.send fd (encode type jsonData))).calls.drop s.calls.length
          = [SysCall.send fd (encode type jsonData)] := by
        simp [EpollServer.issue]
      refine ⟨?_, ?_, ?_, ?_, ?_⟩
      · intro m hm; exact absurd ⟨m, hm⟩ hns
      · intro _; rw [hnew]; rfl
      · exact ⟨fun h => absurd h hhere, fun h => absurd h hfw⟩
      · intro h; exact absurd h hfw
      · intro _
        refine ⟨rfl, ?_⟩
        intro c hc
        rw [hnew, List.mem_singleton] at hc
        exact ⟨_, hc⟩

/-! ## Looking up users and descriptors -/

theorem clientsFind_mem (m : List (Int × ClientConnection)) (k : Int) (c : ClientConnection)
    (h : clientsFind m k = some c) : (k, c) ∈ m := by
  induction m with
  | nil => simp [clientsFind] at h
  | cons x xs ih =>
    obtain ⟨k2, c2⟩ := x
    by_cases hk : k2 = k
    · simp only [clientsFind, hk, if_true, Option.some.injEq] at h
      rw [hk, h]; exact List.mem_cons_self _ _
    · simp only [clientsFind, hk, if_false] at h
      exact List.mem_cons_of_mem _ (ih h)

theorem clientsFind_of_mem (m : List (Int × ClientConnection)) (k : Int) (c : ClientConnection)
    (hord : clientsOrdered m) (h : (k, c) ∈ m) : clientsFind m k = some c := by
  induction m with
  | nil => cases h
  | cons x xs ih =>
    obtain ⟨k2, c2⟩ := x
    unfold clientsOrdered at hord
    simp only [List.map_cons, List.pairwise_cons] at hord
    rcases List.mem_cons.mp h with h | h
    · cases h
      simp [clientsFind]
    · have hlt : k2 < k := hord.1 k (List.mem_map.mpr ⟨(k, c), h, rfl⟩)
      have hne : ¬ k2 = k := by omega
      simp only [clientsFind, hne, if_false]
      exact ih hord.2 h

theorem clientsFind_erase_ne (m : List (Int × ClientConnection)) (fd k : Int) (h : k ≠ fd) :
    clientsFind (clientsErase m fd) k = clientsFind m k := by
  induction m with
  | nil => rfl
  | cons x xs ih =>
    obtain ⟨k2, c2⟩ := x
    by_cases hk : k2 = fd
    · have hne : ¬ k2 = k := by rw [hk]; exact fun e => h e.symm
      simp only [clientsErase, clientsFind, hk, hne, if_true, if_false]
      rw [if_neg (fun e => h e.symm)]
    · by_cases hk2 : k2 = k
      · subst hk2
        simp only [clientsErase, hk, if_false, clientsFind, if_true]
      · simp only [clientsErase, hk, if_false, clientsFind, hk2, ih]

/-- When nobody is authenticated as `userId` the search ends with `-1`. -/
theorem findUserFd_none (m : List (Int × ClientConnection)) (userId : List Byte)
    (h : ¬ ∃ e ∈ m, e.2.authenticated = true ∧ e.2.userId = userId) :
    findUserFd m userId = -1 := by
  induction m with
  | nil => rfl
  | cons x xs ih =>
    obtain ⟨k, c⟩ := x
    have hx : ¬ (c.authenticated = true ∧ c.userId = userId) :=
      fun hc => h ⟨(k, c), List.mem_cons_self _ _, hc⟩
    simp only [findUserFd, hx, if_false]
    exact ih (fun ⟨e, he, hc⟩ => h ⟨e, List.mem_cons_of_mem _ he, hc⟩)

/-- When somebody is authenticated as `userId` the search ends on the lowest
such descriptor. -/
theorem findUserFd_found (m : List (Int × ClientConnection)) (userId : List Byte)
    (hord : clientsOrdered m)
    (h : ∃ e ∈ m, e.2.authenticated = true ∧ e.2.userId = userId) :
    ∃ conn, (findUserFd m userId, conn) ∈ m ∧ conn.authenticated = true ∧
      conn.userId = userId ∧
      ∀ e ∈ m, e.2.authenticated = true → e.2.userId = userId → findUserFd m userId ≤ e.1 := by
  induction m with
  | nil => obtain ⟨e, he, _⟩ := h; cases he
  | cons x xs ih =>
    obtain ⟨k, c⟩ := x
    unfold clientsOrdered at hord
    simp only [List.map_cons, List.pairwise_cons] at hord
    by_cases hx : c.authenticated = true ∧ c.userId = userId
    · simp only [findUserFd, hx, and_self, if_true]
      refine ⟨c, List.mem_cons_self _ _, hx.1, hx.2, ?_⟩
      intro e he _ _
      rcases List.mem_cons.mp he with he | he
      · rw [he]
      · exact le_of_lt (hord.1 e.1 (List.mem_map.mpr ⟨e, he, rfl⟩))
    · simp only [findUserFd, hx, if_false]
      have h2 : ∃ e ∈ xs, e.2.authenticated = true ∧ e.2.userId = userId := by
        obtain ⟨e, he, hc⟩ := h
        rcases List.mem_cons.mp he with he | he
        · rw [he] at hc; exact absurd hc hx
        · exact ⟨e, he, hc⟩
      obtain ⟨conn, hm, ha, hu, hleast⟩ := ih hord.2 h2
      refine ⟨conn, List.mem_cons_of_mem _ hm, ha, hu, ?_⟩
      intro e he hea heu
      rcases List.mem_cons.mp he with he | he
      · rw [he] at hea heu; exact absurd ⟨hea, heu⟩ hx
      · exact hleast e he hea heu

/-- What `sendMessageToUser` does, by cases on whether the user is online. -/
theorem sendMessageToUser_spec (env : Env) (s : EpollServer) (userId : List Byte)
    (type : Nat) (jsonData : List Byte) (hv : registryValid s.clients_) :
    ((∃ e ∈ s.clients_, e.2.authenticated = true ∧ e.2.userId = userId) →
      ∃ fd conn, clientsFind s.clients_ fd = some conn ∧
        conn.authenticated = true ∧ conn.userId = userId ∧
        (∀ e ∈ s.clients_, e.2.authenticated = true → e.2.userId = userId → fd ≤ e.1) ∧
        sendMessageToUser env s userId type jsonData = sendMessage env s fd type jsonData ∧
        frameRecipients (encode type jsonData)
          ((sendMessageToUser env s userId type jsonData).calls.drop s.calls.length) = [fd] ∧
        ∀ c ∈ (sendMessageToUser env s userId type jsonData).calls.drop s.calls.length,
          c.fd = fd) ∧
    ((¬ ∃ e ∈ s.clients_, e.2.authenticated = true ∧ e.2.userId = userId) →
      sendMessageToUser env s userId type jsonData = s) := by
  constructor
  · intro h
    obtain ⟨conn, hm, ha, hu, hleast⟩ := findUserFd_found s.clients_ userId hv.1 h
    have hpos : findUserFd s.clients_ userId ≥ 0 := hv.2 _ hm
    have hfind := clientsFind_of_mem _ _ _ hv.1 hm
    have hsend : sendMessageToUser env s userId type jsonData
        = sendMessage env s (findUserFd s.clients_ userId) type jsonData := by
      simp only [sendMessageToUser, hpos, if_true]
    obtain ⟨tail, ht, hfr, hfd, _⟩ :=
      sendMessage_effect env s (findUserFd s.clients_ userId) type jsonData conn hfind
    have hnew : (sendMessageToUser env s userId type jsonData).calls.drop s.calls.length
        = SysCall.send (findUserFd s.clients_ userId) (encode type jsonData) :: tail := by
      rw [hsend, ht, List.drop_left]
    refine ⟨_, conn, hfind, ha, hu, hleast, hsend, ?_, ?_⟩
    · rw [hnew, frameRecipients_send, hfr]
    · intro c hc
      rw [hnew] at hc
      rcases List.mem_cons.mp hc with hc | hc
      · rw [hc]; rfl
      · exact hfd c hc
  · intro h
    simp [sendMessageToUser, findUserFd_none s.clients_ userId h]

/-! ## The claim about `sendMessageToUser` -/

/-- C13: in a registry as the server builds it (keys increasing and not
negative), when some connection is authenticated as `userId`,
`sendMessageToUser` does exactly what one `sendMessage` to the lowest such
descriptor does, and every system call it issues is on that descriptor; when
no connection is authenticated as `userId` it leaves the server as it is:
no write, no change. -/
theorem sendMessageToUser_contract (env : Env) (s : EpollServer) (userId : List Byte)
    (type : Nat) (jsonData : List Byte) (hv : registryValid s.clients_) :
    ((∃ e ∈ s.clients_, e.2.authenticated = true ∧ e.2.userId = userId) →
      ∃ fd conn, clientsFind s.clients_ fd = some conn ∧
        conn.authenticated = true ∧ conn.userId = userId ∧
        (∀ e ∈ s.clients_, e.2.authenticated = true → e.2.userId = userId → fd ≤ e.1) ∧
        sendMessageToUser env s userId type jsonData = sendMessage env s fd type jsonData ∧
        frameRecipients (encode type jsonData)
          ((sendMessageToUser env s userId type jsonData).calls.drop s.calls.length) = [fd] ∧
        ∀ c ∈ (sendMessageToUser env s userId type jsonData).calls.drop s.calls.length,
          c.fd = fd) ∧
    ((¬ ∃ e ∈ s.clients_, e.2.authenticated = true ∧ e.2.userId = userId) →
      sendMessageToUser env s userId type jsonData = s) :=
  sendMessageToUser_spec env s userId type jsonData hv

/-! ## Broadcast -/

theorem mem_broadcastTargets (m : List (Int × ClientConnection)) (excludeFd fd : Int)
    (hord : clientsOrdered m) :
    fd ∈ broadcastTargets m excludeFd ↔
      (∃ c, clientsFind m fd = some c ∧ c.authenticated = true) ∧ fd ≠ excludeFd := by
  simp only [broadcastTargets, List.mem_map, List.mem_filter, decide_eq_true_eq]
  constructor
  · rintro ⟨e, ⟨he, ha, hne⟩, rfl⟩
    exact ⟨⟨e.2, clientsFind_of_mem m e.1 e.2 hord he, ha⟩, hne⟩
  · rintro ⟨⟨c, hf, ha⟩, hne⟩
    exact ⟨(fd, c), ⟨clientsFind_mem m fd c hf, ha, hne⟩, rfl⟩

theorem broadcastTargets_nodup (m : List (Int × ClientConnection)) (excludeFd : Int)
    (hord : clientsOrdered m) : (broadcastTargets m excludeFd).Nodup := by
  have h1 : (m.map Prod.fst).Nodup := List.Pairwise.imp (fun h => ne_of_lt h) hord
  exact List.Nodup.sublist (List.Sublist.map _ (List.filter_sublist _)) h1

/-- A round of `sendMessage` over distinct registered descriptors hands the
whole frame to each of them once, in order, whatever happens to the others. -/
theorem sendMessage_round (env : Env) (type : Nat) (jsonData : List Byte) :
    ∀ (ts : List Int) (st : EpollServer), ts.Nodup →
      (∀ t ∈ ts, ∃ c, clientsFind st.clients_ t = some c) →
      ∃ new, (ts.foldl (fun st fd => sendMessage env st fd type jsonData) st).calls
          = st.calls ++ new ∧
        frameRecipients (encode type jsonData) new = ts ∧ ∀ c ∈ new, c.fd ∈ ts := by
  intro ts
  induction ts with
  | nil => intro st _ _; exact ⟨[], by simp, rfl, by intro c hc; cases hc⟩
  | cons t ts ih =>
    intro st hnd hreg
    obtain ⟨conn, hconn⟩ := hreg t (List.mem_cons_self _ _)
    obtain ⟨tail, ht, hfr, hfd, hcl⟩ := sendMessage_effect env st t type jsonData conn hconn
    have hnd2 := (List.nodup_cons.mp hnd)
    have hreg2 : ∀ u ∈ ts, ∃ c,
        clientsFind (sendMessage env st t type jsonData).clients_ u = some c := by
      intro u hu
      have hne : u ≠ t := fun e => hnd2.1 (e ▸ hu)
      rcases hcl with hcl | hcl
      · rw [hcl]; exact hreg u (List.mem_cons_of_mem _ hu)
      · rw [hcl, clientsFind_erase_ne _ _ _ hne]; exact hreg u (List.mem_cons_of_mem _ hu)
    obtain ⟨new, hn, hnr, hnfd⟩ := ih (sendMessage env st t type jsonData) hnd2.2 hreg2
    refine ⟨SysCall.send t (encode type jsonData) :: tail ++ new, ?_, ?_, ?_⟩
    · simp only [List.foldl_cons]
      rw [hn, ht]
      simp
    · rw [List.cons_append, frameRecipients_send, frameRecipients_append, hfr, hnr]
      rfl
    · intro c hc
      rw [List.cons_append] at hc
      rcases List.mem_cons.mp hc with hc | hc
      · rw [hc]; exact List.mem_cons_self _ _
      · rcases List.mem_append.mp hc with hc | hc
        · rw [hfd c hc]; exact List.mem_cons_self _ _
        · exact List.mem_cons_of_mem _ (hnfd c hc)

/-! ## The claim about `broadcastMessage` -/

/-- C14: in an ordered registry, whatever the kernel answers to the writes,
the descriptors to which `broadcastMessage` hands the whole frame are, in
order and each once, exactly the descriptors of the snapshot: those that were
registered and authenticated and differ from `excludeFd`; and no system call is
issued on any other descriptor. -/
theorem broadcastMessage_contract (env : Env) (s : EpollServer) (type : Nat)
    (jsonData : List Byte) (excludeFd : Int) (hord : clientsOrdered s.clients_) :
    frameRecipients (encode type jsonData)
        ((broadcastMessage env s type jsonData excludeFd).calls.drop s.calls.length)
      = broadcastTargets s.clients_ excludeFd ∧
    (broadcastTargets s.clients_ excludeFd).Nodup ∧
    (∀ fd, fd ∈ broadcastTargets s.clients_ excludeFd ↔
      (∃ c, clientsFind s.clients_ fd = some c ∧ c.authenticated = true) ∧ fd ≠ excludeFd) ∧
    (∀ c ∈ (broadcastMessage env s type jsonData excludeFd).calls.drop s.calls.length,
      c.fd ∈ broadcastTargets s.clients_ excludeFd) := by
  have hnd := broadcastTargets_nodup s.clients_ excludeFd hord
  have hreg : ∀ t ∈ broadcastTargets s.clients_ excludeFd,
      ∃ c, clientsFind s.clients_ t = some c := by
    intro t ht
    obtain ⟨⟨c, hc, _⟩, _⟩ := (mem_broadcastTargets s.clients_ excludeFd t hord).mp ht
    exact ⟨c, hc⟩
  obtain ⟨new, hn, hfr, hfd⟩ := sendMessage_round env type jsonData _ s hnd hreg
  have hdrop : (broadcastMessage env s type jsonData excludeFd).calls.drop s.calls.length
      = new := by
    unfold broadcastMessage
    rw [hn, List.drop_left]
  rw [hdrop]
  exact ⟨hfr, hnd, fun fd => mem_broadcastTargets s.clients_ excludeFd fd hord, hfd⟩

/-! ## Logging in -/

theorem isEmpty_false_of_ne_nil {α : Type} (l : List α) (h : l ≠ []) : l.isEmpty = false := by
  cases l with
  | nil => exact absurd rfl h
  | cons a as => rfl

theorem clientsFind_modify (f : ClientConnection → ClientConnection)
    (m : List (Int × ClientConnection)) (fd : Int) (c : ClientConnection)
    (h : clientsFind m fd = some c) :
    clientsFind (clientsModify f m fd) fd = some (f c) := by
  induction m with
  | nil => simp [clientsFind] at h
  | cons x xs ih =>
    obtain ⟨k, v⟩ := x
    by_cases hk : k = fd
    · simp only [clientsFind, hk, if_true, Option.some.injEq] at h
      simp only [clientsModify, hk, if_true, clientsFind, h]
    · simp only [clientsFind, hk, if_false] at h
      simp only [clientsModify, hk, if_false, clientsFind, ih h]

theorem verifyUser_connected (db : Database) (n p : List Byte) (r : List Byte × List Byte)
    (h : db.verifyUser n p = some r) : db.isConnected = true := by
  unfold Database.verifyUser at h
  split at h
  · cases h
  · rename_i hc
    simp only [Bool.or_eq_true, Bool.not_eq_true', not_or, Bool.not_eq_false] at hc
    simp [Database.isConnected, hc.1, hc.2]

/-- What the login handler does with a request the store accepts. -/
theorem LoginHandler_handle_verified (env : Env) (db : Database) (s : EpollServer) (fd : Int)
    (jsonData n p u k : List Byte)
    (hn : regexField (stringFieldRegex "username") jsonData = n) (hn0 : n ≠ [])
    (hp : regexField (stringFieldRegex "password") jsonData = p) (hp0 : p ≠ [])
    (hverify : db.verifyUser n p = some (u, k)) :
    LoginHandler.handle env db s fd jsonData
      = sendMessage env (setClientAuthenticated s fd u n) fd MessageType.LOGIN_RESPONSE
          (utf8 "\x7b\"success\":true,\"message\":\"登录成功\",\"user_id\":\"" ++ u
            ++ utf8 "\",\"username\":\"" ++ n ++ utf8 "\"\x7d") := by
  have hc := verifyUser_connected db n p _ hverify
  simp only [LoginHandler.handle, hn, hp, isEmpty_false_of_ne_nil n hn0,
    isEmpty_false_of_ne_nil p hp0, hc, hverify, Bool.or_self, Bool.not_true,
    Bool.false_eq_true, if_false]

/-! ## The claim about a successful login -/

/-- C18: a LOGIN_REQUEST on a registered fd carries the non-empty username `n`
and a non-empty password, and the store verifies them and returns userId `u`.
Then `LoginHandler::handle` first marks the connection authenticated with
userId `u` and username `n`, and on the server so marked calls `sendMessage`
once, with type LOGIN_RESPONSE and the payload
`{"success":true,"message":"登录成功","user_id":"u","username":"n"}`; the whole
frame of that response is written to `fd`, once. -/
theorem login_success (env : Env) (db : Database) (s : EpollServer) (fd : Int)
    (conn : ClientConnection) (jsonData n p u k : List Byte)
    (hreg : clientsFind s.clients_ fd = some conn)
    (hn : regexField (stringFieldRegex "username") jsonData = n) (hn0 : n ≠ [])
    (hp : regexField (stringFieldRegex "password") jsonData = p) (hp0 : p ≠ [])
    (hverify : db.verifyUser n p = some (u, k)) :
    LoginHandler.handle env db s fd jsonData
      = sendMessage env (setClientAuthenticated s fd u n) fd MessageType.LOGIN_RESPONSE
          (utf8 "\x7b\"success\":true,\"message\":\"登录成功\",\"user_id\":\"" ++ u
            ++ utf8 "\",\"username\":\"" ++ n ++ utf8 "\"\x7d") ∧
    clientsFind (setClientAuthenticated s fd u n).clients_ fd
      = some { conn with authenticated := true, userId := u, username := n } ∧
    frameRecipients
        (encode MessageType.LOGIN_RESPONSE
          (utf8 "\x7b\"success\":true,\"message\":\"登录成功\",\"user_id\":\"" ++ u
            ++ utf8 "\",\"username\":\"" ++ n ++ utf8 "\"\x7d"))
        ((LoginHandler.handle env db s fd jsonData).calls.drop s.calls.length)
      = [fd] := by
  have hmark : clientsFind (setClientAuthenticated s fd u n).clients_ fd
      = some { conn with authenticated := true, userId := u, username := n } := by
    simp only [setClientAuthenticated]
    rw [clientsFind_modify _ _ _ _ hreg]
    simp [isEmpty_false_of_ne_nil n hn0]
  refine ⟨LoginHandler_handle_verified env db s fd jsonData n p u k hn hn0 hp hp0 hverify,
    hmark, ?_⟩
  rw [LoginHandler_handle_verified env db s fd jsonData n p u k hn hn0 hp hp0 hverify]
  obtain ⟨tail, ht, hfr, _, _⟩ := sendMessage_effect env (setClientAuthenticated s fd u n) fd
    MessageType.LOGIN_RESPONSE (utf8 "\x7b\"success\":true,\"message\":\"登录成功\",\"user_id\":\"" ++ u
            ++ utf8 "\",\"username\":\"" ++ n ++ utf8 "\"\x7d") _ hmark
  rw [ht]
  have : (setClientAuthenticated s fd u n).calls = s.calls := rfl
  rw [this, List.drop_left, frameRecipients_send, hfr]

/-! ## Forwarding a message -/

theorem getClientInfo_some (s : EpollServer) (fd : Int) (info : ClientInfo)
    (h : getClientInfo s fd = some info) :
    ∃ conn, clientsFind s.clients_ fd = some conn ∧ conn.authenticated = true ∧
      info.userId = conn.userId ∧ info.username = conn.username := by
  unfold getClientInfo at h
  cases hf : clientsFind s.clients_ fd with
  | none => rw [hf] at h; cases h
  | some conn =>
    rw [hf] at h
    simp only at h
    split at h
    · rename_i ha
      cases h
      exact ⟨conn, rfl, ha, rfl, rfl⟩
    · cases h

theorem contains_getOnlineUsers (s : EpollServer) (t : List Byte) :
    (getOnlineUsers s).contains t = true ↔
      ∃ e ∈ s.clients_, e.2.authenticated = true ∧ e.2.userId = t := by
  simp only [getOnlineUsers, List.contains_iff_exists_mem_beq, List.mem_map, List.mem_filter,
    beq_iff_eq]
  constructor
  · rintro ⟨a, ⟨e, ⟨he, ha⟩, rfl⟩, h⟩
    exact ⟨e, he, ha, h.symm⟩
  · rintro ⟨e, he, ha, hu⟩
    exact ⟨e.2.userId, ⟨e, ⟨he, ha⟩, rfl⟩, hu.symm⟩

/-- The single-conversation branch of `MessageHandler::handle`. -/
theorem MessageHandler_handle_single (env : Env) (db : Database) (s : EpollServer) (fd : Int)
    (jsonData : List Byte) (sender : ClientInfo) (t c : List Byte)
    (hsender : getClientInfo s fd = some sender)
    (hc : regexField (stringFieldRegex "content") jsonData = c) (hc0 : c ≠ [])
    (ht : regexField (stringFieldRegex "to_user_id") jsonData = t) (ht0 : t ≠ [])
    (hall : t ≠ utf8 "all")
    (hsingle : regexField (stringFieldRegex "conversation_type") jsonData ≠ utf8 "group") :
    MessageHandler.handle env db s fd jsonData
      = if (getOnlineUsers s).contains t then
          sendMessageToUser env s t MessageType.RECEIVE_MESSAGE
            (receiveMessagePayload env sender false t c
              (regexField (stringFieldRegex "message_type") jsonData)
              (regexField (stringFieldRegex "group_id") jsonData))
        else
          sendMessage env s fd MessageType.ERROR
            (utf8 "\x7b\"error_code\":1004,\"error_message\":\"目标用户不在线\",\"to_user_id\":\""
              ++ t ++ utf8 "\"\x7d") := by
  simp only [MessageHandler.handle, hc, ht, hsender, isEmpty_false_of_ne_nil c hc0,
    isEmpty_false_of_ne_nil t ht0, hsingle, hall, decide_False, Bool.false_and,
    Bool.false_eq_true, if_false]

theorem receiveMessagePayload_single (env : Env) (sender : ClientInfo)
    (t c mt g : List Byte) (ht0 : t ≠ []) (hall : t ≠ utf8 "all") :
    receiveMessagePayload env sender false t c mt g
      = utf8 "\x7b\"conversation_type\":\"" ++ utf8 "single" ++ utf8 "\""
        ++ utf8 ",\"from_user_id\":\"" ++ escapeJsonString sender.userId
        ++ utf8 "\",\"from_username\":\"" ++ escapeJsonString sender.username
        ++ utf8 "\",\"content\":\"" ++ escapeJsonString c
        ++ utf8 "\",\"message_type\":\""
        ++ escapeJsonString (if mt.isEmpty then utf8 "text" else mt)
        ++ utf8 "\",\"timestamp\":" ++ utf8 (toString env.time)
        ++ (utf8 ",\"to_user_id\":\"" ++ escapeJsonString t ++ utf8 "\"")
        ++ utf8 "\x7d" := by
  simp only [receiveMessagePayload, isEmpty_false_of_ne_nil t ht0, hall, Bool.false_eq_true,
    if_false, Bool.not_false, ne_eq, not_false_eq_true, decide_True, Bool.and_self, if_true]

/-- C16: an authenticated sender (userId `sender.userId`) sends a SEND_MESSAGE
that is not a group message, with non-empty content `c` and a target `t` that
is non-empty, not "all" and not the sender. If some connection is authenticated
as `t`, the handler does exactly one `sendMessage` of type RECEIVE_MESSAGE to
the lowest descriptor authenticated as `t`, which is not the sender's, with
the payload `{"conversation_type":"single","from_user_id":"..","from_username":
"..","content":"..","message_type":"..","timestamp":T,"to_user_id":".."}` whose
strings are the JSON escapes of the sender's userId and username, of `c`, of
the message type and of `t`; every system call issued is on that descriptor.
If nobody is authenticated as `t`, the handler does exactly one `sendMessage`
of type ERROR with error_code 1004 to the sender, and every system call issued
is on the sender's descriptor. -/
theorem single_message_contract (env : Env) (db : Database) (s : EpollServer) (fd : Int)
    (jsonData : List Byte) (sender : ClientInfo) (t c : List Byte)
    (hv : registryValid s.clients_)
    (hsender : getClientInfo s fd = some sender)
    (hc : regexField (stringFieldRegex "content") jsonData = c) (hc0 : c ≠ [])
    (ht : regexField (stringFieldRegex "to_user_id") jsonData = t) (ht0 : t ≠ [])
    (hall : t ≠ utf8 "all") (hself : t ≠ sender.userId)
    (hsingle : regexField (stringFieldRegex "conversation_type") jsonData ≠ utf8 "group") :
    ((∃ e ∈ s.clients_, e.2.authenticated = true ∧ e.2.userId = t) →
      ∃ tfd tconn, clientsFind s.clients_ tfd = some tconn ∧
        tconn.authenticated = true ∧ tconn.userId = t ∧ tfd ≠ fd ∧
        (∀ e ∈ s.clients_, e.2.authenticated = true → e.2.userId = t → tfd ≤ e.1) ∧
        MessageHandler.handle env db s fd jsonData
          = sendMessage env s tfd MessageType.RECEIVE_MESSAGE
              (utf8 "\x7b\"conversation_type\":\"" ++ utf8 "single" ++ utf8 "\""
                ++ utf8 ",\"from_user_id\":\"" ++ escapeJsonString sender.userId
                ++ utf8 "\",\"from_username\":\"" ++ escapeJsonString sender.username
                ++ utf8 "\",\"content\":\"" ++ escapeJsonString c
                ++ utf8 "\",\"message_type\":\""
                ++ escapeJsonString
                    (if (regexField (stringFieldRegex "message_type") jsonData).isEmpty
                      then utf8 "text"
                      else regexField (stringFieldRegex "message_type") jsonData)
                ++ utf8 "\",\"timestamp\":" ++ utf8 (toString env.time)
                ++ (utf8 ",\"to_user_id\":\"" ++ escapeJsonString t ++ utf8 "\"")
                ++ utf8 "\x7d") ∧
        ∀ call ∈ (MessageHandler.handle env db s fd jsonData).calls.drop s.calls.length,
          call.fd = tfd) ∧
    ((¬ ∃ e ∈ s.clients_, e.2.authenticated = true ∧ e.2.userId = t) →
      MessageHandler.handle env db s fd jsonData
        = sendMessage env s fd MessageType.ERROR
            (utf8 "\x7b\"error_code\":1004,\"error_message\":\"目标用户不在线\",\"to_user_id\":\""
              ++ t ++ utf8 "\"\x7d") ∧
      ∀ call ∈ (MessageHandler.handle env db s fd jsonData).calls.drop s.calls.length,
        call.fd = fd) := by
  have hbranch := MessageHandler_handle_single env db s fd jsonData sender t c hsender hc hc0
    ht ht0 hall hsingle
  obtain ⟨sconn, hsfind, _, hsid, _⟩ := getClientInfo_some s fd sender hsender
  constructor
  · intro hon
    have hfound : (getOnlineUsers s).contains t = true := (contains_getOnlineUsers s t).mpr hon
    rw [hfound, if_pos rfl, receiveMessagePayload_single env sender t c _ _ ht0 hall] at hbranch
    obtain ⟨tfd, tconn, hfind, hauth, hid, hleast, hsend, _, hcalls⟩ :=
      (sendMessageToUser_spec env s t MessageType.RECEIVE_MESSAGE _ hv).1 hon
    refine ⟨tfd, tconn, hfind, hauth, hid, ?_, hleast, ?_, ?_⟩
    · intro heq
      rw [heq, hsfind] at hfind
      cases hfind
      exact hself (by rw [hsid, hid])
    · rw [hbranch]; exact hsend
    · rw [hbranch]; exact hcalls
  · intro hoff
    have hnot : (getOnlineUsers s).contains t = false := by
      cases hx : (getOnlineUsers s).contains t with
      | false => rfl
      | true => exact absurd ((contains_getOnlineUsers s t).mp hx) hoff
    rw [hnot] at hbranch
    simp only [Bool.false_eq_true, if_false] at hbranch
    refine ⟨hbranch, ?_⟩
    rw [hbranch]
    obtain ⟨tail, htl, _, hfd, _⟩ := sendMessage_effect env s fd MessageType.ERROR
      (utf8 "\x7b\"error_code\":1004,\"error_message\":\"目标用户不在线\",\"to_user_id\":\""
              ++ t ++ utf8 "\"\x7d") sconn hsfind
    rw [htl, List.drop_left]
    intro call hcall
    rcases List.mem_cons.mp hcall with h | h
    · rw [h]; rfl
    · exact hfd call h

/-! ## Fan-out to the members of a group -/

/-- C19: the nickname written by `handleUserList` is the username, for every
user: the map `userNicknames` is empty and `LoginHandler::handle` drops the
nickname of `verifyUser`. At the input: the store holds userId 42 and nickname
Al for alice; fd 5 logs in as alice and is answered with the LOGIN_RESPONSE;
the USER_LIST_RESPONSE then sent to fd 5 is
`{"users":[{"user_id":"42","username":"alice","nickname":"alice","online":true}]}`,
with the nickname alice and not Al. -/
theorem user_list_nickname_is_username :
    (∀ userId username, nicknameOf userId username = username) ∧
    demoDb.verifyUser (utf8 "alice") (utf8 "pw") = some (utf8 "42", utf8 "Al") ∧
    getClientInfo (LoginHandler.handle goodEnv demoDb freshServer 5 loginRequest) 5
      = some { userId := utf8 "42", username := utf8 "alice", authenticated := true } ∧
    (UserHandler.handleUserList goodEnv
        (LoginHandler.handle goodEnv demoDb freshServer 5 loginRequest) 5).calls
      = [SysCall.send 5 (encode MessageType.LOGIN_RESPONSE
          (utf8 "\x7b\"success\":true,\"message\":\"登录成功\",\"user_id\":\"42\",\"username\":\"alice\"\x7d")),
         SysCall.send 5 (encode MessageType.USER_LIST_RESPONSE
          (utf8 "\x7b\"users\":[\x7b\"user_id\":\"42\",\"username\":\"alice\",\"nickname\":\"alice\",\"online\":true\x7d]\x7d"))] := by
  refine ⟨fun _ _ => rfl, ?_⟩
  set_option maxRecDepth 100000 in decide

/-! ## The store not connected -/

/-- Without a fatal write error `sendMessage` leaves the registry as it is. -/
theorem sendMessage_keeps_registry (env : Env) (s : EpollServer) (fd : Int) (type : Nat)
    (jsonData : List Byte) (hnf : ¬ fatalWrite env s fd (encode type jsonData)) :
    (sendMessage env s fd type jsonData).clients_ = s.clients_ := by
  cases hreg : clientsFind s.clients_ fd with
  | none => rw [sendMessage_unregistered env s fd type jsonData hreg]
  | some conn =>
    cases h1 : env.send s.calls fd (encode type jsonData) with
    | failed e =>
      rw [sendMessage_failed env s fd type jsonData conn e hreg h1]
      have hne : ¬ isConnectionError e = true := fun hf =>
        hnf (Or.inl ⟨e, h1, (isConnectionError_iff e).mp hf⟩)
      rw [if_neg hne]; rfl
    | sent n =>
      by_cases hn : 0 < n ∧ n < (encode type jsonData).length
      · rw [sendMessage_short env s fd type jsonData conn n hreg h1 hn]
        cases h2 : env.send (s.calls ++ [.send fd (encode type jsonData)]) fd
            ((encode type jsonData).drop n) with
        | failed e =>
          have hne : ¬ isConnectionError e = true := fun hf =>
            hnf (Or.inr ⟨n, e, ⟨h1, hn⟩, h2, (isConnectionError_iff e).mp hf⟩)
          simp only [if_neg hne]; rfl
        | sent m => rfl
      · rw [sendMessage_sent_whole env s fd type jsonData conn n hreg h1 hn]; rfl

theorem guardedHandler_store_down (env : Env) (db : Database) (s : EpollServer) (fd : Int)
    (responseType : Nat) (requestOk : Bool) (invalid : List Byte)
    (work : EpollServer → EpollServer)
    (hdown : db.isConnected = false)
    (hreach : ((getClientInfo s fd).isSome && requestOk) = true) :
    guardedHandler env db s fd responseType requestOk invalid work
      = sendMessage env s fd responseType storeDownReply := by
  simp only [Bool.and_eq_true] at hreach
  obtain ⟨hinfo, hok⟩ := hreach
  unfold guardedHandler
  cases hci : getClientInfo s fd with
  | none => rw [hci] at hinfo; cases hinfo
  | some info => simp [hok, hdown]

/-- C20, as stated, fails: with the store not connected, the login of alice
on fd 5 of `freshServer` is answered with the LOGIN_RESPONSE
`{"success":false,"message":"服务器内部错误，请稍后重试","user_id":null,"username":null}`,
in which no `error_code` occurs. -/
theorem login_store_down_without_error_code :
    downDb.isConnected = false ∧
    LoginHandler.handle goodEnv downDb freshServer 5 loginRequest
      = { freshServer with
          calls := [SysCall.send 5 (encode MessageType.LOGIN_RESPONSE
            (utf8 "\x7b\"success\":false,\"message\":\"服务器内部错误，请稍后重试\",\"user_id\":null,\"username\":null\x7d"))] } ∧
    ¬ (utf8 "error_code" <:+:
        utf8 "\x7b\"success\":false,\"message\":\"服务器内部错误，请稍后重试\",\"user_id\":null,\"username\":null\x7d") := by
  set_option maxRecDepth 100000 in decide

/-- C20, amended: a request on a logged-in or not logged-in connection gets as
far as the handler's use of the store (it passes the checks the handler makes
before), and the store is not connected. Then the handler does exactly one
`sendMessage` to the requester, of the handler's response type (ERROR for a
group message), and nothing else. For the group message and for every friend
and group handler the payload carries `"error_code":5000`; for login it is
`{"success":false,"message":"服务器内部错误，请稍后重试","user_id":null,"username":null}`
and for register
`{"success":false,"message":"注册失败，请稍后重试","user_id":null}`, both without
any `error_code`. Unless a write of that reply fails with EPIPE, ECONNRESET or
EBADF, the registry, and with it the authentication state of every connection,
is left as it was. -/
theorem store_down_reply (h : StoreHandler) (env : Env) (db : Database) (work : StoreWork)
    (s : EpollServer) (fd : Int) (jsonData : List Byte)
    (hdown : db.isConnected = false)
    (hreach : h.reachesStore s fd jsonData = true) :
    h.run env db work s fd jsonData
      = sendMessage env s fd h.responseType h.storeDownPayload ∧
    (h ≠ .login → h ≠ .register → utf8 "\"error_code\":5000" <:+: h.storeDownPayload) ∧
    (h = .login ∨ h = .register → ¬ utf8 "error_code" <:+: h.storeDownPayload) ∧
    (¬ fatalWrite env s fd (encode h.responseType h.storeDownPayload) →
      (h.run env db work s fd jsonData).clients_ = s.clients_) := by
  have hrun : h.run env db work s fd jsonData
      = sendMessage env s fd h.responseType h.storeDownPayload := by
    have hoff : (!db.mysql_ || !db.connected_) = true := by
      simp only [Database.isConnected] at hdown
      cases hm : db.mysql_ <;> cases hc : db.connected_ <;> simp_all
    cases h with
    | login =>
      simp only [StoreHandler.reachesStore, Bool.and_eq_true, Bool.not_eq_true',
        Bool.not_eq_eq_eq_not, Bool.not_true] at hreach
      simp [StoreHandler.run, StoreHandler.responseType, StoreHandler.storeDownPayload,
        LoginHandler.handle, hreach.1, hreach.2, hdown]
    | register =>
      simp only [StoreHandler.reachesStore, Bool.and_eq_true, Bool.not_eq_true',
        Bool.not_eq_eq_eq_not, Bool.not_true] at hreach
      simp [StoreHandler.run, StoreHandler.responseType, StoreHandler.storeDownPayload,
        LoginHandler.handleRegister, hreach.1, hreach.2, Database.registerUser,
        Database.userExists, hoff]
    | groupMessage =>
      simp only [StoreHandler.reachesStore, Bool.and_eq_true, Bool.not_eq_true',
        Bool.not_eq_eq_eq_not, Bool.not_true, decide_eq_true_eq] at hreach
      obtain ⟨⟨⟨hc, hinfo⟩, hgroup⟩, hg⟩ := hreach
      cases hci : getClientInfo s fd with
      | none => rw [hci] at hinfo; cases hinfo
      | some info =>
        simp [StoreHandler.run, StoreHandler.responseType, StoreHandler.storeDownPayload,
          MessageHandler.handle, hc, hci, hgroup, hg, hdown]
    | friendApply =>
      dsimp only [StoreHandler.run, FriendHandler.handleApply, FriendHandler.handleApplyAction,
        FriendHandler.handleFriendList, FriendHandler.handleDelete, FriendHandler.handleBlock,
        GroupHandler.handleCreate, GroupHandler.handleGroupList, GroupHandler.handleMemberList,
        GroupHandler.handleInvite, GroupHandler.handleKick, GroupHandler.handleQuit,
        GroupHandler.handleDismiss, GroupHandler.handleUpdateInfo]
      refine guardedHandler_store_down env db s fd _ _ _ _ hdown ?_
      simpa [StoreHandler.reachesStore, Bool.and_assoc] using hreach
    | friendApplyAction =>
      dsimp only [StoreHandler.run, FriendHandler.handleApply, FriendHandler.handleApplyAction,
        FriendHandler.handleFriendList, FriendHandler.handleDelete, FriendHandler.handleBlock,
        GroupHandler.handleCreate, GroupHandler.handleGroupList, GroupHandler.handleMemberList,
        GroupHandler.handleInvite, GroupHandler.handleKick, GroupHandler.handleQuit,
        GroupHandler.handleDismiss, GroupHandler.handleUpdateInfo]
      refine guardedHandler_store_down env db s fd _ _ _ _ hdown ?_
      simpa [StoreHandler.reachesStore, Bool.and_assoc] using hreach
    | friendList =>
      dsimp only [StoreHandler.run, FriendHandler.handleApply, FriendHandler.handleApplyAction,
        FriendHandler.handleFriendList, FriendHandler.handleDelete, FriendHandler.handleBlock,
        GroupHandler.handleCreate, GroupHandler.handleGroupList, GroupHandler.handleMemberList,
        GroupHandler.handleInvite, GroupHandler.handleKick, GroupHandler.handleQuit,
        GroupHandler.handleDismiss, GroupHandler.handleUpdateInfo]
      refine guardedHandler_store_down env db s fd _ _ _ _ hdown ?_
      simpa [StoreHandler.reachesStore, Bool.and_assoc] using hreach
    | friendDelete =>
      dsimp only [StoreHandler.run, FriendHandler.handleApply, FriendHandler.handleApplyAction,
        FriendHandler.handleFriendList, FriendHandler.handleDelete, FriendHandler.handleBlock,
        GroupHandler.handleCreate, GroupHandler.handleGroupList, GroupHandler.handleMemberList,
        GroupHandler.handleInvite, GroupHandler.handleKick, GroupHandler.handleQuit,
        GroupHandler.handleDismiss, GroupHandler.handleUpdateInfo]
      refine guardedHandler_store_down env db s fd _ _ _ _ hdown ?_
      simpa [StoreHandler.reachesStore, Bool.and_assoc] using hreach
    | friendBlock =>
      dsimp only [StoreHandler.run, FriendHandler.handleApply, FriendHandler.handleApplyAction,
        FriendHandler.handleFriendList, FriendHandler.handleDelete, FriendHandler.handleBlock,
        GroupHandler.handleCreate, GroupHandler.handleGroupList, GroupHandler.handleMemberList,
        GroupHandler.handleInvite, GroupHandler.handleKick, GroupHandler.handleQuit,
        GroupHandler.handleDismiss, GroupHandler.handleUpdateInfo]
      refine guardedHandler_store_down env db s fd _ _ _ _ hdown ?_
      simpa [StoreHandler.reachesStore, Bool.and_assoc] using hreach
    | groupCreate =>
      dsimp only [StoreHandler.run, FriendHandler.handleApply, FriendHandler.handleApplyAction,
        FriendHandler.handleFriendList, FriendHandler.handleDelete, FriendHandler.handleBlock,
        GroupHandler.handleCreate, GroupHandler.handleGroupList, GroupHandler.handleMemberList,
        GroupHandler.handleInvite, GroupHandler.handleKick, GroupHandler.handleQuit,
        GroupHandler.handleDismiss, GroupHandler.handleUpdateInfo]
      refine guardedHandler_store_down env db s fd _ _ _ _ hdown ?_
      simpa [StoreHandler.reachesStore, Bool.and_assoc] using hreach
    | groupList =>
      dsimp only [StoreHandler.run, FriendHandler.handleApply, FriendHandler.handleApplyAction,
        FriendHandler.handleFriendList, FriendHandler.handleDelete, FriendHandler.handleBlock,
        GroupHandler.handleCreate, GroupHandler.handleGroupList, GroupHandler.handleMemberList,
        GroupHandler.handleInvite, GroupHandler.handleKick, GroupHandler.handleQuit,
        GroupHandler.handleDismiss, GroupHandler.handleUpdateInfo]
      refine guardedHandler_store_down env db s fd _ _ _ _ hdown ?_
      simpa [StoreHandler.reachesStore, Bool.and_assoc] using hreach
    | groupMemberList =>
      dsimp only [StoreHandler.run, FriendHandler.handleApply, FriendHandler.handleApplyAction,
        FriendHandler.handleFriendList, FriendHandler.handleDelete, FriendHandler.handleBlock,
        GroupHandler.handleCreate, GroupHandler.handleGroupList, GroupHandler.handleMemberList,
        GroupHandler.handleInvite, GroupHandler.handleKick, GroupHandler.handleQuit,
        GroupHandler.handleDismiss, GroupHandler.handleUpdateInfo]
      refine guardedHandler_store_down env db s fd _ _ _ _ hdown ?_
      simpa [StoreHandler.reachesStore, Bool.and_assoc] using hreach
    | groupInvite =>
      dsimp only [StoreHandler.run, FriendHandler.handleApply, FriendHandler.handleApplyAction,
        FriendHandler.handleFriendList, FriendHandler.handleDelete, FriendHandler.handleBlock,
        GroupHandler.handleCreate, GroupHandler.handleGroupList, GroupHandler.handleMemberList,
        GroupHandler.handleInvite, GroupHandler.handleKick, GroupHandler.handleQuit,
        GroupHandler.handleDismiss, GroupHandler.handleUpdateInfo]
      refine guardedHandler_store_down env db s fd _ _ _ _ hdown ?_
      simpa [StoreHandler.reachesStore, Bool.and_assoc] using hreach
    | groupKick =>
      dsimp only [StoreHandler.run, FriendHandler.handleApply, FriendHandler.handleApplyAction,
        FriendHandler.handleFriendList, FriendHandler.handleDelete, FriendHandler.handleBlock,
        GroupHandler.handleCreate, GroupHandler.handleGroupList, GroupHandler.handleMemberList,
        GroupHandler.handleInvite, GroupHandler.handleKick, GroupHandler.handleQuit,
        GroupHandler.handleDismiss, GroupHandler.handleUpdateInfo]
      refine guardedHandler_store_down env db s fd _ _ _ _ hdown ?_
      simpa [StoreHandler.reachesStore, Bool.and_assoc] using hreach
    | groupQuit =>
      dsimp only [StoreHandler.run, FriendHandler.handleApply, FriendHandler.handleApplyAction,
        FriendHandler.handleFriendList, FriendHandler.handleDelete, FriendHandler.handleBlock,
        GroupHandler.handleCreate, GroupHandler.handleGroupList, GroupHandler.handleMemberList,
        GroupHandler.handleInvite, GroupHandler.handleKick, GroupHandler.handleQuit,
        GroupHandler.handleDismiss, GroupHandler.handleUpdateInfo]
      refine guardedHandler_store_down env db s fd _ _ _ _ hdown ?_
      simpa [StoreHandler.reachesStore, Bool.and_assoc] using hreach
    | groupDismiss =>
      dsimp only [StoreHandler.run, FriendHandler.handleApply, FriendHandler.handleApplyAction,
        FriendHandler.handleFriendList, FriendHandler.handleDelete, FriendHandler.handleBlock,
        GroupHandler.handleCreate, GroupHandler.handleGroupList, GroupHandler.handleMemberList,
        GroupHandler.handleInvite, GroupHandler.handleKick, GroupHandler.handleQuit,
        GroupHandler.handleDismiss, GroupHandler.handleUpdateInfo]
      refine guardedHandler_store_down env db s fd _ _ _ _ hdown ?_
      simpa [StoreHandler.reachesStore, Bool.and_assoc] using hreach
    | groupUpdateInfo =>
      dsimp only [StoreHandler.run, FriendHandler.handleApply, FriendHandler.handleApplyAction,
        FriendHandler.handleFriendList, FriendHandler.handleDelete, FriendHandler.handleBlock,
        GroupHandler.handleCreate, GroupHandler.handleGroupList, GroupHandler.handleMemberList,
        GroupHandler.handleInvite, GroupHandler.handleKick, GroupHandler.handleQuit,
        GroupHandler.handleDismiss, GroupHandler.handleUpdateInfo]
      refine guardedHandler_store_down env db s fd _ _ _ _ hdown ?_
      simpa [StoreHandler.reachesStore, Bool.and_assoc] using hreach
  refine ⟨hrun, ?_, ?_, ?_⟩
  · intro h1 h2
    cases h
    case login => exact absurd rfl h1
    case register => exact absurd rfl h2
    all_goals set_option maxRecDepth 100000 in decide
  · intro h1
    rcases h1 with h1 | h1 <;> subst h1 <;> set_option maxRecDepth 100000 in decide
  · intro hnf
    rw [hrun]
    exact sendMessage_keeps_registry env s fd _ _ hnf

theorem store_down_reply_witness :
    (downDb.isConnected = false ∧
      StoreHandler.reachesStore .groupQuit chatServer 5 (utf8 "\x7b\"group_id\":\"1\"\x7d") = true) ∧
    GroupHandler.handleQuit goodEnv downDb idleWork chatServer 5 (utf8 "\x7b\"group_id\":\"1\"\x7d")
      = sendMessage goodEnv chatServer 5 MessageType.GROUP_QUIT_RESPONSE
          (utf8 "\x7b\"success\":false,\"error_code\":5000,\"error_message\":\"服务器数据库未连接\"\x7d") :=
  ⟨⟨by decide, by set_option maxRecDepth 100000 in decide⟩,
    (store_down_reply .groupQuit goodEnv downDb idleWork chatServer 5
      (utf8 "\x7b\"group_id\":\"1\"\x7d") (by decide)
      (by set_option maxRecDepth 100000 in decide)).1⟩


/-! ## The claims at concrete inputs -/

theorem sendMessageToUser_contract_witness :
    (registryValid chatServer.clients_ ∧
      ∃ e ∈ chatServer.clients_, e.2.authenticated = true ∧ e.2.userId = utf8 "43") ∧
    ∃ fd conn, clientsFind chatServer.clients_ fd = some conn ∧
      conn.authenticated = true ∧ conn.userId = utf8 "43" ∧
      (∀ e ∈ chatServer.clients_, e.2.authenticated = true → e.2.userId = utf8 "43" → fd ≤ e.1) ∧
      sendMessageToUser goodEnv chatServer (utf8 "43") MessageType.RECEIVE_MESSAGE (utf8 "hi")
        = sendMessage goodEnv chatServer fd MessageType.RECEIVE_MESSAGE (utf8 "hi") ∧
      frameRecipients (encode MessageType.RECEIVE_MESSAGE (utf8 "hi"))
        ((sendMessageToUser goodEnv chatServer (utf8 "43") MessageType.RECEIVE_MESSAGE
          (utf8 "hi")).calls.drop chatServer.calls.length) = [fd] ∧
      ∀ c ∈ (sendMessageToUser goodEnv chatServer (utf8 "43") MessageType.RECEIVE_MESSAGE
          (utf8 "hi")).calls.drop chatServer.calls.length, c.fd = fd :=
  ⟨⟨by decide, by decide⟩,
    (sendMessageToUser_contract goodEnv chatServer (utf8 "43") MessageType.RECEIVE_MESSAGE
      (utf8 "hi") (by decide)).1 (by decide)⟩

theorem broadcastMessage_contract_witness :
    clientsOrdered chatServer.clients_ ∧
    frameRecipients (encode MessageType.RECEIVE_MESSAGE (utf8 "hi"))
        ((broadcastMessage brokenPipeEnv chatServer MessageType.RECEIVE_MESSAGE (utf8 "hi")
          7).calls.drop chatServer.calls.length)
      = [5, 6] ∧
    (broadcastMessage brokenPipeEnv chatServer MessageType.RECEIVE_MESSAGE (utf8 "hi") 7).clients_
      = [(7, { fd := 7, authenticated := false })] :=
  ⟨by decide,
    (broadcastMessage_contract brokenPipeEnv chatServer MessageType.RECEIVE_MESSAGE (utf8 "hi") 7
      (by decide)).1.trans (by decide),
    by decide⟩

theorem sendMessage_contract_witness :
    (clientsFind chatServer.clients_ 6
        = some { fd := 6, authenticated := true, userId := utf8 "43", username := utf8 "bob" } ∧
      clientsOrdered chatServer.clients_ ∧
      shortWrite brokenPipeEnv chatServer 6 (encode MessageType.RECEIVE_MESSAGE (utf8 "hi")) 4) ∧
    writesOf ((sendMessage brokenPipeEnv chatServer 6 MessageType.RECEIVE_MESSAGE
        (utf8 "hi")).calls.drop chatServer.calls.length)
      = [(6, encode MessageType.RECEIVE_MESSAGE (utf8 "hi")),
         (6, (encode MessageType.RECEIVE_MESSAGE (utf8 "hi")).drop 4)] :=
  ⟨⟨by decide, by decide, by unfold shortWrite; decide⟩,
    ((sendMessage_contract brokenPipeEnv chatServer 6 MessageType.RECEIVE_MESSAGE (utf8 "hi")).2
      { fd := 6, authenticated := true, userId := utf8 "43", username := utf8 "bob" }
      (by decide) (by decide)).1 4 (by unfold shortWrite; decide)⟩

theorem login_success_witness :
    (clientsFind freshServer.clients_ 5 = some { fd := 5, authenticated := false } ∧
      regexField (stringFieldRegex "username") loginRequest = utf8 "alice" ∧
      regexField (stringFieldRegex "password") loginRequest = utf8 "pw" ∧
      demoDb.verifyUser (utf8 "alice") (utf8 "pw") = some (utf8 "42", utf8 "Al")) ∧
    LoginHandler.handle goodEnv demoDb freshServer 5 loginRequest
      = sendMessage goodEnv (setClientAuthenticated freshServer 5 (utf8 "42") (utf8 "alice")) 5
          MessageType.LOGIN_RESPONSE
          (utf8 "\x7b\"success\":true,\"message\":\"登录成功\",\"user_id\":\"" ++ utf8 "42"
            ++ utf8 "\",\"username\":\"" ++ utf8 "alice" ++ utf8 "\"\x7d") := by
  set_option maxRecDepth 100000 in
  exact ⟨⟨by decide, by decide, by decide, by decide⟩,
    (login_success goodEnv demoDb freshServer 5 { fd := 5, authenticated := false } loginRequest
      (utf8 "alice") (utf8 "pw") (utf8 "42") (utf8 "Al")
      (by decide) (by decide) (by decide) (by decide) (by decide) (by decide)).1⟩

theorem single_message_contract_witness :
    (registryValid chatServer.clients_ ∧
      getClientInfo chatServer 5
        = some { userId := utf8 "42", username := utf8 "alice", authenticated := true } ∧
      regexField (stringFieldRegex "content") singleRequest = utf8 "hi" ∧
      regexField (stringFieldRegex "to_user_id") singleRequest = utf8 "43" ∧
      regexField (stringFieldRegex "conversation_type") singleRequest ≠ utf8 "group" ∧
      ∃ e ∈ chatServer.clients_, e.2.authenticated = true ∧ e.2.userId = utf8 "43") ∧
    ∃ tfd, tfd ≠ 5 ∧
      MessageHandler.handle goodEnv demoDb chatServer 5 singleRequest
        = sendMessage goodEnv chatServer tfd MessageType.RECEIVE_MESSAGE
            (utf8 "\x7b\"conversation_type\":\"single\",\"from_user_id\":\"42\",\"from_username\":\"alice\",\"content\":\"hi\",\"message_type\":\"text\",\"timestamp\":1700000000,\"to_user_id\":\"43\"\x7d") := by
  set_option maxRecDepth 100000 in
  refine ⟨⟨by decide, by decide, by decide, by decide, by decide, by decide⟩, ?_⟩
  set_option maxRecDepth 100000 in
  obtain ⟨tfd, _, _, _, _, hne, _, hrun, _⟩ :=
    (single_message_contract goodEnv demoDb chatServer 5 singleRequest
      { userId := utf8 "42", username := utf8 "alice", authenticated := true }
      (utf8 "43") (utf8 "hi") (by decide) (by decide) (by decide) (by decide) (by decide)
      (by decide) (by decide) (by decide) (by decide)).1 (by decide)
  refine ⟨tfd, hne, hrun.trans (congrArg _ ?_)⟩
  set_option maxRecDepth 100000 in decide

/-- C29: `getClientInfo(fd)` returns a value exactly when `fd` is in the
registry and its connection is authenticated. The value then carries the
stored userId and username and the flag true; after
`setClientAuthenticated(fd, userId, username)` on a registered fd these are
`userId` and `username` (`userId` again when `username` is empty). For a
registered connection that is not authenticated the result is `nullptr`, as it
is for an fd that is not in the registry. -/
theorem getClientInfo_contract (s : EpollServer) (fd : Int) :
    ((getClientInfo s fd).isSome = true ↔
      ∃ conn, clientsFind s.clients_ fd = some conn ∧ conn.authenticated = true) ∧
    (∀ info, getClientInfo s fd = some info →
      ∃ conn, clientsFind s.clients_ fd = some conn ∧
        info.userId = conn.userId ∧ info.username = conn.username ∧
        info.authenticated = true) ∧
    (∀ conn, clientsFind s.clients_ fd = some conn → conn.authenticated = false →
      getClientInfo s fd = none) ∧
    (clientsFind s.clients_ fd = none → getClientInfo s fd = none) ∧
    (∀ conn userId username, clientsFind s.clients_ fd = some conn →
      getClientInfo (setClientAuthenticated s fd userId username) fd
        = some { userId := userId,
                 username := if username.isEmpty then userId else username,
                 authenticated := true }) := by
  refine ⟨?_, ?_, ?_, ?_, ?_⟩
  · unfold getClientInfo
    cases hf : clientsFind s.clients_ fd with
    | none => simp
    | some conn => cases ha : conn.authenticated <;> simp [ha]
  · intro info h
    unfold getClientInfo at h
    cases hf : clientsFind s.clients_ fd with
    | none => rw [hf] at h; cases h
    | some conn =>
      rw [hf] at h
      cases ha : conn.authenticated
      · simp [ha] at h
      · simp only [ha, if_true, Option.some.injEq] at h
        subst h
        exact ⟨conn, rfl, rfl, rfl, rfl⟩
  · intro conn hf ha
    simp [getClientInfo, hf, ha]
  · intro hf
    simp [getClientInfo, hf]
  · intro conn userId username hf
    simp only [getClientInfo, setClientAuthenticated]
    rw [clientsFind_modify _ _ _ _ hf]
    simp

/-! ## The claim about the heartbeat -/

/-- C21, as stated, fails: fd 5 of `freshServer` sends a HEARTBEAT; the kernel
takes 4 bytes of the HEARTBEAT_RESPONSE and answers the write of the rest with
EPIPE; `sendMessage` then closes the connection, and fd 5 is gone from the
registry. -/
theorem heartbeat_broken_pipe_unregisters :
    clientsFind freshServer.clients_ 5 = some { fd := 5, authenticated := false } ∧
    clientsFind (processMessage idleHandlers brokenPipeEnv freshServer 5
        { magic := MAGIC, type := MessageType.HEARTBEAT, length := 0, data := [] }).clients_ 5
      = none ∧
    (processMessage idleHandlers brokenPipeEnv freshServer 5
        { magic := MAGIC, type := MessageType.HEARTBEAT, length := 0, data := [] }).clients_
      = [] := by
  decide

/-- C21, amended: a registered connection, authenticated or not, sends a
HEARTBEAT packet with any payload. Whatever the handlers are, `processMessage`
does exactly what one call `sendMessage(fd, HEARTBEAT_RESPONSE,
{"timestamp":t})` does, `t` being `time(nullptr)` in decimal; the whole frame of
that response is handed to `send` on `fd` once and every system call issued is
on `fd`. Unless a write of the response fails with EPIPE, ECONNRESET or EBADF,
the registry is left as it was; after such a failure the registry has lost
`fd` and nothing else. -/
theorem heartbeat_reply (h : Handlers) (env : Env) (s : EpollServer) (fd : Int)
    (conn : ClientConnection) (packet : Packet)
    (hreg : clientsFind s.clients_ fd = some conn)
    (htype : packet.type = MessageType.HEARTBEAT) :
    processMessage h env s fd packet
      = sendMessage env s fd MessageType.HEARTBEAT_RESPONSE
          (utf8 "\x7b\"timestamp\":" ++ utf8 (toString env.time) ++ utf8 "\x7d") ∧
    frameRecipients
        (encode MessageType.HEARTBEAT_RESPONSE
          (utf8 "\x7b\"timestamp\":" ++ utf8 (toString env.time) ++ utf8 "\x7d"))
        ((processMessage h env s fd packet).calls.drop s.calls.length) = [fd] ∧
    (∀ c ∈ (processMessage h env s fd packet).calls.drop s.calls.length, c.fd = fd) ∧
    (¬ fatalWrite env s fd
        (encode MessageType.HEARTBEAT_RESPONSE
          (utf8 "\x7b\"timestamp\":" ++ utf8 (toString env.time) ++ utf8 "\x7d")) →
      (processMessage h env s fd packet).clients_ = s.clients_) ∧
    ((processMessage h env s fd packet).clients_ = s.clients_ ∨
      (processMessage h env s fd packet).clients_ = clientsErase s.clients_ fd) := by
  have hrun : processMessage h env s fd packet
      = sendMessage env s fd MessageType.HEARTBEAT_RESPONSE
          (utf8 "\x7b\"timestamp\":" ++ utf8 (toString env.time) ++ utf8 "\x7d") := by
    simp [processMessage, hreg, htype, MessageType.HEARTBEAT, MessageType.LOGIN_REQUEST,
      MessageType.REGISTER_REQUEST, MessageType.SEND_MESSAGE]
  obtain ⟨tail, ht, hfr, hfd, hcl⟩ := sendMessage_effect env s fd MessageType.HEARTBEAT_RESPONSE
    (utf8 "\x7b\"timestamp\":" ++ utf8 (toString env.time) ++ utf8 "\x7d") conn hreg
  rw [hrun, ht, List.drop_left]
  refine ⟨rfl, ?_, ?_, ?_, hcl⟩
  · rw [frameRecipients_send, hfr]
  · intro c hc
    rcases List.mem_cons.mp hc with hc | hc
    · rw [hc]; rfl
    · exact hfd c hc
  · intro hnf
    exact sendMessage_keeps_registry env s fd _ _ hnf

theorem heartbeat_reply_witness :
    (clientsFind chatServer.clients_ 7 = some { fd := 7, authenticated := false } ∧
      MessageType.HEARTBEAT = MessageType.HEARTBEAT) ∧
    processMessage idleHandlers goodEnv chatServer 7
        { magic := MAGIC, type := MessageType.HEARTBEAT, length := 2, data := utf8 "hi" }
      = sendMessage goodEnv chatServer 7 MessageType.HEARTBEAT_RESPONSE
          (utf8 "\x7b\"timestamp\":" ++ utf8 (toString goodEnv.time) ++ utf8 "\x7d") ∧
    (sendMessage goodEnv chatServer 7 MessageType.HEARTBEAT_RESPONSE
        (utf8 "\x7b\"timestamp\":" ++ utf8 (toString goodEnv.time) ++ utf8 "\x7d")).calls
      = [SysCall.send 7 (encode MessageType.HEARTBEAT_RESPONSE
          (utf8 "\x7b\"timestamp\":1700000000\x7d"))] :=
  ⟨⟨by decide, rfl⟩,
    (heartbeat_reply idleHandlers goodEnv chatServer 7 { fd := 7, authenticated := false }
      { magic := MAGIC, type := MessageType.HEARTBEAT, length := 2, data := utf8 "hi" }
      (by decide) rfl).1,
    by decide⟩

/-! ## The claims about JSON escaping -/

theorem jsonEscapedAux_mono :
    ∀ (n m : Nat) (text : List Byte), text.length ≤ n → text.length ≤ m →
      jsonEscapedAux n text = jsonEscapedAux m text := by
  intro n
  induction n with
  | zero =>
    intro m text h1 _
    have : text = [] := List.length_eq_zero.mp (Nat.le_zero.mp h1)
    subst this
    cases m <;> rfl
  | succ n ih =>
    intro m text h1 h2
    cases text with
    | nil => cases m <;> rfl
    | cons c rest =>
      cases m with
      | zero => simp at h2
      | succ m =>
        simp only [List.length_cons, Nat.add_le_add_iff_right] at h1 h2
        simp only [jsonEscapedAux]
        split
        · cases rest with
          | nil => rfl
          | cons e rest1 =>
            simp only [List.length_cons] at h1 h2
            simp only
            split
            · match rest1, h1, h2 with
              | a :: b :: c2 :: d :: rest2, h1, h2 =>
                simp only [List.length_cons] at h1 h2
                simp only
                rw [ih m rest2 (by omega) (by omega)]
              | [], _, _ => rfl
              | [_], _, _ => rfl
              | [_, _], _, _ => rfl
              | [_, _, _], _, _ => rfl
            · rw [ih m rest1 (by omega) (by omega)]
        · rw [ih m rest h1 h2]

theorem isHexDigit_hexDigitUpper (n : Nat) (h : n < 16) : isHexDigit (hexDigitUpper n) = true := by
  interval_cases n <;> decide

theorem jsonEscaped_plain (c : Byte) (rest : List Byte) (h1 : 0x20 ≤ c.val) (h2 : c ≠ 0x22)
    (h3 : c ≠ 0x5C) : jsonEscaped (c :: rest) = jsonEscaped rest := by
  unfold jsonEscaped
  simp only [List.length_cons, jsonEscapedAux, if_neg h3]
  simp [h1, h2]

theorem jsonEscaped_short (e : Byte) (rest : List Byte) (he : isShortEscape e = true) :
    jsonEscaped (0x5C :: e :: rest) = jsonEscaped rest := by
  have hne : e ≠ 0x75 := by
    intro h; subst h; revert he; decide
  unfold jsonEscaped
  simp only [List.length_cons, jsonEscapedAux, if_true, if_neg hne, he, Bool.true_and]
  exact jsonEscapedAux_mono _ _ rest (by omega) (by omega)

theorem jsonEscaped_u (a b c d : Byte) (rest : List Byte) (ha : isHexDigit a = true)
    (hb : isHexDigit b = true) (hc : isHexDigit c = true) (hd : isHexDigit d = true) :
    jsonEscaped (0x5C :: 0x75 :: a :: b :: c :: d :: rest) = jsonEscaped rest := by
  unfold jsonEscaped
  simp only [List.length_cons, jsonEscapedAux, if_true, ha, hb, hc, hd, Bool.true_and]
  exact jsonEscapedAux_mono _ _ rest (by omega) (by omega)

theorem jsonEscaped_escapeJsonChar (c : Byte) (rest : List Byte) :
    jsonEscaped (escapeJsonChar c ++ rest) = jsonEscaped rest := by
  unfold escapeJsonChar
  split_ifs with h1 h2 h3 h4 h5 h6 h7 h8
  · exact jsonEscaped_short 0x22 rest (by decide)
  · exact jsonEscaped_short 0x5C rest (by decide)
  · exact jsonEscaped_short 0x62 rest (by decide)
  · exact jsonEscaped_short 0x66 rest (by decide)
  · exact jsonEscaped_short 0x6E rest (by decide)
  · exact jsonEscaped_short 0x72 rest (by decide)
  · exact jsonEscaped_short 0x74 rest (by decide)
  · exact jsonEscaped_u _ _ _ _ rest
      (isHexDigit_hexDigitUpper _ (Nat.mod_lt _ (by decide)))
      (isHexDigit_hexDigitUpper _ (Nat.mod_lt _ (by decide)))
      (isHexDigit_hexDigitUpper _ (Nat.mod_lt _ (by decide)))
      (isHexDigit_hexDigitUpper _ (Nat.mod_lt _ (by decide)))
  · exact jsonEscaped_plain c rest (by omega) h1 h2

theorem jsonEscaped_escapeJsonString (s : List Byte) : jsonEscaped (escapeJsonString s) = true := by
  induction s with
  | nil => rfl
  | cons c rest ih =>
    show jsonEscaped (escapeJsonChar c ++ escapeJsonString rest) = true
    rw [jsonEscaped_escapeJsonChar, ih]

theorem hexDigitUpper_printable (n : Nat) (h : n < 16) : 0x20 ≤ (hexDigitUpper n).val := by
  interval_cases n <;> decide

theorem escapeJsonChar_printable (c : Byte) : ∀ b ∈ escapeJsonChar c, 0x20 ≤ b.val := by
  unfold escapeJsonChar
  split_ifs with h1 h2 h3 h4 h5 h6 h7 h8
  · set_option maxRecDepth 100000 in decide
  · set_option maxRecDepth 100000 in decide
  · set_option maxRecDepth 100000 in decide
  · set_option maxRecDepth 100000 in decide
  · set_option maxRecDepth 100000 in decide
  · set_option maxRecDepth 100000 in decide
  · set_option maxRecDepth 100000 in decide
  · intro b hb
    rw [show utf8 "\\u" = [0x5C, 0x75] by decide] at hb
    simp only [List.cons_append, List.nil_append, List.mem_cons, List.mem_singleton,
      List.not_mem_nil, or_false] at hb
    rcases hb with hb | hb | hb | hb | hb | hb
    · rw [hb]; decide
    · rw [hb]; decide
    · rw [hb]; exact hexDigitUpper_printable _ (Nat.mod_lt _ (by decide))
    · rw [hb]; exact hexDigitUpper_printable _ (Nat.mod_lt _ (by decide))
    · rw [hb]; exact hexDigitUpper_printable _ (Nat.mod_lt _ (by decide))
    · rw [hb]; exact hexDigitUpper_printable _ (Nat.mod_lt _ (by decide))
  · intro b hb
    rw [List.mem_singleton.mp hb]
    omega

theorem escapeJsonString_cons (c : Byte) (rest : List Byte) :
    escapeJsonString (c :: rest) = escapeJsonString [c] ++ escapeJsonString rest := by
  simp [escapeJsonString, List.flatMap_cons]

/-- C22: for every string `s`, the text `escapeJsonString(s)` of the message
handler has no byte below 0x20 and is the inside of a JSON string: every `"`
and every `\` in it belongs to one of the escapes `\"`, `\\`, `\b`, `\f`, `\n`,
`\r`, `\t` or `\u` with four hexadecimal digits. The text is made character by
character: `"` gives `\"`, `\` gives `\\`, backspace, form feed, newline,
carriage return and tab give `\b`, `\f`, `\n`, `\r`, `\t`, every other byte
below 0x20 gives `\u00` and its two hexadecimal digits (upper case), and every
other byte is copied. -/
theorem escapeJsonString_contract (s : List Byte) :
    (∀ b ∈ escapeJsonString s, 0x20 ≤ b.val) ∧
    jsonEscaped (escapeJsonString s) = true ∧
    escapeJsonString [] = [] ∧
    (∀ c rest, escapeJsonString (c :: rest) = escapeJsonString [c] ++ escapeJsonString rest) ∧
    escapeJsonString [0x22] = utf8 "\\\"" ∧
    escapeJsonString [0x5C] = utf8 "\\\\" ∧
    escapeJsonString [0x08] = utf8 "\\b" ∧
    escapeJsonString [0x0C] = utf8 "\\f" ∧
    escapeJsonString [0x0A] = utf8 "\\n" ∧
    escapeJsonString [0x0D] = utf8 "\\r" ∧
    escapeJsonString [0x09] = utf8 "\\t" ∧
    (∀ c : Byte, c.val < 0x20 → c ∉ [0x08, 0x0C, 0x0A, 0x0D, 0x09] →
      escapeJsonString [c]
        = utf8 "\\u00" ++ [hexDigitUpper (c.val / 16), hexDigitUpper (c.val % 16)]) ∧
    (∀ c : Byte, 0x20 ≤ c.val → c ≠ 0x22 → c ≠ 0x5C → escapeJsonString [c] = [c]) := by
  refine ⟨?_, jsonEscaped_escapeJsonString s, rfl, escapeJsonString_cons, by decide, by decide,
    by decide, by decide, by decide, by decide, by decide, ?_, ?_⟩
  · intro b hb
    obtain ⟨c, _, hc⟩ := List.mem_flatMap.mp hb
    exact escapeJsonChar_printable c b hc
  · set_option maxRecDepth 100000 in decide
  · set_option maxRecDepth 100000 in decide

theorem escapeJsonCharFriend_eq (c : Byte) :
    escapeJsonCharFriend c = GroupHandler.escapeJsonChar c := rfl

theorem escapeJsonCharFriend_agrees :
    ∀ c : Byte, (c.val < 0x20 → c ∈ [0x08, 0x0C, 0x0A, 0x0D, 0x09]) →
      escapeJsonCharFriend c = escapeJsonChar c := by
  set_option maxRecDepth 100000 in decide

theorem escapeJsonChar_head :
    ∀ c : Byte, c.val < 0x20 → c ∉ [0x08, 0x0C, 0x0A, 0x0D, 0x09] →
      escapeJsonCharFriend c = [c] ∧ ∃ tail, escapeJsonChar c = 0x5C :: tail := by
  have h : ∀ c : Byte, c.val < 0x20 → c ∉ [0x08, 0x0C, 0x0A, 0x0D, 0x09] →
      escapeJsonCharFriend c = [c] ∧ (escapeJsonChar c).head? = some 0x5C := by
    set_option maxRecDepth 100000 in decide
  intro c h1 h2
  obtain ⟨ha, hb⟩ := h c h1 h2
  refine ⟨ha, ?_⟩
  cases hc : escapeJsonChar c with
  | nil => rw [hc] at hb; cases hb
  | cons x tail =>
    rw [hc] at hb
    simp only [List.head?_cons, Option.some.injEq] at hb
    exact ⟨tail, by rw [hb]⟩

theorem escapeJsonStringFriend_eq_iff (s : List Byte) :
    escapeJsonStringFriend s = escapeJsonString s ↔
      ∀ c ∈ s, c.val < 0x20 → c ∈ [0x08, 0x0C, 0x0A, 0x0D, 0x09] := by
  induction s with
  | nil => simp [escapeJsonStringFriend, escapeJsonString]
  | cons c rest ih =>
    have hf : escapeJsonStringFriend (c :: rest)
        = escapeJsonCharFriend c ++ escapeJsonStringFriend rest := by
      simp [escapeJsonStringFriend, List.flatMap_cons]
    have hm : escapeJsonString (c :: rest) = escapeJsonChar c ++ escapeJsonString rest := by
      simp [escapeJsonString, List.flatMap_cons]
    rw [hf, hm]
    by_cases hc : c.val < 0x20 → c ∈ [0x08, 0x0C, 0x0A, 0x0D, 0x09]
    · rw [escapeJsonCharFriend_agrees c hc, List.append_right_inj, ih]
      constructor
      · intro h x hx
        rcases List.mem_cons.mp hx with hx | hx
        · rw [hx]; exact hc
        · exact h x hx
      · intro h x hx
        exact h x (List.mem_cons_of_mem _ hx)
    · have hlt : c.val < 0x20 := by
        by_contra hn; exact hc (fun h => absurd h hn)
      have hnot : c ∉ [0x08, 0x0C, 0x0A, 0x0D, 0x09] := fun hin => hc (fun _ => hin)
      obtain ⟨ha, tail, hb⟩ := escapeJsonChar_head c hlt hnot
      rw [ha, hb]
      constructor
      · intro h
        simp only [List.cons_append, List.nil_append, List.cons.injEq] at h
        have h5c : c = 0x5C := h.1
        rw [h5c] at hlt
        exact absurd hlt (by decide)
      · intro h
        exact absurd (h c (List.mem_cons_self _ _)) hc

/-- C23: the helpers of the friend and group handlers copy a control
character that has no short escape instead of writing `\u00XX`. On the
one-byte string 0x01 both return the byte 0x01 itself, which is not the inside
of a JSON string, where the message handler's `escapeJsonString` returns
`\u0001`. The two helpers agree with each other on every input, and they agree
with the message handler's function exactly on the strings in which every byte
below 0x20 is a backspace, form feed, newline, carriage return or tab. -/
theorem friend_group_escape_keeps_control_bytes :
    escapeJsonStringFriend [0x01] = [0x01] ∧
    GroupHandler.escapeJsonString [0x01] = [0x01] ∧
    escapeJsonString [0x01] = utf8 "\\u0001" ∧
    jsonEscaped (escapeJsonStringFriend [0x01]) = false ∧
    jsonEscaped (GroupHandler.escapeJsonString [0x01]) = false ∧
    (∀ s, escapeJsonStringFriend s = GroupHandler.escapeJsonString s) ∧
    (∀ s, escapeJsonStringFriend s = escapeJsonString s ↔
      ∀ c ∈ s, c.val < 0x20 → c ∈ [0x08, 0x0C, 0x0A, 0x0D, 0x09]) ∧
    (∀ s, GroupHandler.escapeJsonString s = escapeJsonString s ↔
      ∀ c ∈ s, c.val < 0x20 → c ∈ [0x08, 0x0C, 0x0A, 0x0D, 0x09]) := by
  have hsame : ∀ s, escapeJsonStringFriend s = GroupHandler.escapeJsonString s := fun _ => rfl
  refine ⟨by decide, by decide, by decide, by decide, by decide, hsame,
    escapeJsonStringFriend_eq_iff, ?_⟩
  intro s
  rw [← hsame s]
  exact escapeJsonStringFriend_eq_iff s

/-! ## The claim about the thread pool -/

theorem ThreadPool_step_stopped (st : ThreadPool × List Nat) (e : PoolEvent)
    (hs : st.1.stop_ = true) :
    (ThreadPool.step st e).1.stop_ = true ∧
    (ThreadPool.step st e).2 ++ (ThreadPool.step st e).1.tasks_ = st.2 ++ st.1.tasks_ ∧
    (ThreadPool.step st e).2.length
      = st.2.length + (if e = .workerTurn ∧ st.1.tasks_ ≠ [] then 1 else 0) := by
  obtain ⟨p, ran⟩ := st
  simp only at hs
  cases e with
  | submit task => simp [ThreadPool.step, ThreadPool.submit, hs]
  | stop => simp [ThreadPool.step, ThreadPool.stop, hs]
  | workerTurn =>
    cases ht : p.tasks_ with
    | nil => simp [ThreadPool.step, ThreadPool.worker, hs, ht]
    | cons t rest => simp [ThreadPool.step, ThreadPool.worker, hs, ht]

theorem ThreadPool_run_stopped (events : List PoolEvent) :
    ∀ (st : ThreadPool × List Nat), st.1.stop_ = true →
      (ThreadPool.run st events).1.stop_ = true ∧
      (ThreadPool.run st events).2 ++ (ThreadPool.run st events).1.tasks_
        = st.2 ++ st.1.tasks_ ∧
      (st.1.tasks_.length ≤ events.count .workerTurn →
        (ThreadPool.run st events).1.tasks_ = []) := by
  induction events with
  | nil =>
    intro st hs
    refine ⟨hs, rfl, ?_⟩
    intro h
    simpa using h
  | cons e rest ih =>
    intro st hs
    obtain ⟨h1, h2, h3⟩ := ThreadPool_step_stopped st e hs
    obtain ⟨i1, i2, i3⟩ := ih (ThreadPool.step st e) h1
    have hrun : ThreadPool.run st (e :: rest) = ThreadPool.run (ThreadPool.step st e) rest := rfl
    rw [hrun]
    refine ⟨i1, by rw [i2, h2], ?_⟩
    intro hcount
    apply i3
    have hlen : (ThreadPool.step st e).2.length + (ThreadPool.step st e).1.tasks_.length
        = st.2.length + st.1.tasks_.length := by
      rw [← List.length_append, ← List.length_append, h2]
    rw [h3] at hlen
    by_cases he : e = .workerTurn
    · subst he
      simp only [List.count_cons_self] at hcount
      by_cases hq : st.1.tasks_ = []
      · simp only [hq, ne_eq, not_true_eq_false, and_false, if_false, List.length_nil,
          Nat.add_zero] at hlen
        omega
      · simp only [hq, ne_eq, not_false_eq_true, and_self, if_true] at hlen
        omega
    · rw [List.count_cons_of_ne (fun h => he h.symm)] at hcount
      simp only [he, false_and, if_false, Nat.add_zero] at hlen
      omega

/-- C24: with the pool as the flag `stop_` and the queue `tasks_`: once the
flag is set, `submit` leaves the pool as it is, and so does a second `stop`. A
worker returns from its loop only when the flag is set and the queue is empty,
and while the flag is set and the queue is not empty its turn takes the task
at the front. So after `stop`, whatever the threads do and in whatever order
(submits, further stops, turns of the workers), the tasks taken so far followed
by the tasks still queued are exactly the tasks that were queued at `stop`, in
their order; and once the workers have made as many turns as tasks were
queued, all of these have been taken, in FIFO order, and the queue is empty. -/
theorem stopped_pool_drains_and_drops (p : ThreadPool) :
    (∀ task, p.stop_ = true → p.submit task = p) ∧
    (∀ task, p.stop.submit task = p.stop) ∧
    p.stop.stop = p.stop ∧
    (p.stop_ = true → p.stop = p) ∧
    p.stop.stop_ = true ∧ p.stop.tasks_ = p.tasks_ ∧
    (p.worker = .exits ↔ p.stop_ = true ∧ p.tasks_ = []) ∧
    (∀ task rest, p.stop_ = true → p.tasks_ = task :: rest →
      p.worker = .runs task { p with tasks_ := rest }) ∧
    (∀ events : List PoolEvent,
      (ThreadPool.run (p.stop, []) events).2 ++ (ThreadPool.run (p.stop, []) events).1.tasks_
        = p.tasks_) ∧
    (∀ events : List PoolEvent, p.tasks_.length ≤ events.count .workerTurn →
      (ThreadPool.run (p.stop, []) events).2 = p.tasks_ ∧
      (ThreadPool.run (p.stop, []) events).1.tasks_ = []) := by
  have hstop : p.stop.stop_ = true := by
    unfold ThreadPool.stop; cases h : p.stop_ <;> simp [h]
  have htasks : p.stop.tasks_ = p.tasks_ := by
    unfold ThreadPool.stop; cases h : p.stop_ <;> simp [h]
  refine ⟨?_, ?_, ?_, ?_, hstop, htasks, ?_, ?_, ?_, ?_⟩
  · intro task h; simp [ThreadPool.submit, h]
  · intro task; simp [ThreadPool.submit, hstop]
  · have h : ∀ q : ThreadPool, q.stop_ = true → q.stop = q := by
      intro q hq; simp [ThreadPool.stop, hq]
    exact h _ hstop
  · intro h; simp [ThreadPool.stop, h]
  · unfold ThreadPool.worker
    cases hs : p.stop_ <;> cases ht : p.tasks_ <;> simp
  · intro task rest hs ht
    simp [ThreadPool.worker, hs, ht]
  · intro events
    have h := (ThreadPool_run_stopped events (p.stop, []) hstop).2.1
    simpa [htasks] using h
  · intro events hcount
    obtain ⟨_, h2, h3⟩ := ThreadPool_run_stopped events (p.stop, []) hstop
    have hempty := h3 (by simpa [htasks] using hcount)
    refine ⟨?_, hempty⟩
    rw [hempty] at h2
    simpa [htasks] using h2

theorem stopped_pool_drains_and_drops_witness :
    ThreadPool.run (ThreadPool.stop { tasks_ := [1, 2, 3], stop_ := false }, [])
        [.workerTurn, .submit 4, .workerTurn, .stop, .workerTurn, .workerTurn]
      = ({ tasks_ := [], stop_ := true }, [1, 2, 3]) ∧
    (ThreadPool.run (ThreadPool.stop { tasks_ := [1, 2, 3], stop_ := false }, [])
        [.workerTurn, .submit 4, .workerTurn, .stop, .workerTurn, .workerTurn]).2 = [1, 2, 3] :=
  ⟨by decide,
    ((stopped_pool_drains_and_drops { tasks_ := [1, 2, 3], stop_ := false }).2.2.2.2.2.2.2.2.2
      [.workerTurn, .submit 4, .workerTurn, .stop, .workerTurn, .workerTurn] (by decide)).1⟩

/-! ## The claim about the termination of `decodeMessages` -/

/-- The loop of `decodeMessages` is its turns one after the other. -/
theorem decodeLoop_turn (fuel : Nat) (buf : List Byte) (c : Nat) (m : List Packet) :
    decodeLoop (fuel + 1) buf c m
      = match decodeLoopTurn buf c m with
        | .leave messages buffer_ => .ok (messages, buffer_)
        | .again buffer_ count messages => decodeLoop fuel buffer_ count messages
        | .fault f => .error f := by
  simp only [decodeLoop, decodeLoopTurn]
  split_ifs <;> rfl

/-- A turn that goes on without shortening the buffer has met a header with
the magic number and the length field `2^32 - 10`, and leaves the buffer as it
is. -/
theorem decodeLoopTurn_again (buf : List Byte) (c : Nat) (m : List Packet)
    (buf' : List Byte) (c' : Nat) (m' : List Packet)
    (h : decodeLoopTurn buf c m = .again buf' c' m') :
    buf'.length < buf.length ∨
      (readU32 buf 0 = MAGIC ∧ readU32 buf 6 = 2 ^ 32 - 10 ∧ 2 ^ 32 ≤ buf.length ∧ buf' = buf) := by
  have hlt := readU32_lt buf 6
  have hMAX : MAX_MAGIC_MISMATCH = 10 := rfl
  by_cases h1 : buf.length < 10
  · simp [decodeLoopTurn, h1] at h
  by_cases h2 : readU32 buf 0 = MAGIC
  · by_cases h3 : buf.length < (10 + readU32 buf 6) % 2 ^ 32
    · simp only [decodeLoopTurn, h1, h2, h3, if_false, if_true, ne_eq,
        not_true_eq_false] at h
      cases h
    by_cases h4 : buf.length < 10 + readU32 buf 6
    · simp only [decodeLoopTurn, h1, h2, h3, h4, if_false, if_true, ne_eq,
        not_true_eq_false] at h
      cases h
    simp only [decodeLoopTurn, h1, h2, h3, h4, if_false, ne_eq, not_true_eq_false,
      LoopTurn.again.injEq] at h
    by_cases hw : 10 + readU32 buf 6 < 2 ^ 32
    · left
      rw [← h.1, List.length_drop, Nat.mod_eq_of_lt hw]
      omega
    · have hmod : (10 + readU32 buf 6) % 2 ^ 32 = 10 + readU32 buf 6 - 2 ^ 32 := by
        rw [Nat.mod_eq_sub_mod (by omega)]
        exact Nat.mod_eq_of_lt (by omega)
      by_cases hz : readU32 buf 6 = 2 ^ 32 - 10
      · right
        refine ⟨h2, hz, by omega, ?_⟩
        rw [← h.1, hmod, hz]
        simp
      · left
        rw [← h.1, List.length_drop, hmod]
        omega
  · by_cases h5 : c + 1 ≤ 10
    · simp only [decodeLoopTurn, h1, h2, hMAX, h5, if_false, if_true, ne_eq,
        not_false_eq_true, LoopTurn.again.injEq] at h
      left; rw [← h.1, List.length_drop]; omega
    · by_cases h6 : c + 1 = 10 + 1
      · simp only [decodeLoopTurn, h1, h2, hMAX, h5, h6, if_false, if_true, ne_eq,
          not_false_eq_true] at h
        cases h
      · simp only [decodeLoopTurn, h1, h2, hMAX, h5, h6, if_false, if_true, ne_eq,
          not_false_eq_true, LoopTurn.again.injEq] at h
        left; rw [← h.1, List.length_drop]; omega

theorem decodeLoopTurn_wrapped (t : Nat) (p : List Byte) (hp : p.length = 2 ^ 32 - 10)
    (ht : t < 2 ^ 16) (c : Nat) (m : List Packet) :
    decodeLoopTurn (encode t p) c m = .again (encode t p) 0 (m ++ [mkPacket t p]) := by
  have hn : p.length % 2 ^ 32 = p.length := Nat.mod_eq_of_lt (by omega)
  have hbuf : encode t p = frameHeader t p.length ++ p := by
    rw [encode_eq_header, hn, Nat.mod_eq_of_lt ht]
  have hL : readU32 (encode t p) 6 = p.length := by
    rw [hbuf]; exact readLength_header _ p.length (by omega) _
  have hM : readU32 (encode t p) 0 = MAGIC := by
    rw [hbuf]; exact readMagic_header _ _ _
  have hT : readU16 (encode t p) 4 = t := by
    rw [hbuf]; exact readType_header _ _ ht _
  have hD : (encode t p).drop 10 = p := by
    rw [hbuf]; exact drop_header _ _ _
  have h1 : ¬ (encode t p).length < 10 := by rw [encode_length]; omega
  have h2 : (10 + p.length) % 4294967296 = 0 := by rw [hp]; norm_num
  have h3 : ¬ (encode t p).length < 10 + p.length := by rw [encode_length]; omega
  simp only [decodeLoopTurn, h1, hM, hL, hT, hD, h2, h3, if_false, ne_eq, not_true_eq_false,
    Nat.reducePow, List.drop_zero, Nat.not_lt_zero, mkPacket]
  rw [List.take_of_length_le (le_refl _)]

/-- C27: the loop of `decodeMessages` has a turn that neither leaves the loop
nor shortens the buffer. The buffer holds the encoding of a HEARTBEAT with a
payload of `2^32 - 10` bytes: the header has the length field 0xFFFFFFF6,
`10 + length` is 0 in 32 bits, the frame passes the completeness check, its
packet is pushed and `erase` removes 0 bytes, so the turn ends with the same
buffer, and so does every turn after it: `decodeMessages` does not return. A
turn fails to shorten the buffer exactly in this case (magic number, length
field `2^32 - 10`, at least `2^32` bytes buffered). -/
theorem decode_turn_keeps_wrapped_frame :
    (∀ (c : Nat) (m : List Packet),
      decodeLoopTurn (encode MessageType.HEARTBEAT (List.replicate 4294967286 0)) c m
        = .again (encode MessageType.HEARTBEAT (List.replicate 4294967286 0)) 0
            (m ++ [mkPacket MessageType.HEARTBEAT (List.replicate 4294967286 0)])) ∧
    decodeMessages (encode MessageType.HEARTBEAT (List.replicate 4294967286 0))
      = .error .nonTermination ∧
    (∀ (buf : List Byte) (c : Nat) (m : List Packet) (buf' : List Byte) (c' : Nat)
        (m' : List Packet), decodeLoopTurn buf c m = .again buf' c' m' →
      buf'.length < buf.length ∨
        (readU32 buf 0 = MAGIC ∧ readU32 buf 6 = 2 ^ 32 - 10 ∧ 2 ^ 32 ≤ buf.length
          ∧ buf' = buf)) := by
  have hlen : (List.replicate 4294967286 (0 : Byte)).length = 2 ^ 32 - 10 :=
    (List.length_replicate _ _).trans (by norm_num)
  refine ⟨?_, ?_, decodeLoopTurn_again⟩
  · exact decodeLoopTurn_wrapped _ _ hlen (by decide)
  · rw [decodeMessages_of_ne_nil _ (encode_ne_nil _ _)]
    exact decodeLoop_encode_wrap _ _ hlen _ _ _

/-! ## The claim about the split of the input into chunks -/

theorem decodeMessages_eq_loop (buf : List Byte) :
    decodeMessages buf = decodeLoop (buf.length + 1) buf 0 [] := by
  cases buf with
  | nil => rfl
  | cons b bs => exact decodeMessages_of_ne_nil _ rfl

/-- A buffer holding a frame without its last bytes ends the loop at once. -/
theorem decodeLoop_part (t : Nat) (p : List Byte) (hp : p.length + 10 < 2 ^ 32)
    (q s : List Byte) (hq : q ++ s = encode t p) (hs : s ≠ []) (fuel c : Nat)
    (m : List Packet) : decodeLoop (fuel + 1) q c m = .ok (m, q) := by
  have hlen : q.length + s.length = 10 + p.length := by
    rw [← List.length_append, hq, encode_length]
  have hspos : 0 < s.length := List.length_pos.mpr hs
  by_cases h10 : q.length < 10
  · exact decodeLoop_short _ _ _ _ h10
  · have hn : p.length % 2 ^ 32 = p.length := Nat.mod_eq_of_lt (by omega)
    have hq2 : q = frameHeader (t % 2 ^ 16) p.length ++ p.take (q.length - 10) := by
      have h1 : q = (encode t p).take q.length := by rw [← hq]; simp
      rw [encode_eq_header, hn, List.take_append_eq_append_take, frameHeader_length,
        List.take_of_length_le (by rw [frameHeader_length]; omega)] at h1
      exact h1
    have hM : readU32 q 0 = MAGIC := by rw [hq2]; exact readMagic_header _ _ _
    have hL : readU32 q 6 = p.length := by
      rw [hq2]; exact readLength_header _ _ (by omega) _
    exact decodeLoop_incomplete _ _ _ _ (by omega) hM (by rw [hL]; omega) (by rw [hL]; omega)

/-- What the loop makes of the first bytes `x` of a stream of frames: the
packets of the frames that `x` holds in full, and the bytes after them, at
which the loop stops whatever comes before. -/
theorem decodeLoop_stream_part (msgs : List (Nat × List Byte)) (hv : validMessages msgs) :
    ∀ (x y : List Byte), x ++ y = encodeAll msgs →
      ∃ (k : Nat) (x' : List Byte),
        x = encodeAll (msgs.take k) ++ x' ∧
        x' ++ y = encodeAll (msgs.drop k) ∧
        (∀ (fuel c : Nat) (m : List Packet), decodeLoop (fuel + 1) x' c m = .ok (m, x')) ∧
        ∀ (fuel c : Nat) (m : List Packet), x.length < fuel →
          decodeLoop fuel x c m = .ok (m ++ packetsOf (msgs.take k), x') := by
  induction msgs with
  | nil =>
    intro x y h
    simp only [encodeAll, List.append_eq_nil] at h
    obtain ⟨hx, hy⟩ := h
    subst hx
    refine ⟨0, [], rfl, by simp [hy, encodeAll], ?_, ?_⟩
    · intro fuel c m
      exact decodeLoop_short _ _ _ _ (by simp)
    · intro fuel c m hf
      obtain ⟨f, rfl⟩ : ∃ f, fuel = f + 1 := ⟨fuel - 1, by simp at hf; omega⟩
      rw [decodeLoop_short _ _ _ _ (by simp)]
      simp [packetsOf]
  | cons msg tail ih =>
    intro x y h
    obtain ⟨t, p⟩ := msg
    have hx := hv (t, p) (List.mem_cons_self _ _)
    have hvt : validMessages tail := fun z hz => hv z (List.mem_cons_of_mem _ hz)
    simp only [encodeAll] at h
    have hwhole : ∀ b : List Byte, x = encode t p ++ b → b ++ y = encodeAll tail →
        ∃ (k : Nat) (x' : List Byte),
          x = encodeAll (((t, p) :: tail).take k) ++ x' ∧
          x' ++ y = encodeAll (((t, p) :: tail).drop k) ∧
          (∀ (fuel c : Nat) (m : List Packet), decodeLoop (fuel + 1) x' c m = .ok (m, x')) ∧
          ∀ (fuel c : Nat) (m : List Packet), x.length < fuel →
            decodeLoop fuel x c m = .ok (m ++ packetsOf (((t, p) :: tail).take k), x') := by
      intro b hb hby
      obtain ⟨k, x', h1, h2, h3, h4⟩ := ih hvt b y hby
      refine ⟨k + 1, x', ?_, ?_, h3, ?_⟩
      · simp only [List.take_succ_cons, encodeAll]
        rw [hb, h1, List.append_assoc]
      · simpa using h2
      · intro fuel c m hf
        have hxl : x.length = 10 + p.length + b.length := by
          rw [hb, List.length_append, encode_length]
        obtain ⟨f, rfl⟩ : ∃ f, fuel = f + 1 := ⟨fuel - 1, by omega⟩
        rw [hb, decodeLoop_frame f t p b c m hx.1 hx.2, h4 f 0 _ (by omega)]
        simp [packetsOf, List.take_succ_cons]
    rcases List.append_eq_append_iff.mp h with ⟨a, ha, hy⟩ | ⟨b, hb, hby⟩
    · by_cases hane : a = []
      · subst hane
        simp only [List.append_nil] at ha
        simp only [List.nil_append] at hy
        exact hwhole [] (by rw [List.append_nil]; exact ha.symm) (by simp [hy])
      · refine ⟨0, x, by simp [encodeAll], by simpa [encodeAll] using h, ?_, ?_⟩
        · intro fuel c m
          exact decodeLoop_part t p hx.2 x a ha.symm hane fuel c m
        · intro fuel c m hf
          obtain ⟨f, rfl⟩ : ∃ f, fuel = f + 1 := ⟨fuel - 1, by omega⟩
          rw [decodeLoop_part t p hx.2 x a ha.symm hane f c m]
          simp [packetsOf]
    · exact hwhole b hb hby.symm

/-- The loop on whole frames followed by further bytes. -/
theorem decodeLoop_frames (ms : List (Nat × List Byte)) (hv : validMessages ms) :
    ∀ (rest : List Byte) (fuel c : Nat) (m : List Packet),
      ∃ c', decodeLoop (fuel + ms.length) (encodeAll ms ++ rest) c m
        = decodeLoop fuel rest c' (m ++ packetsOf ms) := by
  induction ms with
  | nil =>
    intro rest fuel c m
    exact ⟨c, by simp [encodeAll, packetsOf]⟩
  | cons msg tail ih =>
    intro rest fuel c m
    obtain ⟨t, p⟩ := msg
    have hx := hv (t, p) (List.mem_cons_self _ _)
    have hvt : validMessages tail := fun z hz => hv z (List.mem_cons_of_mem _ hz)
    obtain ⟨c', hc'⟩ := ih hvt rest fuel 0 (m ++ [mkPacket t p])
    refine ⟨c', ?_⟩
    simp only [encodeAll, List.length_cons, List.append_assoc]
    rw [show fuel + (tail.length + 1) = (fuel + tail.length) + 1 by omega,
      decodeLoop_frame _ t p _ c m hx.1 hx.2, hc']
    simp [packetsOf]

theorem validMessages_take (msgs : List (Nat × List Byte)) (hv : validMessages msgs) (k : Nat) :
    validMessages (msgs.take k) :=
  fun z hz => hv z (List.mem_of_mem_take hz)

theorem validMessages_drop (msgs : List (Nat × List Byte)) (hv : validMessages msgs) (k : Nat) :
    validMessages (msgs.drop k) :=
  fun z hz => hv z (List.mem_of_mem_drop hz)

/-- Feeding a stream of frames in chunks gives what feeding it at once gives. -/
theorem feedChunks_stream_part (chunks : List (List Byte)) :
    ∀ (msgs : List (Nat × List Byte)) (b y : List Byte), validMessages msgs →
      b ++ chunks.flatten ++ y = encodeAll msgs →
      (∀ (fuel c : Nat) (m : List Packet), decodeLoop (fuel + 1) b c m = .ok (m, b)) →
      feedChunks b chunks = decodeMessages (b ++ chunks.flatten) := by
  induction chunks with
  | nil =>
    intro msgs b y _ _ hstuck
    simp only [feedChunks, List.flatten_nil, List.append_nil]
    rw [decodeMessages_eq_loop, hstuck]
  | cons ch rest ih =>
    intro msgs b y hv h hstuck
    simp only [List.flatten_cons] at h ⊢
    have h1 : (b ++ ch) ++ (rest.flatten ++ y) = encodeAll msgs := by
      rw [← h]; simp
    obtain ⟨k1, x1, e1, e2, s1, d1⟩ := decodeLoop_stream_part msgs hv _ _ h1
    have h2 : (x1 ++ rest.flatten) ++ y = encodeAll (msgs.drop k1) := by
      rw [← e2]; simp
    obtain ⟨k2, x2, f1, f2, s2, d2⟩ :=
      decodeLoop_stream_part (msgs.drop k1) (validMessages_drop msgs hv k1) _ _ h2
    have hfirst : addData b ch = .ok (packetsOf (msgs.take k1), x1) := by
      unfold addData
      rw [decodeMessages_eq_loop, d1 _ 0 [] (by omega)]
      simp
    have hrest : feedChunks x1 rest = .ok (packetsOf ((msgs.drop k1).take k2), x2) := by
      rw [ih (msgs.drop k1) x1 y (validMessages_drop msgs hv k1) (by rw [← h2]) s1,
        decodeMessages_eq_loop, d2 _ 0 [] (by omega)]
      simp
    have hall : decodeMessages (b ++ (ch ++ rest.flatten))
        = .ok (packetsOf (msgs.take k1) ++ packetsOf ((msgs.drop k1).take k2), x2) := by
      have hsplit : b ++ (ch ++ rest.flatten) = encodeAll (msgs.take k1) ++ (x1 ++ rest.flatten) := by
        rw [← List.append_assoc, e1, List.append_assoc]
      have hk : 10 * (msgs.take k1).length ≤ (encodeAll (msgs.take k1)).length :=
        length_le_encodeAll _
      rw [decodeMessages_eq_loop, hsplit]
      obtain ⟨c', hc'⟩ := decodeLoop_frames (msgs.take k1) (validMessages_take msgs hv k1)
        (x1 ++ rest.flatten)
        ((encodeAll (msgs.take k1) ++ (x1 ++ rest.flatten)).length + 1 - (msgs.take k1).length)
        0 []
      rw [show (encodeAll (msgs.take k1) ++ (x1 ++ rest.flatten)).length + 1
          = ((encodeAll (msgs.take k1) ++ (x1 ++ rest.flatten)).length + 1
              - (msgs.take k1).length) + (msgs.take k1).length by
        simp only [List.length_append] at hk ⊢; omega]
      rw [hc', d2 _ c' _ (by simp only [List.length_append] at hk ⊢; omega)]
      simp
    simp only [feedChunks, hfirst, hrest, hall]

/-- C28, as stated, fails: eleven bytes 0xFF followed by the frame of a
LOGIN_REQUEST with no payload. Fed in one call, the eleventh mismatch in a row
empties the buffer and no packet comes out. Fed as two chunks, the bytes 0xFF
and then the frame, the first call drops two bytes and stops below 10 bytes,
the second call counts from 0 again, drops the other nine and hands out the
LOGIN_REQUEST. -/
theorem split_changes_resync :
    addData [] (List.replicate 11 0xFF ++ encode MessageType.LOGIN_REQUEST [])
      = .ok ([], []) ∧
    feedChunks [] [List.replicate 11 0xFF, encode MessageType.LOGIN_REQUEST []]
      = .ok ([mkPacket MessageType.LOGIN_REQUEST []], []) := by
  decide

/-- C28, amended: the stream is made of frames, payloads shorter than
`2^32 - 10` bytes, and may end inside a frame (it is followed by `rest` to
make whole frames). For every split of it into consecutive chunks, empty ones
included, feeding the chunks in order to a fresh decoder gives the same packet
sequence and the same final buffer as feeding the whole stream in one call:
the packets of the frames that are complete, in order, and the bytes of the
frame that is not. -/
theorem chunking_irrelevant_for_frames (msgs : List (Nat × List Byte))
    (chunks : List (List Byte)) (rest : List Byte)
    (hv : validMessages msgs) (hstream : chunks.flatten ++ rest = encodeAll msgs) :
    feedChunks [] chunks = addData [] chunks.flatten ∧
    (∃ (k : Nat) (buffer_ : List Byte),
      addData [] chunks.flatten = .ok (packetsOf (msgs.take k), buffer_) ∧
      chunks.flatten = encodeAll (msgs.take k) ++ buffer_ ∧
      buffer_ ++ rest = encodeAll (msgs.drop k)) ∧
    (rest = [] → feedChunks [] chunks = .ok (packetsOf msgs, [])) := by
  have hfeed : feedChunks [] chunks = addData [] chunks.flatten := by
    have h := feedChunks_stream_part chunks msgs [] rest hv (by simpa using hstream)
      (fun fuel c m => decodeLoop_short _ _ _ _ (by simp))
    simpa [addData] using h
  refine ⟨hfeed, ?_, ?_⟩
  · obtain ⟨k, x', e1, e2, _, d⟩ := decodeLoop_stream_part msgs hv _ _ hstream
    refine ⟨k, x', ?_, e1, e2⟩
    rw [addData_nil, decodeMessages_eq_loop, d _ 0 [] (by omega)]
    simp
  · intro hrest
    subst hrest
    rw [hfeed, addData_nil, decodeMessages_eq_loop]
    rw [List.append_nil] at hstream
    rw [hstream, decodeLoop_encodeAll msgs hv _ 0 []
      (by have := length_le_encodeAll msgs; omega)]
    simp

theorem chunking_irrelevant_for_frames_witness :
    (validMessages [(MessageType.LOGIN_REQUEST, [1, 2]), (MessageType.HEARTBEAT, [])] ∧
      [(encode MessageType.LOGIN_REQUEST [1, 2]).take 3, [],
          (encode MessageType.LOGIN_REQUEST [1, 2]).drop 3
            ++ (encode MessageType.HEARTBEAT []).take 4].flatten
          ++ (encode MessageType.HEARTBEAT []).drop 4
        = encodeAll [(MessageType.LOGIN_REQUEST, [1, 2]), (MessageType.HEARTBEAT, [])]) ∧
    feedChunks [] [(encode MessageType.LOGIN_REQUEST [1, 2]).take 3, [],
        (encode MessageType.LOGIN_REQUEST [1, 2]).drop 3
          ++ (encode MessageType.HEARTBEAT []).take 4]
      = addData [] [(encode MessageType.LOGIN_REQUEST [1, 2]).take 3, [],
          (encode MessageType.LOGIN_REQUEST [1, 2]).drop 3
            ++ (encode MessageType.HEARTBEAT []).take 4].flatten ∧
    feedChunks [] [(encode MessageType.LOGIN_REQUEST [1, 2]).take 3, [],
        (encode MessageType.LOGIN_REQUEST [1, 2]).drop 3
          ++ (encode MessageType.HEARTBEAT []).take 4]
      = .ok ([mkPacket MessageType.LOGIN_REQUEST [1, 2]], [0x49, 0x4D, 0x49, 0x4D]) :=
  ⟨⟨by unfold validMessages; decide, by decide⟩,
    (chunking_irrelevant_for_frames
      [(MessageType.LOGIN_REQUEST, [1, 2]), (MessageType.HEARTBEAT, [])]
      [(encode MessageType.LOGIN_REQUEST [1, 2]).take 3, [],
        (encode MessageType.LOGIN_REQUEST [1, 2]).drop 3
          ++ (encode MessageType.HEARTBEAT []).take 4]
      ((encode MessageType.HEARTBEAT []).drop 4)
      (by unfold validMessages; decide) (by decide)).1,
    by decide⟩

/-! ## The claim about draining the socket -/

/-- Whatever `handleClientData` does, it takes at most 4096 bytes from the
socket. -/
theorem handleClientData_pending (h : Handlers) (env : Env) (s s' : EpollServer)
    (sock sock' : Socket) (fd : Int)
    (hrun : handleClientData h env s sock fd = .ok (s', sock')) :
    sock'.pending = sock.pending.drop 4096 := by
  unfold handleClientData at hrun
  have hrecv : (recv sock 4096).2.pending = sock.pending.drop 4096 := by
    unfold recv
    cases hp : sock.pending with
    | nil => cases sock.failure <;> cases sock.peerClosed <;> simp [hp]
    | cons b bs => simp
  rcases hr : recv sock 4096 with ⟨res, sock1⟩
  rw [hr] at hrun hrecv
  simp only at hrecv
  cases res with
  | failed errno =>
    simp only at hrun
    split at hrun <;> cases hrun <;> exact hrecv
  | bytes buffer =>
    simp only at hrun
    split at hrun
    · cases hrun; exact hrecv
    · cases hfind : clientsFind s.clients_ fd with
      | none => rw [hfind] at hrun; cases hrun; exact hrecv
      | some client =>
        rw [hfind] at hrun
        simp only at hrun
        cases hdec : addData client.decoder.buffer_ buffer with
        | error f => rw [hdec] at hrun; cases hrun
        | ok r =>
          obtain ⟨messages, buffer_⟩ := r
          rw [hdec] at hrun
          simp only at hrun
          cases hrun
          exact hrecv

/-- A frame longer than 4096 bytes waits on the socket of a connection whose
decoder is empty: one call takes the first 4096 bytes into the decoder, decodes
nothing and returns. -/
theorem handleClientData_long_frame (h : Handlers) (env : Env) (s : EpollServer)
    (sock : Socket) (fd : Int) (conn : ClientConnection) (t : Nat) (p : List Byte)
    (hreg : clientsFind s.clients_ fd = some conn) (hbuf : conn.decoder.buffer_ = [])
    (hpend : sock.pending = encode t p) (hp : p.length + 10 < 2 ^ 32)
    (hlong : 4096 < 10 + p.length) :
    handleClientData h env s sock fd
      = .ok ({ s with clients_ :=
                (clientsModify
                  (fun c => { c with decoder := { buffer_ := (encode t p).take 4096 } })
                  s.clients_ fd) },
             { sock with pending := (encode t p).drop 4096 }) := by
  have hne : sock.pending.isEmpty = false := by rw [hpend]; exact encode_ne_nil t p
  have hrecv : recv sock 4096
      = (.bytes ((encode t p).take 4096), { sock with pending := (encode t p).drop 4096 }) := by
    unfold recv
    rw [hpend] at hne ⊢
    rw [hne]
    rfl
  have hlen : ((encode t p).take 4096).length = 4096 := by
    rw [List.length_take, encode_length]; omega
  have hdec : addData [] ((encode t p).take 4096) = .ok ([], (encode t p).take 4096) := by
    rw [addData_nil]
    exact decodeMessages_incomplete t p hp _ ((encode t p).drop 4096)
      (List.take_append_drop _ _)
      (by
        intro hnil
        have := congrArg List.length hnil
        rw [List.length_drop, encode_length] at this
        simp at this
        omega)
  simp only [handleClientData, hrecv, hlen, hreg, hbuf, hdec]
  simp

/-- C25: more than 4096 bytes are pending and `handleClientData` returns with
the socket not drained and the connection not closed. The socket of fd 5 of
`freshServer` holds the 4097 bytes of one HEARTBEAT frame (a payload of 4087
bytes). The one `recv` of the call takes 4096 of them into the decoder, which
waits for the rest of the frame; the call returns, fd 5 is still registered,
and the last byte is still pending on the socket: the next read would not
block. Whatever the input, a call takes at most 4096 bytes from the socket. -/
theorem handleClientData_leaves_bytes_pending :
    (encode MessageType.HEARTBEAT (List.replicate 4087 0)).length = 4097 ∧
    handleClientData idleHandlers goodEnv freshServer
        { pending := encode MessageType.HEARTBEAT (List.replicate 4087 0) } 5
      = .ok ({ freshServer with clients_ :=
                [(5, { fd := 5, authenticated := false,
                       decoder := { buffer_ :=
                         (encode MessageType.HEARTBEAT (List.replicate 4087 0)).take 4096 } })] },
             { pending := (encode MessageType.HEARTBEAT (List.replicate 4087 0)).drop 4096 }) ∧
    (encode MessageType.HEARTBEAT (List.replicate 4087 0)).drop 4096 = [0] ∧
    (∀ (h : Handlers) (env : Env) (s s' : EpollServer) (sock sock' : Socket) (fd : Int),
      handleClientData h env s sock fd = .ok (s', sock') →
      sock'.pending = sock.pending.drop 4096) := by
  have hlen : (List.replicate 4087 (0 : Byte)).length = 4087 := List.length_replicate _ _
  refine ⟨by rw [encode_length, hlen], ?_, ?_, handleClientData_pending⟩
  · have h := handleClientData_long_frame idleHandlers goodEnv freshServer
      { pending := encode MessageType.HEARTBEAT (List.replicate 4087 0) } 5
      { fd := 5, authenticated := false } MessageType.HEARTBEAT (List.replicate 4087 0)
      rfl rfl rfl (by rw [hlen]; norm_num) (by rw [hlen]; norm_num)
    rw [h]
    rfl
  · rw [encode_eq_header, List.drop_append_eq_append_drop, frameHeader_length]
    rw [List.drop_of_length_le (by rw [frameHeader_length]; norm_num)]
    rw [List.drop_replicate]
    rfl

/-! ## The claim about the registry mutex -/

theorem heldAfter_append (a b : List Action) :
    ∀ held, heldAfter held (a ++ b) = heldAfter (heldAfter held a) b := by
  induction a with
  | nil => intro held; rfl
  | cons x xs ih =>
    intro held
    cases x <;> simp only [List.cons_append, heldAfter] <;>
      rw [show xs.append b = xs ++ b from rfl, ih]

theorem noWriteWhileLocked_append (a b : List Action) :
    ∀ held, noWriteWhileLocked held (a ++ b)
      = (noWriteWhileLocked held a && noWriteWhileLocked (heldAfter held a) b) := by
  induction a with
  | nil => intro held; simp [noWriteWhileLocked, heldAfter]
  | cons x xs ih =>
    intro held
    cases x with
    | lock => exact ih true
    | unlock => exact ih false
    | write fd bytes =>
      simp only [List.cons_append, noWriteWhileLocked, heldAfter]
      rw [show xs.append b = xs ++ b from rfl, ih, Bool.and_assoc]

theorem lockDiscipline_nil : lockDiscipline [] := ⟨rfl, rfl⟩

theorem lockDiscipline_append (a b : List Action) (ha : lockDiscipline a)
    (hb : lockDiscipline b) : lockDiscipline (a ++ b) := by
  obtain ⟨a1, a2⟩ := ha
  obtain ⟨b1, b2⟩ := hb
  exact ⟨by rw [noWriteWhileLocked_append, a1, a2, b1]; rfl, by rw [heldAfter_append, a2, b2]⟩

theorem lockDiscipline_guard (a : List Action) (ha : lockDiscipline a) :
    lockDiscipline ([Action.lock, Action.unlock] ++ a) :=
  lockDiscipline_append _ _ ⟨rfl, rfl⟩ ha

theorem lockDiscipline_write (fd : Int) (bytes : List Byte) (a : List Action)
    (ha : lockDiscipline a) : lockDiscipline (Action.write fd bytes :: a) := by
  obtain ⟨a1, a2⟩ := ha
  exact ⟨by simp [noWriteWhileLocked, a1], by simp [heldAfter, a2]⟩

theorem lockDiscipline_ite (c : Prop) [Decidable c] (a b : List Action)
    (ha : lockDiscipline a) (hb : lockDiscipline b) :
    lockDiscipline (if c then a else b) := by
  split
  · exact ha
  · exact hb

theorem closeConnectionActions_disciplined (s : EpollServer) (fd : Int) :
    lockDiscipline (closeConnectionActions s fd) := ⟨rfl, rfl⟩

theorem sendMessageActions_disciplined (env : Env) (s : EpollServer) (fd : Int) (type : Nat)
    (jsonData : List Byte) : lockDiscipline (sendMessageActions env s fd type jsonData) := by
  unfold sendMessageActions
  cases clientsFind s.clients_ fd with
  | none => exact ⟨rfl, rfl⟩
  | some conn =>
    simp only
    apply lockDiscipline_guard
    apply lockDiscipline_write
    cases env.send s.calls fd (encode type jsonData) with
    | failed errno =>
      simp only
      split
      · exact ⟨rfl, rfl⟩
      · exact lockDiscipline_nil
    | sent sent =>
      simp only
      split
      · split
        · apply lockDiscipline_write
          cases env.send (s.issue (.send fd (encode type jsonData))).calls fd
              (((encode type jsonData).drop sent).take ((encode type jsonData).length - sent)) with
          | failed errno =>
            simp only
            split
            · exact ⟨rfl, rfl⟩
            · exact lockDiscipline_nil
          | sent n => exact lockDiscipline_nil
        · exact lockDiscipline_nil
      · exact lockDiscipline_nil

theorem sendMessageToUserActions_disciplined (env : Env) (s : EpollServer) (userId : List Byte)
    (type : Nat) (jsonData : List Byte) :
    lockDiscipline (sendMessageToUserActions env s userId type jsonData) := by
  unfold sendMessageToUserActions
  apply lockDiscipline_guard
  split
  · exact sendMessageActions_disciplined _ _ _ _ _
  · exact lockDiscipline_nil

theorem sendRoundActions_disciplined (env : Env) (type : Nat) (jsonData : List Byte)
    (fds : List Int) : ∀ st, lockDiscipline (sendRoundActions env type jsonData fds st) := by
  induction fds with
  | nil => intro st; exact lockDiscipline_nil
  | cons fd rest ih =>
    intro st
    exact lockDiscipline_append _ _ (sendMessageActions_disciplined _ _ _ _ _) (ih _)

theorem broadcastMessageActions_disciplined (env : Env) (s : EpollServer) (type : Nat)
    (jsonData : List Byte) (excludeFd : Int) :
    lockDiscipline (broadcastMessageActions env s type jsonData excludeFd) :=
  lockDiscipline_guard _ (sendRoundActions_disciplined _ _ _ _ _)

theorem processMessageActions_disciplined (ha : HandlerActions) (env : Env)
    (hdisc : ha.disciplined) (s : EpollServer) (fd : Int) (packet : Packet) :
    lockDiscipline (processMessageActions ha env s fd packet) := by
  have hh : ∀ t ∈ ha.all s fd packet.data, lockDiscipline t := hdisc s fd packet.data
  unfold processMessageActions
  split
  · exact ⟨rfl, rfl⟩
  · apply lockDiscipline_guard
    repeat' apply lockDiscipline_ite
    all_goals
      first
        | exact sendMessageActions_disciplined _ _ _ _ _
        | exact closeConnectionActions_disciplined _ _
        | exact lockDiscipline_nil
        | exact hh _ (by simp [HandlerActions.all])

theorem processRoundActions_disciplined (ha : HandlerActions) (h : Handlers) (env : Env)
    (hdisc : ha.disciplined) (fd : Int) (packets : List Packet) :
    ∀ st, lockDiscipline (processRoundActions ha h env fd packets st) := by
  induction packets with
  | nil => intro st; exact lockDiscipline_nil
  | cons p rest ih =>
    intro st
    exact lockDiscipline_append _ _ (processMessageActions_disciplined ha env hdisc _ _ _) (ih _)

theorem handleClientDataActions_noWrite (ha : HandlerActions) (h : Handlers) (env : Env)
    (hdisc : ha.disciplined) (s : EpollServer) (sock : Socket) (fd : Int) :
    noWriteWhileLocked false (handleClientDataActions ha h env s sock fd) = true ∧
    ((∃ r, handleClientData h env s sock fd = .ok r) →
      heldAfter false (handleClientDataActions ha h env s sock fd) = false) := by
  unfold handleClientDataActions handleClientData
  rcases recv sock 4096 with ⟨res, sock1⟩
  cases res with
  | failed errno =>
    simp only
    split
    · exact ⟨rfl, fun _ => rfl⟩
    · exact ⟨rfl, fun _ => rfl⟩
  | bytes buffer =>
    simp only
    split
    · exact ⟨rfl, fun _ => rfl⟩
    · cases clientsFind s.clients_ fd with
      | none => exact ⟨rfl, fun _ => rfl⟩
      | some client =>
        simp only
        cases addData client.decoder.buffer_ buffer with
        | error f =>
          refine ⟨rfl, ?_⟩
          rintro ⟨r, hr⟩
          cases hr
        | ok r =>
          obtain ⟨messages, buffer_⟩ := r
          simp only
          have hd := lockDiscipline_guard _
            (processRoundActions_disciplined ha h env hdisc fd messages
              { s with clients_ :=
                  (clientsModify (fun c => { c with decoder := { buffer_ := buffer_ } })
                    s.clients_ fd) })
          exact ⟨hd.1, fun _ => hd.2⟩

/-- The `send` calls among the actions of `sendMessage` are the `send` calls
that `sendMessage` adds to the trace of the server. -/
theorem sendMessageActions_writes (env : Env) (s : EpollServer) (fd : Int) (type : Nat)
    (jsonData : List Byte) :
    writesIn (sendMessageActions env s fd type jsonData)
      = writesOf ((sendMessage env s fd type jsonData).calls.drop s.calls.length) := by
  have hclose : ∀ st : EpollServer, st.calls.length ≥ s.calls.length →
      writesOf ((closeConnection st fd).calls.drop s.calls.length)
        = writesOf (st.calls.drop s.calls.length) := by
    intro st hlen
    obtain ⟨tail, ht, hc⟩ := closeConnection_calls st fd
    rw [ht, List.drop_append_of_le_length hlen]
    have : writesOf tail = [] := by
      clear ht
      induction tail with
      | nil => rfl
      | cons c cs ih =>
        have hcs := ih (fun x hx => hc x (List.mem_cons_of_mem _ hx))
        rcases hc c (List.mem_cons_self _ _) with h | h <;> rw [h] <;>
          simpa [writesOf] using hcs
    simp only [writesOf, List.filterMap_append] at this ⊢
    rw [this, List.append_nil]
  unfold sendMessageActions sendMessage
  cases clientsFind s.clients_ fd with
  | none => simp [writesIn, writesOf]
  | some conn =>
    simp only
    cases env.send s.calls fd (encode type jsonData) with
    | failed errno =>
      simp only
      split
      · rw [hclose _ (by simp [EpollServer.issue])]
        simp [writesIn, writesOf, EpollServer.issue, closeConnectionActions]
      · simp [writesIn, writesOf, EpollServer.issue]
    | sent sent =>
      simp only
      split
      · split
        · cases env.send (s.issue (.send fd (encode type jsonData))).calls fd
              (((encode type jsonData).drop sent).take ((encode type jsonData).length - sent)) with
          | failed errno =>
            simp only
            split
            · rw [hclose _ (by simp [EpollServer.issue])]
              simp [writesIn, writesOf, EpollServer.issue, closeConnectionActions]
            · simp [writesIn, writesOf, EpollServer.issue]
          | sent n => simp [writesIn, writesOf, EpollServer.issue]
        · simp [writesIn, writesOf, EpollServer.issue]
      · simp [writesIn, writesOf, EpollServer.issue]

/-- C26: in the sequence of lock, unlock and `send` of `closeConnection`,
`sendMessage`, `sendMessageToUser`, `broadcastMessage`, `processMessage` and
`handleClientData`, whatever the kernel answers to the writes, no `send`
happens while the routine holds `clientsMutex_`, and the routine ends without
holding it (`handleClientData`: when it returns). The handlers that
`processMessage` calls are taken to keep the same discipline. The `send` calls
in the sequence of `sendMessage` are those it adds to the trace of the
server. -/
theorem no_write_under_registry_lock (ha : HandlerActions) (h : Handlers) (env : Env)
    (hdisc : ha.disciplined) :
    (∀ s fd, lockDiscipline (closeConnectionActions s fd)) ∧
    (∀ s fd type jsonData, lockDiscipline (sendMessageActions env s fd type jsonData)) ∧
    (∀ s fd type jsonData,
      writesIn (sendMessageActions env s fd type jsonData)
        = writesOf ((sendMessage env s fd type jsonData).calls.drop s.calls.length)) ∧
    (∀ s userId type jsonData,
      lockDiscipline (sendMessageToUserActions env s userId type jsonData)) ∧
    (∀ s type jsonData excludeFd,
      lockDiscipline (broadcastMessageActions env s type jsonData excludeFd)) ∧
    (∀ s fd packet, lockDiscipline (processMessageActions ha env s fd packet)) ∧
    (∀ s sock fd,
      noWriteWhileLocked false (handleClientDataActions ha h env s sock fd) = true ∧
      ((∃ r, handleClientData h env s sock fd = .ok r) →
        heldAfter false (handleClientDataActions ha h env s sock fd) = false)) :=
  ⟨closeConnectionActions_disciplined, sendMessageActions_disciplined env,
    sendMessageActions_writes env, sendMessageToUserActions_disciplined env,
    broadcastMessageActions_disciplined env,
    processMessageActions_disciplined ha env hdisc,
    handleClientDataActions_noWrite ha h env hdisc⟩

theorem no_write_under_registry_lock_witness :
    idleHandlerActions.disciplined ∧
    broadcastMessageActions brokenPipeEnv chatServer MessageType.RECEIVE_MESSAGE (utf8 "hi") 7
      = [.lock, .unlock,
         .lock, .unlock, .write 5 (encode MessageType.RECEIVE_MESSAGE (utf8 "hi")),
         .write 5 ((encode MessageType.RECEIVE_MESSAGE (utf8 "hi")).drop 4), .lock, .unlock,
         .lock, .unlock, .write 6 (encode MessageType.RECEIVE_MESSAGE (utf8 "hi")),
         .lock, .unlock] ∧
    lockDiscipline
      (broadcastMessageActions brokenPipeEnv chatServer MessageType.RECEIVE_MESSAGE (utf8 "hi") 7) :=
  have hidle : idleHandlerActions.disciplined := by
    intro s fd data t ht
    simp only [HandlerActions.all, idleHandlerActions, List.mem_cons, List.mem_singleton,
      List.not_mem_nil, or_false, or_self] at ht
    rw [ht]
    exact ⟨rfl, rfl⟩
  ⟨hidle, by decide,
    (no_write_under_registry_lock idleHandlerActions idleHandlers brokenPipeEnv hidle).2.2.2.2.1
      chatServer MessageType.RECEIVE_MESSAGE (utf8 "hi") 7⟩

/-! ## The claim about `handleKick` -/

/-- With the requester logged in, a group id and member ids in the request
and the store connected, `handleKick` does what `kickMembers` does. -/
theorem handleKick_kickWork {σ : Type} (env : Env) (db : Database) (sql : SqlServer σ)
    (tables : σ) (s : EpollServer) (fd : Int) (kickerInfo : ClientInfo) (jsonData : List Byte)
    (hinfo : getClientInfo s fd = some kickerInfo)
    (hg : regexField (stringFieldRegex "group_id") jsonData ≠ [])
    (hm : parseMemberIds jsonData ≠ []) (hdb : db.isConnected = true) :
    GroupHandler.handleKick env db (kickWork env db sql tables) s fd jsonData
      = (GroupHandler.kickMembers env sql db.mysql_ tables s fd kickerInfo
          (regexField (stringFieldRegex "group_id") jsonData) (parseMemberIds jsonData)).1 := by
  have h1 : (regexField (stringFieldRegex "group_id") jsonData).isEmpty = false :=
    isEmpty_false_of_ne_nil _ hg
  have h2 : (parseMemberIds jsonData).isEmpty = false := by
    cases hp : parseMemberIds jsonData with
    | nil => exact absurd hp hm
    | cons a b => rfl
  simp [GroupHandler.handleKick, guardedHandler, hinfo, h1, h2, hdb, kickWork]

/-- C30: `handleKick` removes members that are not listed, from a group in
which the requester has no role, and counts one. User 43 (bob, fd 6), an admin
of group 1 and not in group 2, sends
`{"group_id":"1","member_user_ids":["45 OR user_id = 44"]}`. The one listed id
is `45 OR user_id = 44`; `escapeSql` leaves it as it is, and it is pasted
without quotes into the statements, so the role is read with
`.. WHERE group_id = 1 AND user_id = 45 OR user_id = 44` (a member's role) and
the statement executed is
`DELETE FROM group_members WHERE group_id = 1 AND user_id = 45 OR user_id = 44`.
On the example table this removes user 45 from group 1 and user 44 from
groups 1 and 2; the reply is `{"success":true,"kicked_count":1}`. With plain
ids (`kickRequest` from the owner 42) the handler removes 45 and the admin 43
from group 1 and counts two. -/
theorem handleKick_removes_unlisted_members :
    getClientInfo chatServer 6
      = some { userId := utf8 "43", username := utf8 "bob", authenticated := true } ∧
    regexField (stringFieldRegex "group_id") kickInjection = utf8 "1" ∧
    parseMemberIds kickInjection = [utf8 "45 OR user_id = 44"] ∧
    GroupHandler.escapeSql true (utf8 "45 OR user_id = 44") = utf8 "45 OR user_id = 44" ∧
    getMemberRole demoSql true demoTables (utf8 "1") (utf8 "43") = utf8 "admin" ∧
    getMemberRole demoSql true demoTables (utf8 "2") (utf8 "43") = [] ∧
    memberRoleQuery true (utf8 "1") (utf8 "45 OR user_id = 44")
      = utf8 "SELECT role FROM group_members WHERE group_id = 1 AND user_id = 45 OR user_id = 44" ∧
    getMemberRole demoSql true demoTables (utf8 "1") (utf8 "45 OR user_id = 44")
      = utf8 "member" ∧
    deleteMemberStatement true (utf8 "1") (utf8 "45 OR user_id = 44")
      = utf8 "DELETE FROM group_members WHERE group_id = 1 AND user_id = 45 OR user_id = 44" ∧
    (GroupHandler.kickMembers goodEnv demoSql true demoTables chatServer 6
        { userId := utf8 "43", username := utf8 "bob", authenticated := true } (utf8 "1")
        [utf8 "45 OR user_id = 44"]).2
      = [(1, 42, utf8 "owner"), (1, 43, utf8 "admin"), (2, 46, utf8 "owner")] ∧
    GroupHandler.handleKick goodEnv demoDb (kickWork goodEnv demoDb demoSql demoTables)
        chatServer 6 kickInjection
      = (GroupHandler.kickMembers goodEnv demoSql true demoTables chatServer 6
          { userId := utf8 "43", username := utf8 "bob", authenticated := true } (utf8 "1")
          [utf8 "45 OR user_id = 44"]).1 ∧
    (GroupHandler.handleKick goodEnv demoDb (kickWork goodEnv demoDb demoSql demoTables)
        chatServer 6 kickInjection).calls
      = [SysCall.send 6 (encode MessageType.GROUP_KICK_RESPONSE
          (utf8 "\x7b\"success\":true,\"kicked_count\":1\x7d"))] ∧
    (GroupHandler.kickMembers goodEnv demoSql true demoTables chatServer 5
        { userId := utf8 "42", username := utf8 "alice", authenticated := true } (utf8 "1")
        [utf8 "42", utf8 "45", utf8 "43", utf8 "46"]).2
      = [(1, 42, utf8 "owner"), (1, 44, utf8 "member"), (2, 44, utf8 "member"),
         (2, 46, utf8 "owner")] ∧
    (GroupHandler.handleKick goodEnv demoDb (kickWork goodEnv demoDb demoSql demoTables)
        chatServer 5 kickRequest).calls
      = [SysCall.send 6 (encode MessageType.GROUP_KICK_NOTIFY
          (utf8 "\x7b\"group_id\":\"1\",\"kicker_id\":\"42\"\x7d")),
         SysCall.send 5 (encode MessageType.GROUP_KICK_RESPONSE
          (utf8 "\x7b\"success\":true,\"kicked_count\":2\x7d"))] := by
  have hrun := handleKick_kickWork goodEnv demoDb demoSql demoTables chatServer 6
    { userId := utf8 "43", username := utf8 "bob", authenticated := true } kickInjection
    (by decide) (by set_option maxRecDepth 100000 in decide)
    (by set_option maxRecDepth 100000 in decide) (by decide)
  refine ⟨by decide, ?_, ?_, ?_, ?_, ?_, ?_, ?_, ?_, ?_, ?_, ?_, ?_, ?_⟩
  all_goals set_option maxRecDepth 100000 in decide

end im
